import Mathlib

/-!
# luapgsql: parameter marshaling and handle lifecycle of `luapgsql.c`

A shallow embedding of two parts of `luapgsql.c`.

The first part is the parameter marshaling engine: `get_sql_params` and its
callers `conn_execParams`, `conn_execPrepared` and `conn_prepare` and their
asynchronous variants `conn_sendQueryParams`, `conn_sendPrepare` and
`conn_sendQueryPrepared`, together with the small part of the Lua C API and
of the C allocator those functions use.  Here a Lua value is a tree (`LuaValue`) and the stack a list of such
values.

The second part (namespace `Handles`) is the handle lifecycle: the functions
that create, use and release the connection, result, notification and large
object wrappers, the notice callbacks and the trace redirection.  These
functions assign through pointers and share objects, so the Lua state has a
heap there (`Handles.lua_State`); every call of a native function and
every call of a Lua callable is recorded as an event, and what a native
function returns is a parameter of the function that calls it.

Conventions of the first part

* The Lua stack is a `List LuaValue`, bottom first: the value at absolute
  index `i` is element `i - 1`, the value at relative index `-1` is the last
  element.  A C function called from Lua sees its arguments at indices
  `1 .. lua_gettop`.
* A table is modelled by its positive integer keys only (`get_sql_params`
  reads no other key): `LuaValue.table arr` holds `arr[k-1]` at key `k` and
  `nil` at every other key.  Tables and numbers carry no metatable.
* Lua 5.3 or later is assumed (`LUA_VERSION_NUM >= 503`), so a number is
  either of integer subtype (`LuaValue.integer`) or a float, represented by
  its IEEE-754 bit pattern (`LuaValue.float`).
* C `int` counters are natural numbers.  A signed overflow is undefined
  behaviour in C and is not modelled: model and source agree on the calls
  whose counters stay below `INT_MAX`, and the general statements about the
  two passes carry that bound (`INT_MAX`, `ExecOutcome.inIntRange`,
  `sizeBound`).
* `malloc`/`calloc` hand out fresh pointers, numbered by the order of the
  allocation requests; the oracle `oom j` says that request number `j`
  fails (returns `NULL`).  Every successful allocation and every `free` of a
  non-null pointer is appended to a log.
* A Lua error (`lua_error`, a `longjmp` out of the C function) is an
  outcome of its own: nothing after the raising call is executed.
* The recursion of `get_sql_params` and its unbounded loop run on a budget
  (`fuel`); `needFuel L` is a budget that suffices for the stack `L`
  (`conn_execParams_ne_outOfFuel`).
* `Params.writes` is a record kept by the model only: the slots at which
  `paramValues[n]` was assigned, in the order of the assignments.
-/

namespace LuaPgsql

/-! ## Lua values and the part of the Lua C API that is used -/

/-- A Lua value.  `float` carries the 64 bits of the double; `userdata`
carries the name of the metatable it was created with and the pointer stored
in its block (`none` is `NULL`). -/
inductive LuaValue where
  | nil : LuaValue
  | boolean (b : Bool) : LuaValue
  | integer (i : Int) : LuaValue
  | float (bits : Nat) : LuaValue
  | string (bytes : List Nat) : LuaValue
  | table (arr : List LuaValue) : LuaValue
  | lightuserdata (p : Nat) : LuaValue
  | func (id : Nat) : LuaValue
  | userdata (tname : String) (data : Option Nat) : LuaValue
  | thread (id : Nat) : LuaValue

/-- The type tags returned by `lua_type`. -/
inductive LuaType where
  | LUA_TNONE | LUA_TNIL | LUA_TBOOLEAN | LUA_TLIGHTUSERDATA | LUA_TNUMBER
  | LUA_TSTRING | LUA_TTABLE | LUA_TFUNCTION | LUA_TUSERDATA | LUA_TTHREAD
deriving DecidableEq, Repr

/-- The errors that leave a C function by `lua_error`. -/
inductive LuaError where
  /-- `luaL_argerror(L, arg, extramsg)`: "bad argument #arg (extramsg)". -/
  | argerror (arg : Int) (extramsg : String)
  /-- `luaL_error(L, msg)`. -/
  | error (msg : String)
  /-- The error `lua_gettable` raises when the indexed value is not a table:
  "attempt to index a ... value". -/
  | index_error
deriving DecidableEq, Repr

/-- The Lua stack of one C function call, bottom first. -/
abbrev LuaStack := List LuaValue

/-- The value at a stack index (`index2addr`): positive indices count from
the bottom, negative ones from the top. -/
def index2value (L : LuaStack) (idx : Int) : Option LuaValue :=
  if 0 < idx then L.get? (idx.toNat - 1)
  else if idx < 0 ∧ (-idx).toNat ≤ L.length then L.get? (L.length - (-idx).toNat)
  else none

/-- The type tag of a value. -/
def typeOfValue : LuaValue → LuaType
  | .nil => .LUA_TNIL
  | .boolean _ => .LUA_TBOOLEAN
  | .integer _ => .LUA_TNUMBER
  | .float _ => .LUA_TNUMBER
  | .string _ => .LUA_TSTRING
  | .table _ => .LUA_TTABLE
  | .lightuserdata _ => .LUA_TLIGHTUSERDATA
  | .func _ => .LUA_TFUNCTION
  | .userdata _ _ => .LUA_TUSERDATA
  | .thread _ => .LUA_TTHREAD

/-- The number of values on the stack (`lua_gettop`). -/
def lua_gettop (L : LuaStack) : Nat := L.length

/-- The type tag at a stack index, `LUA_TNONE` for an index without a value. -/
def lua_type (L : LuaStack) (idx : Int) : LuaType :=
  match index2value L idx with
  | some v => typeOfValue v
  | none => .LUA_TNONE

/-- The test `lua_type(L, idx) == LUA_TNIL`. -/
def lua_isnil (L : LuaStack) (idx : Int) : Bool :=
  lua_type L idx == .LUA_TNIL

/-- The C truth value of a stack slot: 0 for `false` and `nil`, 1 otherwise. -/
def lua_toboolean (L : LuaStack) (idx : Int) : Nat :=
  match index2value L idx with
  | some (.boolean b) => if b then 1 else 0
  | some .nil => 0
  | none => 0
  | some _ => 1

/-- Whether the value at a stack index is a number of integer subtype. -/
def lua_isinteger (L : LuaStack) (idx : Int) : Bool :=
  match index2value L idx with
  | some (.integer _) => true
  | _ => false

/-- The integer at a stack slot; 0 when the value is not an integer.  (The
conversion of floats and strings is not needed: `get_sql_params` calls it
under `lua_isinteger` only.) -/
def lua_tointeger (L : LuaStack) (idx : Int) : Int :=
  match index2value L idx with
  | some (.integer i) => i
  | _ => 0

/-- The bits of the double at a stack slot; the bits of `0.0` when the value
is not a float.  (`get_sql_params` calls `lua_tonumber` on numbers that are
not of integer subtype only.) -/
def lua_tonumber (L : LuaStack) (idx : Int) : Nat :=
  match index2value L idx with
  | some (.float bits) => bits
  | _ => 0

/-- The bytes and the length of the string at a stack slot
(`lua_tolstring`); called on strings only. -/
def lua_tolstring (L : LuaStack) (idx : Int) : List Nat × Nat :=
  match index2value L idx with
  | some (.string s) => (s, s.length)
  | _ => ([], 0)

/-- Pushes an integer on the stack. -/
def lua_pushinteger (L : LuaStack) (k : Int) : LuaStack :=
  L ++ [LuaValue.integer k]

/-- Removes the `n` topmost values. -/
def lua_pop (L : LuaStack) (n : Nat) : LuaStack :=
  L.take (L.length - n)

/-- The value a table holds at a key (raw access). -/
def rawget (arr : List LuaValue) (key : LuaValue) : LuaValue :=
  match key with
  | .integer k => if 1 ≤ k then arr.getD (k.toNat - 1) .nil else .nil
  | _ => .nil

/-- The call `lua_gettable(L, idx)`: replaces the key on top of the stack by
`t[key]`, where `t` is the value at `idx` in the stack *that has the key on
top*.  A value that is not a table raises the index error. -/
def lua_gettable (L : LuaStack) (idx : Int) : Except LuaError LuaStack :=
  match index2value L idx, L.getLast? with
  | some (.table arr), some key => .ok (L.dropLast ++ [rawget arr key])
  | _, _ => .error .index_error

/-! ## Wire constants -/

/-- Modelled from the spec: the wire type tag of a boolean parameter.  The
macro comes from a header that is not among the sources; the value is the
one PostgreSQL assigns to `bool`. -/
def BOOLOID : Nat := 16

/-- Modelled from the spec: the wire type tag of a 64-bit integer parameter
(PostgreSQL `int8`); the macro is defined outside the sources. -/
def INT8OID : Nat := 20

/-- Modelled from the spec: the wire type tag of a text parameter
(PostgreSQL `text`); the macro is defined outside the sources. -/
def TEXTOID : Nat := 25

/-- Modelled from the spec: the wire type tag of a 64-bit float parameter
(PostgreSQL `float8`); the macro is defined outside the sources. -/
def FLOAT8OID : Nat := 701

/-- The eight bytes, most significant first, of a 64-bit word: what
`htobe64` leaves in memory. -/
def htobe64 (x : Nat) : List Nat :=
  [x / 2 ^ 56 % 256, x / 2 ^ 48 % 256, x / 2 ^ 40 % 256, x / 2 ^ 32 % 256,
   x / 2 ^ 24 % 256, x / 2 ^ 16 % 256, x / 2 ^ 8 % 256, x % 256]

/-- The conversion of a `lua_Integer` to `uint64_t` (the assignment
`swap.i = lua_tointeger(L, t)`). -/
def toUInt64 (i : Int) : Nat := (i % 2 ^ 64).toNat

/-- Modelled from the spec: the largest value of a C `int`.  `INT_MAX` comes
from `<limits.h>`, which is not among the sources; the value is the one of
the 32-bit `int` of the platforms the library is built for. -/
def INT_MAX : Nat := 2147483647

/-! ## The C side: arrays, buffers and the allocator -/

/-- A value buffer: the pointer `malloc` returned and the bytes stored. -/
structure Buffer where
  ptr : Nat
  bytes : List Nat
deriving DecidableEq, Repr

/-- An entry of the allocation log: a successful allocation request that
returned pointer `p`, or a call `free(p)` with a non-null `p`. -/
inductive MemEvent where
  | alloc (p : Nat)
  | free (p : Nat)
deriving DecidableEq, Repr

/-- The C state `get_sql_params` works on: the four output arrays (`none`
is a `NULL` array pointer), the allocator (number of requests so far and
the log), and the list of slots at which `paramValues[n]` was assigned, in
the order of the assignments. -/
structure Params where
  paramTypes : Option (List Nat)
  paramValues : Option (List (Option Buffer))
  paramLengths : Option (List Nat)
  paramFormats : Option (List Nat)
  allocs : Nat
  log : List MemEvent
  writes : List Nat
deriving DecidableEq, Repr

/-- The state of the count-only pass: four `NULL` arrays. -/
def Params.null (allocs : Nat) (log : List MemEvent) : Params :=
  ⟨none, none, none, none, allocs, log, []⟩

/-- The assignment `a[n] = v` to an array given by pointer. -/
def store {α : Type} (a : Option (List α)) (n : Nat) (v : α) : Option (List α) :=
  a.map (fun l => l.set n v)

/-- An allocation request (`malloc`, `calloc`): the pointer, `none` when the
request fails, and the allocator afterwards. -/
def malloc (oom : Nat → Bool) (p : Params) : Option Nat × Params :=
  if oom p.allocs then (none, { p with allocs := p.allocs + 1 })
  else (some p.allocs, { p with allocs := p.allocs + 1, log := p.log ++ [.alloc p.allocs] })

/-- The outcome of one call of `get_sql_params`. -/
inductive Outcome where
  /-- `return 0`, with `*count` set. -/
  | ret0 (count : Nat) (L : LuaStack) (p : Params)
  /-- `return -1`: an allocation failed; `*count` is not set. -/
  | retm1 (L : LuaStack) (p : Params)
  /-- A Lua error was raised. -/
  | raised (e : LuaError) (p : Params)
  /-- The recursion budget of the model ran out. -/
  | outOfFuel

mutual
/-- The function `get_sql_params(L, t, n, paramTypes, paramValues,
paramLengths, paramFormats, &count)`.  The `int`s `n`, `k`, `c` and `*count`
are natural numbers: the model follows the source as long as they stay
below `INT_MAX`. -/
def get_sql_params (oom : Nat → Bool) : Nat → LuaStack → Int → Nat → Params → Outcome
  | 0, _, _, _, _ => .outOfFuel
  | fuel + 1, L, t, n, p =>
    match lua_type L t with
    | .LUA_TBOOLEAN =>
      let p1 := if p.paramTypes.isSome then
        { p with paramTypes := store p.paramTypes n BOOLOID } else p
      if p1.paramValues.isSome then
        match malloc oom p1 with
        | (none, p2) =>
          .retm1 L { p2 with paramValues := store p2.paramValues n none,
                             writes := p2.writes ++ [n] }
        | (some q, p2) =>
          .ret0 1 L { p2 with
            paramValues := store p2.paramValues n (some ⟨q, [lua_toboolean L t]⟩),
            paramLengths := store p2.paramLengths n 1,
            paramFormats := store p2.paramFormats n 1,
            writes := p2.writes ++ [n] }
      else .ret0 1 L p1
    | .LUA_TNUMBER =>
      let p1 := if p.paramTypes.isSome then
        (if lua_isinteger L t then { p with paramTypes := store p.paramTypes n INT8OID }
         else { p with paramTypes := store p.paramTypes n FLOAT8OID }) else p
      if p1.paramValues.isSome then
        let swap_i := if lua_isinteger L t then toUInt64 (lua_tointeger L t)
          else lua_tonumber L t
        match malloc oom p1 with
        | (none, p2) =>
          .retm1 L { p2 with paramValues := store p2.paramValues n none,
                             writes := p2.writes ++ [n] }
        | (some q, p2) =>
          .ret0 1 L { p2 with
            paramValues := store p2.paramValues n (some ⟨q, htobe64 swap_i⟩),
            paramLengths := store p2.paramLengths n 8,
            paramFormats := store p2.paramFormats n 1,
            writes := p2.writes ++ [n] }
      else .ret0 1 L p1
    | .LUA_TSTRING =>
      let p1 := if p.paramTypes.isSome then
        { p with paramTypes := store p.paramTypes n TEXTOID } else p
      if p1.paramValues.isSome then
        let s := lua_tolstring L t
        match malloc oom p1 with
        | (none, p2) =>
          .retm1 L { p2 with paramValues := store p2.paramValues n none,
                             writes := p2.writes ++ [n] }
        | (some q, p2) =>
          .ret0 1 L { p2 with
            paramValues := store p2.paramValues n (some ⟨q, s.1 ++ [0]⟩),
            writes := p2.writes ++ [n] }
      else .ret0 1 L p1
    | .LUA_TNIL =>
      if p.paramValues.isSome then
        .ret0 1 L { p with paramValues := store p.paramValues n none,
                           writes := p.writes ++ [n] }
      else .ret0 1 L p
    | .LUA_TTABLE => get_sql_params_loop oom fuel L t n 1 p
    | _ => .raised (.argerror t "unsupported type") p

/-- The loop `for (k = 1;; k++)` of the `LUA_TTABLE` case, entered with the
current values of `n` and `k`; it ends with the code after the `switch`.
The additions `n += c` and `k++` are made on natural numbers (no overflow:
see `INT_MAX`). -/
def get_sql_params_loop (oom : Nat → Bool) :
    Nat → LuaStack → Int → Nat → Nat → Params → Outcome
  | 0, _, _, _, _, _ => .outOfFuel
  | fuel + 1, L, t, n, k, p =>
    match lua_gettable (lua_pushinteger L k) t with
    | .error e => .raised e p
    | .ok L1 =>
      if lua_isnil L1 (-1) then
        .ret0 n (lua_pop L1 1) p
      else
        match get_sql_params oom fuel L1 (-1) n p with
        | .ret0 c L2 p2 => get_sql_params_loop oom fuel (lua_pop L2 1) t (n + c) (k + 1) p2
        | .retm1 L2 p2 => .retm1 L2 p2
        | .raised e p2 => .raised e p2
        | .outOfFuel => .outOfFuel
end

/-! ## The callers: `conn_execParams` and `conn_execPrepared` -/

/-- Modelled from the spec: the name under which the metatable of connection
objects is registered; the macro is defined in a header that is not among
the sources, and only its identity matters. -/
def CONN_METATABLE : String := "pgsql connection"

/-- Modelled from the spec: the name under which the metatable of result
objects is registered; the macro is defined outside the sources. -/
def RES_METATABLE : String := "pgsql result"

/-- The function `pgsql_conn(L, n)`: the connection handle stored in the
userdata at index `n`, or the error of `luaL_checkudata` / `luaL_argcheck`. -/
def pgsql_conn (L : LuaStack) (n : Int) : Except LuaError Nat :=
  match index2value L n with
  | some (.userdata tname data) =>
    if tname = CONN_METATABLE then
      match data with
      | some h => .ok h
      | none => .error (.argerror n "database connection is finished")
    else .error (.argerror n "pgsql connection expected")
  | _ => .error (.argerror n "pgsql connection expected")

/-- The check of `luaL_checkstring(L, n)`: strings and numbers are accepted
(the accepted value stands for the C string passed on). -/
def luaL_checkstring (L : LuaStack) (n : Int) : Except LuaError LuaValue :=
  match index2value L n with
  | some (.string s) => .ok (.string s)
  | some (.integer i) => .ok (.integer i)
  | some (.float b) => .ok (.float b)
  | _ => .error (.argerror n "string expected")

/-- The call `free(q)`: no effect on a null pointer. -/
def free (log : List MemEvent) (q : Option Nat) : List MemEvent :=
  match q with
  | none => log
  | some a => log ++ [.free a]

/-- The pointer read from `paramValues[n]`. -/
def valuePtr (vals : List (Option Buffer)) (n : Nat) : Option Nat :=
  (vals.getD n none).map Buffer.ptr

/-- The loop `for (n = 0; n < sqlParams; n++) free(paramValues[n]);`. -/
def free_values (log : List MemEvent) (vals : List (Option Buffer)) (sqlParams : Nat) :
    List MemEvent :=
  (List.range sqlParams).foldl (fun l n => free l (valuePtr vals n)) log

/-- How one of the two loops over the extra arguments ends. -/
inductive LoopOutcome where
  /-- The loop ran to its end, with the final `sqlParams`. -/
  | done (sqlParams : Nat) (p : Params)
  /-- The call `get_sql_params` returned -1 while `sqlParams` had this value (fill pass:
  `goto errout`). -/
  | failed (sqlParams : Nat) (p : Params)
  /-- A Lua error was raised inside `get_sql_params`. -/
  | raised (e : LuaError) (p : Params)
  /-- The recursion budget of the model ran out. -/
  | outOfFuel

/-- The count-only loop
`for (n = 0, sqlParams = 0; n < nParams; n++) { get_sql_params(L, first + n,
sqlParams, NULL, NULL, NULL, NULL, &count); sqlParams += count; }`
entered with `r` iterations left.  The return value is not inspected; after
a `return -1` the variable `count` keeps its previous value (it starts as
0 in the model; with null arrays `get_sql_params` never returns -1).  The
`int` total `sqlParams` is a natural number (no overflow: see `INT_MAX`). -/
def count_loop (oom : Nat → Bool) (fuel : Nat) (first : Nat) :
    Nat → LuaStack → Nat → Nat → Nat → Params → LoopOutcome
  | 0, _, _, sqlParams, _, p => .done sqlParams p
  | r + 1, L, n, sqlParams, count, p =>
    match get_sql_params oom fuel L ((first + n : Nat) : Int) sqlParams p with
    | .ret0 c L1 p1 => count_loop oom fuel first r L1 (n + 1) (sqlParams + c) c p1
    | .retm1 L1 p1 => count_loop oom fuel first r L1 (n + 1) (sqlParams + count) count p1
    | .raised e p1 => .raised e p1
    | .outOfFuel => .outOfFuel

/-- The fill loop
`for (n = 0, sqlParams = 0; n < nParams; n++) { if (get_sql_params(L,
first + n, sqlParams, ...)) goto errout; sqlParams += count; }`
entered with `r` iterations left.  The `int` offset `sqlParams` is a natural
number (no overflow: see `INT_MAX`). -/
def fill_loop (oom : Nat → Bool) (fuel : Nat) (first : Nat) :
    Nat → LuaStack → Nat → Nat → Params → LoopOutcome
  | 0, _, _, sqlParams, p => .done sqlParams p
  | r + 1, L, n, sqlParams, p =>
    match get_sql_params oom fuel L ((first + n : Nat) : Int) sqlParams p with
    | .ret0 c L1 p1 => fill_loop oom fuel first r L1 (n + 1) (sqlParams + c) p1
    | .retm1 _ p1 => .failed sqlParams p1
    | .raised e p1 => .raised e p1
    | .outOfFuel => .outOfFuel

/-- What the native execution function is handed. -/
structure NativeCall where
  conn : Nat
  command : LuaValue
  nParams : Nat
  paramTypes : Option (List Nat)
  paramValues : Option (List (Option Buffer))
  paramLengths : Option (List Nat)
  paramFormats : Option (List Nat)

/-- The outcome of one of the execution functions. -/
inductive ExecOutcome where
  /-- The native function was called with `call`; the C function returned the
  value `retval` (the result object, holding the handle the native function
  returned).  `p` is the final C state, `counted` the total of the
  count-only pass. -/
  | returned (call : NativeCall) (retval : LuaValue) (counted : Nat) (p : Params)
  /-- A Lua error left the function; the native function was not called.
  `counted` is the total of the count-only pass if that pass was completed. -/
  | raised (e : LuaError) (counted : Option Nat) (p : Params)
  /-- The recursion budget of the model ran out. -/
  | outOfFuel

/-- The label `errout` of `conn_execParams`, entered with the four array
pointers and the current `sqlParams`. -/
def errout_execParams (p : Params) (tptr vptr lptr fptr : Option Nat) (sqlParams : Nat) :
    List MemEvent :=
  let log1 := match vptr, p.paramValues with
    | some v, some vals => free (free_values p.log vals sqlParams) (some v)
    | _, _ => p.log
  free (free (free log1 tptr) lptr) fptr

/-- The function `conn_execParams`, called with the stack `L` (connection,
command, extra arguments); `result` is what `PQexecParams` returns.

`nParams` is `lua_gettop(L) - 2`, replaced by 0 when negative (truncated
subtraction).  The four `calloc` calls are the allocation requests 0 to 3.
The two checks in the argument list of `PQexecParams`, `pgsql_conn(L, 1)` and
`luaL_checkstring(L, 2)`, are made after the fill pass and before the
native call; either of them leaves the function by a Lua error, with
everything allocated so far still allocated.  The count-only loop never
ends by `failed`; that case is there for the match to be complete.  The
arrays are sized and the release loop is bounded by natural numbers, which
are the `int` values of the source when the count-only total is below
`INT_MAX` (`ExecOutcome.inIntRange`). -/
def conn_execParams (oom : Nat → Bool) (result : Option Nat) (fuel : Nat) (L : LuaStack) :
    ExecOutcome :=
  let nParams := lua_gettop L - 2
  match count_loop oom fuel 3 nParams L 0 0 0 (Params.null 0 []) with
  | .raised e p => .raised e none p
  | .outOfFuel => .outOfFuel
  | .failed _ p => .raised (.error "out of memory") none p
  | .done counted p0 =>
    if counted ≠ 0 then
      let (tptr, p1) := malloc oom p0
      let (vptr, p2) := malloc oom p1
      let (lptr, p3) := malloc oom p2
      let (fptr, p4) := malloc oom p3
      let p5 : Params :=
        { p4 with paramTypes := tptr.map (fun _ => List.replicate counted 0),
                  paramValues := vptr.map (fun _ => List.replicate counted none),
                  paramLengths := lptr.map (fun _ => List.replicate counted 0),
                  paramFormats := fptr.map (fun _ => List.replicate counted 0) }
      if tptr.isNone ∨ vptr.isNone ∨ lptr.isNone ∨ fptr.isNone then
        .raised (.error "out of memory") (some counted)
          { p5 with log := errout_execParams p5 tptr vptr lptr fptr counted }
      else
        match fill_loop oom fuel 3 nParams L 0 0 p5 with
        | .raised e p6 => .raised e (some counted) p6
        | .outOfFuel => .outOfFuel
        | .failed sqlParams p6 =>
          .raised (.error "out of memory") (some counted)
            { p6 with log := errout_execParams p6 tptr vptr lptr fptr sqlParams }
        | .done sqlParams p6 =>
          match pgsql_conn L 1, luaL_checkstring L 2 with
          | .error e, _ => .raised e (some counted) p6
          | .ok _, .error e => .raised e (some counted) p6
          | .ok conn, .ok cmd =>
            let call : NativeCall := ⟨conn, cmd, sqlParams, p6.paramTypes, p6.paramValues,
              p6.paramLengths, p6.paramFormats⟩
            let log1 := if sqlParams ≠ 0 then
              free (free (free (free
                (free_values p6.log (p6.paramValues.getD []) sqlParams) tptr) vptr) lptr) fptr
              else p6.log
            .returned call (.userdata RES_METATABLE result) counted { p6 with log := log1 }
    else
      match pgsql_conn L 1, luaL_checkstring L 2 with
      | .error e, _ => .raised e (some counted) p0
      | .ok _, .error e => .raised e (some counted) p0
      | .ok conn, .ok cmd =>
        .returned ⟨conn, cmd, counted, none, none, none, none⟩
          (.userdata RES_METATABLE result) counted p0

/-- The label `errout` of `conn_execPrepared`. -/
def errout_execPrepared (p : Params) (vptr lptr fptr : Option Nat) (sqlParams : Nat) :
    List MemEvent :=
  let log1 := match vptr, p.paramValues with
    | some v, some vals => free (free_values p.log vals sqlParams) (some v)
    | _, _ => p.log
  free (free log1 lptr) fptr

/-- The function `conn_execPrepared`, called with the stack `L` (connection,
statement name, extra arguments); `result` is what `PQexecPrepared`
returns.  It differs from `conn_execParams` in having no type array: three
`calloc` calls (requests 0 to 2) and a null `paramTypes` in every call of
`get_sql_params`.  As in `conn_execParams`, the totals are natural numbers,
the `int` values of the source when the count-only total is below
`INT_MAX`. -/
def conn_execPrepared (oom : Nat → Bool) (result : Option Nat) (fuel : Nat) (L : LuaStack) :
    ExecOutcome :=
  let nParams := lua_gettop L - 2
  match count_loop oom fuel 3 nParams L 0 0 0 (Params.null 0 []) with
  | .raised e p => .raised e none p
  | .outOfFuel => .outOfFuel
  | .failed _ p => .raised (.error "out of memory") none p
  | .done counted p0 =>
    if counted ≠ 0 then
      let (vptr, p2) := malloc oom p0
      let (lptr, p3) := malloc oom p2
      let (fptr, p4) := malloc oom p3
      let p5 : Params :=
        { p4 with paramValues := vptr.map (fun _ => List.replicate counted none),
                  paramLengths := lptr.map (fun _ => List.replicate counted 0),
                  paramFormats := fptr.map (fun _ => List.replicate counted 0) }
      if vptr.isNone ∨ lptr.isNone ∨ fptr.isNone then
        .raised (.error "out of memory") (some counted)
          { p5 with log := errout_execPrepared p5 vptr lptr fptr counted }
      else
        match fill_loop oom fuel 3 nParams L 0 0 p5 with
        | .raised e p6 => .raised e (some counted) p6
        | .outOfFuel => .outOfFuel
        | .failed sqlParams p6 =>
          .raised (.error "out of memory") (some counted)
            { p6 with log := errout_execPrepared p6 vptr lptr fptr sqlParams }
        | .done sqlParams p6 =>
          match pgsql_conn L 1, luaL_checkstring L 2 with
          | .error e, _ => .raised e (some counted) p6
          | .ok _, .error e => .raised e (some counted) p6
          | .ok conn, .ok name =>
            let call : NativeCall := ⟨conn, name, sqlParams, none, p6.paramValues,
              p6.paramLengths, p6.paramFormats⟩
            let log1 := if sqlParams ≠ 0 then
              free (free (free
                (free_values p6.log (p6.paramValues.getD []) sqlParams) vptr) lptr) fptr
              else p6.log
            .returned call (.userdata RES_METATABLE result) counted { p6 with log := log1 }
    else
      match pgsql_conn L 1, luaL_checkstring L 2 with
      | .error e, _ => .raised e (some counted) p0
      | .ok _, .error e => .raised e (some counted) p0
      | .ok conn, .ok name =>
        .returned ⟨conn, name, counted, none, none, none, none⟩
          (.userdata RES_METATABLE result) counted p0

/-! ## Observations on outcomes -/

/-- The total of the count-only pass, when that pass ran to its end. -/
def ExecOutcome.counted? : ExecOutcome → Option Nat
  | .returned _ _ c _ => some c
  | .raised _ c _ => c
  | .outOfFuel => none

/-- The native call that was made, if any. -/
def ExecOutcome.call? : ExecOutcome → Option NativeCall
  | .returned c _ _ _ => some c
  | _ => none

/-- The parameter count handed to the native function. -/
def ExecOutcome.nParams? (o : ExecOutcome) : Option Nat :=
  o.call?.map NativeCall.nParams

/-- The error raised, if any. -/
def ExecOutcome.error? : ExecOutcome → Option LuaError
  | .raised e _ _ => some e
  | _ => none

/-- The final C state. -/
def ExecOutcome.params? : ExecOutcome → Option Params
  | .returned _ _ _ p => some p
  | .raised _ _ p => some p
  | .outOfFuel => none

/-- The allocation log at the end. -/
def ExecOutcome.log (o : ExecOutcome) : List MemEvent :=
  (o.params?.map Params.log).getD []

/-- The slots at which the fill pass assigned `paramValues[n]`, in order. -/
def ExecOutcome.writes (o : ExecOutcome) : List Nat :=
  (o.params?.map Params.writes).getD []

/-- One parameter as the native function sees it: type tag, the bytes the
value pointer points to (`none` for a null pointer), length and format. -/
structure Slot where
  type : Nat
  value : Option (List Nat)
  length : Nat
  format : Nat
deriving DecidableEq, Repr

/-- Slot `n` of the four parallel arrays (a `NULL` type array reads as 0). -/
def slotAt (p : Params) (n : Nat) : Slot :=
  ⟨(p.paramTypes.getD []).getD n 0,
   ((p.paramValues.getD []).getD n none).map Buffer.bytes,
   (p.paramLengths.getD []).getD n 0,
   (p.paramFormats.getD []).getD n 0⟩

/-- The slots `0 .. nParams - 1` handed to the native function. -/
def ExecOutcome.slots (o : ExecOutcome) : List Slot :=
  match o with
  | .returned c _ _ p => (List.range c.nParams).map (slotAt p)
  | _ => []

/-- Replays an allocation log from a set of live pointers: the pointers
still allocated at the end, or `none` when the log frees a pointer that is
not allocated at that point (a double free, or a free of something never
allocated) or allocates a pointer that is still live. -/
def replay : List MemEvent → List Nat → Option (List Nat)
  | [], live => some live
  | .alloc q :: es, live => if q ∈ live then none else replay es (q :: live)
  | .free q :: es, live => if q ∈ live then replay es (live.erase q) else none

/-- The elements of a table that the loop of `get_sql_params` reaches: those
before the first `nil`. -/
def visited (arr : List LuaValue) : List LuaValue :=
  arr.takeWhile (fun v => typeOfValue v != .LUA_TNIL)

/-- The values `get_sql_params` turns into one parameter when it meets them
as a table element: booleans, numbers and strings. -/
def isParamScalar (v : LuaValue) : Bool :=
  typeOfValue v == .LUA_TBOOLEAN || typeOfValue v == .LUA_TNUMBER
    || typeOfValue v == .LUA_TSTRING

/-- The open connection object used in the examples. -/
def exampleConn : LuaValue := .userdata CONN_METATABLE (some 7)

/-- The command string used in the examples. -/
def exampleCmd : LuaValue := .string [83, 69, 76, 69, 67, 84]

/-- The allocator that never fails. -/
def noOom : Nat → Bool := fun _ => false

/-! ## Definitions used in the statements and proofs

The cases of `get_sql_params` as functions of the value met (`leafCase`,
`tableCase`, `argCase`), the count-only pass as a function of the arguments
(`countElems`, `countArg`, `countArgs`), and the invariant of the fill pass. -/

/-- The type tag the scalar cases store. -/
def leafType : LuaValue → Option Nat
  | .boolean _ => some BOOLOID
  | .integer _ => some INT8OID
  | .float _ => some FLOAT8OID
  | .string _ => some TEXTOID
  | _ => none

/-- The bytes the scalar cases put into a fresh buffer (`none`: no buffer). -/
def leafBytes : LuaValue → Option (List Nat)
  | .boolean b => some [if b then 1 else 0]
  | .integer i => some (htobe64 (toUInt64 i))
  | .float bits => some (htobe64 bits)
  | .string s => some (s ++ [0])
  | _ => none

/-- The length and format the scalar cases store (`none`: not stored). -/
def leafLenFmt : LuaValue → Option (Nat × Nat)
  | .boolean _ => some (1, 1)
  | .integer _ => some (8, 1)
  | .float _ => some (8, 1)
  | _ => none

/-- The assignment `a[n] = v` when there is a value to assign. -/
def storeOpt {α : Type} (a : Option (List α)) (n : Nat) (v : Option α) : Option (List α) :=
  match v with
  | some x => store a n x
  | none => a

/-- The four scalar cases of the `switch` of `get_sql_params`, as a function
of the value met. -/
def leafCase (oom : Nat → Bool) (L : LuaStack) (v : LuaValue) (n : Nat) (p : Params) : Outcome :=
  if p.paramValues.isSome then
    match leafBytes v with
    | none =>
      .ret0 1 L { p with paramTypes := storeOpt p.paramTypes n (leafType v),
                         paramValues := store p.paramValues n none,
                         writes := p.writes ++ [n] }
    | some bytes =>
      if oom p.allocs then
        .retm1 L { p with paramTypes := storeOpt p.paramTypes n (leafType v),
                          paramValues := store p.paramValues n none,
                          allocs := p.allocs + 1,
                          writes := p.writes ++ [n] }
      else
        .ret0 1 L { p with paramTypes := storeOpt p.paramTypes n (leafType v),
                           paramValues := store p.paramValues n (some ⟨p.allocs, bytes⟩),
                           paramLengths := storeOpt p.paramLengths n ((leafLenFmt v).map Prod.fst),
                           paramFormats := storeOpt p.paramFormats n ((leafLenFmt v).map Prod.snd),
                           allocs := p.allocs + 1,
                           log := p.log ++ [.alloc p.allocs],
                           writes := p.writes ++ [n] }
  else .ret0 1 L { p with paramTypes := storeOpt p.paramTypes n (leafType v) }

/-- The values handled by the four scalar cases of the `switch`: booleans,
numbers, strings and `nil`. -/
def isLeaf (v : LuaValue) : Bool := isParamScalar v || typeOfValue v == .LUA_TNIL

/-- The loop of the `LUA_TTABLE` case over the elements still to be read of a
table that sits at an absolute stack index. -/
def tableCase (oom : Nat → Bool) (L : LuaStack) : List LuaValue → Nat → Params → Outcome
  | [], n, p => .ret0 n L p
  | v :: vs, n, p =>
    if typeOfValue v == .LUA_TNIL then .ret0 n L p
    else if isParamScalar v then
      match leafCase oom (L ++ [v]) v n p with
      | .ret0 c _ p1 => tableCase oom L vs (n + c) p1
      | o => o
    else if typeOfValue v == .LUA_TTABLE then .raised .index_error p
    else .raised (.argerror (-1) "unsupported type") p

/-- The number of array entries of a table, 0 for other values. -/
def tableLen : LuaValue → Nat
  | .table arr => arr.length
  | _ => 0

/-- A recursion budget that suffices for every value on the stack. -/
def needFuel (L : LuaStack) : Nat := (L.map tableLen).foldr max 0 + 3

/-- One call of `get_sql_params` on the value at an absolute stack index. -/
def argCase (oom : Nat → Bool) (L : LuaStack) (t : Int) (v : LuaValue) (n : Nat) (p : Params) :
    Outcome :=
  match v with
  | .table arr => tableCase oom L arr n p
  | _ => if isLeaf v then leafCase oom L v n p else .raised (.argerror t "unsupported type") p

/-- The value of `n` after the loop of the `LUA_TTABLE` case, or the error
it raises. -/
def countElems : List LuaValue → Nat → Except LuaError Nat
  | [], n => .ok n
  | v :: vs, n =>
    if typeOfValue v == .LUA_TNIL then .ok n
    else if isParamScalar v then countElems vs (n + 1)
    else if typeOfValue v == .LUA_TTABLE then .error .index_error
    else .error (.argerror (-1) "unsupported type")

/-- The value of `*count` after `get_sql_params(L, t, s, NULL, ...)`, or the
error raised. -/
def countArg (t : Int) (s : Nat) (v : LuaValue) : Except LuaError Nat :=
  match v with
  | .table arr => countElems arr s
  | _ => if isLeaf v then .ok 1 else .error (.argerror t "unsupported type")

/-- The total of the count-only loop over the remaining arguments. -/
def countArgs (first : Nat) : List LuaValue → Nat → Nat → Except LuaError Nat
  | [], _, s => .ok s
  | v :: vs, n, s =>
    match countArg ((first + n : Nat) : Int) s v with
    | .ok c => countArgs first vs (n + 1) (s + c)
    | .error e => .error e

/-- Decoding of eight bytes, most significant first, as an unsigned 64-bit
word (what the server does with a binary `int8`/`float8` parameter). -/
def be64_unsigned (bytes : List Nat) : Nat :=
  bytes.foldl (fun acc b => acc * 256 + b) 0

/-- Decoding of eight big-endian bytes as a signed (two's complement) 64-bit
integer. -/
def be64_signed (bytes : List Nat) : Int :=
  if be64_unsigned bytes < 2 ^ 63 then (be64_unsigned bytes : Int)
  else (be64_unsigned bytes : Int) - 2 ^ 64

/-- All four output arrays are non-null and have a slot `n`. -/
def inBounds (p : Params) (n : Nat) : Bool :=
  n < (p.paramTypes.map List.length).getD 0 && n < (p.paramValues.map List.length).getD 0
    && n < (p.paramLengths.map List.length).getD 0 && n < (p.paramFormats.map List.length).getD 0

/-- An extra argument the count-only pass accepts: a boolean, a number, a
string, `nil`, or a table whose elements before the first `nil` are
booleans, numbers or strings. -/
def accepted (v : LuaValue) : Bool :=
  match v with
  | .table arr => (visited arr).all isParamScalar
  | _ => isLeaf v

/-- The slot as `calloc` leaves it: type 0, null value, length 0, format 0. -/
def Slot.zero : Slot := ⟨0, none, 0, 0⟩

/-- The C state at the start of a fill pass of `conn_execParams` over `N`
slots: four zeroed arrays (requests 0 to 3). -/
def freshParams (N : Nat) : Params :=
  { paramTypes := some (List.replicate N 0), paramValues := some (List.replicate N none),
    paramLengths := some (List.replicate N 0), paramFormats := some (List.replicate N 0),
    allocs := 4, log := [.alloc 0, .alloc 1, .alloc 2, .alloc 3], writes := [] }

/-- The slot the scalar cases produce for a value when they start from a
zeroed slot. -/
def encodeSlot (v : LuaValue) : Slot :=
  ⟨(leafType v).getD 0, leafBytes v, ((leafLenFmt v).map Prod.fst).getD 0,
   ((leafLenFmt v).map Prod.snd).getD 0⟩

/-- The state of the four arrays after the fill pass has handled the
arguments `done`, all scalars: `N` slots each, slot `i` encoding the `i`-th
argument handled, the other slots still zeroed. -/
def SlotInv (N : Nat) (done : List LuaValue) (p : Params) : Prop :=
  (∃ ts vs ls fs, p.paramTypes = some ts ∧ p.paramValues = some vs ∧ p.paramLengths = some ls ∧
    p.paramFormats = some fs ∧ ts.length = N ∧ vs.length = N ∧ ls.length = N ∧ fs.length = N) ∧
  ∀ i, slotAt p i = (done.map encodeSlot).getD i Slot.zero

/-! ## Further callers and observations of the parameter functions -/

/-- The connection object after `conn:finish()`: the handle slot is null. -/
def finishedConn : LuaValue := .userdata CONN_METATABLE none

/-- The value the C function returned to Lua, if it returned. -/
def ExecOutcome.retval? : ExecOutcome → Option LuaValue
  | .returned _ v _ _ => some v
  | _ => none

/-- The function `conn_prepare`, called with the stack `L` (connection,
statement name, command, extra arguments); `result` is what `PQprepare`
returns.  Only the type array is allocated (request 0) and filled.  The
statement name is checked and passed on; the record of the native call keeps
the command. -/
def conn_prepare (oom : Nat → Bool) (result : Option Nat) (fuel : Nat) (L : LuaStack) :
    ExecOutcome :=
  let nParams := lua_gettop L - 3
  match count_loop oom fuel 4 nParams L 0 0 0 (Params.null 0 []) with
  | .raised e p => .raised e none p
  | .outOfFuel => .outOfFuel
  | .failed _ p => .raised (.error "out of memory") none p
  | .done counted p0 =>
    if counted ≠ 0 then
      let (tptr, p1) := malloc oom p0
      if tptr.isNone then
        .raised (.error "out of memory") (some counted) p1
      else
        let p5 : Params := { p1 with paramTypes := some (List.replicate counted 0) }
        match fill_loop oom fuel 4 nParams L 0 0 p5 with
        | .raised e p6 => .raised e (some counted) p6
        | .outOfFuel => .outOfFuel
        | .failed _ p6 =>
          .raised (.error "out of memory") (some counted) { p6 with log := free p6.log tptr }
        | .done sqlParams p6 =>
          match pgsql_conn L 1, luaL_checkstring L 2, luaL_checkstring L 3 with
          | .error e, _, _ => .raised e (some counted) p6
          | .ok _, .error e, _ => .raised e (some counted) p6
          | .ok _, .ok _, .error e => .raised e (some counted) p6
          | .ok conn, .ok _, .ok cmd =>
            let call : NativeCall := ⟨conn, cmd, sqlParams, p6.paramTypes, none, none, none⟩
            let log1 := if sqlParams ≠ 0 then free p6.log tptr else p6.log
            .returned call (.userdata RES_METATABLE result) counted { p6 with log := log1 }
    else
      match pgsql_conn L 1, luaL_checkstring L 2, luaL_checkstring L 3 with
      | .error e, _, _ => .raised e (some counted) p0
      | .ok _, .error e, _ => .raised e (some counted) p0
      | .ok _, .ok _, .error e => .raised e (some counted) p0
      | .ok conn, .ok _, .ok cmd =>
        .returned ⟨conn, cmd, counted, none, none, none, none⟩
          (.userdata RES_METATABLE result) counted p0

/-! ## The asynchronous variants of the callers

The three functions `conn_sendQueryParams`, `conn_sendPrepare` and
`conn_sendQueryPrepared` have the two passes of their synchronous counterparts,
with one difference in the count-only loop: every call of `get_sql_params`
is handed the offset 0, not the running total.  They push the integer the
native send function returns.

An access beyond the end of an array, or through a null array pointer, is
undefined behaviour in C.  The model does not stop there: such a store
leaves the arrays as they are (`store`), such a read yields a null pointer
(`valuePtr`).  The indices stay visible: `Params.writes` lists the slots at
which `paramValues[n]` was assigned, the record of the native call holds the
arrays and the parameter count, and a release loop reads the indices below
its bound. -/

/-- The count-only loop of the send functions
`for (n = 0, sqlParams = 0; n < nParams; n++) { get_sql_params(L, first + n,
0, NULL, NULL, NULL, NULL, &count); sqlParams += count; }`
entered with `r` iterations left.  The return value is not inspected; after
a `return -1` the variable `count` keeps its previous value (it starts as
0 in the model; with null arrays `get_sql_params` never returns -1). -/
def count_loop_send (oom : Nat → Bool) (fuel : Nat) (first : Nat) :
    Nat → LuaStack → Nat → Nat → Nat → Params → LoopOutcome
  | 0, _, _, sqlParams, _, p => .done sqlParams p
  | r + 1, L, n, sqlParams, count, p =>
    match get_sql_params oom fuel L ((first + n : Nat) : Int) 0 p with
    | .ret0 c L1 p1 => count_loop_send oom fuel first r L1 (n + 1) (sqlParams + c) c p1
    | .retm1 L1 p1 => count_loop_send oom fuel first r L1 (n + 1) (sqlParams + count) count p1
    | .raised e p1 => .raised e p1
    | .outOfFuel => .outOfFuel

/-- The label `errout` of `conn_sendQueryParams`, entered with the four array
pointers and the current `sqlParams`. -/
def errout_sendQueryParams (p : Params) (tptr vptr lptr fptr : Option Nat) (sqlParams : Nat) :
    List MemEvent :=
  let log1 := match vptr, p.paramValues with
    | some v, some vals => free (free_values p.log vals sqlParams) (some v)
    | _, _ => p.log
  free (free (free log1 tptr) lptr) fptr

/-- The function `conn_sendQueryParams`, called with the stack `L`
(connection, command, extra arguments); `result` is what `PQsendQueryParams`
returns, pushed as an integer.  The four `calloc` calls are the allocation
requests 0 to 3, sized by the total of the count-only loop
(`count_loop_send`); the parameter count handed to the native function and
the bound of the release loop is `sqlParams` as the fill loop leaves it. -/
def conn_sendQueryParams (oom : Nat → Bool) (result : Int) (fuel : Nat) (L : LuaStack) :
    ExecOutcome :=
  let nParams := lua_gettop L - 2
  match count_loop_send oom fuel 3 nParams L 0 0 0 (Params.null 0 []) with
  | .raised e p => .raised e none p
  | .outOfFuel => .outOfFuel
  | .failed _ p => .raised (.error "out of memory") none p
  | .done counted p0 =>
    if counted ≠ 0 then
      let (tptr, p1) := malloc oom p0
      let (vptr, p2) := malloc oom p1
      let (lptr, p3) := malloc oom p2
      let (fptr, p4) := malloc oom p3
      let p5 : Params :=
        { p4 with paramTypes := tptr.map (fun _ => List.replicate counted 0),
                  paramValues := vptr.map (fun _ => List.replicate counted none),
                  paramLengths := lptr.map (fun _ => List.replicate counted 0),
                  paramFormats := fptr.map (fun _ => List.replicate counted 0) }
      if tptr.isNone ∨ vptr.isNone ∨ lptr.isNone ∨ fptr.isNone then
        .raised (.error "out of memory") (some counted)
          { p5 with log := errout_sendQueryParams p5 tptr vptr lptr fptr counted }
      else
        match fill_loop oom fuel 3 nParams L 0 0 p5 with
        | .raised e p6 => .raised e (some counted) p6
        | .outOfFuel => .outOfFuel
        | .failed sqlParams p6 =>
          .raised (.error "out of memory") (some counted)
            { p6 with log := errout_sendQueryParams p6 tptr vptr lptr fptr sqlParams }
        | .done sqlParams p6 =>
          match pgsql_conn L 1, luaL_checkstring L 2 with
          | .error e, _ => .raised e (some counted) p6
          | .ok _, .error e => .raised e (some counted) p6
          | .ok conn, .ok cmd =>
            let call : NativeCall := ⟨conn, cmd, sqlParams, p6.paramTypes, p6.paramValues,
              p6.paramLengths, p6.paramFormats⟩
            let log1 := if sqlParams ≠ 0 then
              free (free (free (free
                (free_values p6.log (p6.paramValues.getD []) sqlParams) tptr) vptr) lptr) fptr
              else p6.log
            .returned call (.integer result) counted { p6 with log := log1 }
    else
      match pgsql_conn L 1, luaL_checkstring L 2 with
      | .error e, _ => .raised e (some counted) p0
      | .ok _, .error e => .raised e (some counted) p0
      | .ok conn, .ok cmd =>
        .returned ⟨conn, cmd, counted, none, none, none, none⟩ (.integer result) counted p0

/-- The function `conn_sendPrepare`, called with the stack `L` (connection,
statement name, command, extra arguments); `result` is what `PQsendPrepare`
returns, pushed as an integer.  Only the type array is allocated (request 0),
sized by the total of the count-only loop, and filled.  The statement name
is checked and passed on; the record of the native call keeps the command. -/
def conn_sendPrepare (oom : Nat → Bool) (result : Int) (fuel : Nat) (L : LuaStack) :
    ExecOutcome :=
  let nParams := lua_gettop L - 3
  match count_loop_send oom fuel 4 nParams L 0 0 0 (Params.null 0 []) with
  | .raised e p => .raised e none p
  | .outOfFuel => .outOfFuel
  | .failed _ p => .raised (.error "out of memory") none p
  | .done counted p0 =>
    if counted ≠ 0 then
      let (tptr, p1) := malloc oom p0
      if tptr.isNone then
        .raised (.error "out of memory") (some counted) p1
      else
        let p5 : Params := { p1 with paramTypes := some (List.replicate counted 0) }
        match fill_loop oom fuel 4 nParams L 0 0 p5 with
        | .raised e p6 => .raised e (some counted) p6
        | .outOfFuel => .outOfFuel
        | .failed _ p6 =>
          .raised (.error "out of memory") (some counted) { p6 with log := free p6.log tptr }
        | .done sqlParams p6 =>
          match pgsql_conn L 1, luaL_checkstring L 2, luaL_checkstring L 3 with
          | .error e, _, _ => .raised e (some counted) p6
          | .ok _, .error e, _ => .raised e (some counted) p6
          | .ok _, .ok _, .error e => .raised e (some counted) p6
          | .ok conn, .ok _, .ok cmd =>
            let call : NativeCall := ⟨conn, cmd, sqlParams, p6.paramTypes, none, none, none⟩
            let log1 := if sqlParams ≠ 0 then free p6.log tptr else p6.log
            .returned call (.integer result) counted { p6 with log := log1 }
    else
      match pgsql_conn L 1, luaL_checkstring L 2, luaL_checkstring L 3 with
      | .error e, _, _ => .raised e (some counted) p0
      | .ok _, .error e, _ => .raised e (some counted) p0
      | .ok _, .ok _, .error e => .raised e (some counted) p0
      | .ok conn, .ok _, .ok cmd =>
        .returned ⟨conn, cmd, counted, none, none, none, none⟩ (.integer result) counted p0

/-- The label `errout` of `conn_sendQueryPrepared`: the loop over the value
array runs up to `nParams`, the number of extra arguments. -/
def errout_sendQueryPrepared (p : Params) (vptr lptr fptr : Option Nat) (nParams : Nat) :
    List MemEvent :=
  let log1 := match vptr, p.paramValues with
    | some v, some vals => free (free_values p.log vals nParams) (some v)
    | _, _ => p.log
  free (free log1 lptr) fptr

/-- The function `conn_sendQueryPrepared`, called with the stack `L`
(connection, statement name, extra arguments); `result` is what
`PQsendQueryPrepared` returns, pushed as an integer.  Three `calloc` calls
(requests 0 to 2), sized by the total of the count-only loop, and a null
`paramTypes` in every call of `get_sql_params`.  The parameter count handed
to the native function, the test before the release and the bound of the
release loop are `nParams`, the number of extra arguments; `sqlParams` as
the fill loop leaves it is not used.  When the count-only total is 0 the
three array pointers are null and the release, entered when `nParams` is
not 0, reads `paramValues[n]` through the null pointer. -/
def conn_sendQueryPrepared (oom : Nat → Bool) (result : Int) (fuel : Nat) (L : LuaStack) :
    ExecOutcome :=
  let nParams := lua_gettop L - 2
  match count_loop_send oom fuel 3 nParams L 0 0 0 (Params.null 0 []) with
  | .raised e p => .raised e none p
  | .outOfFuel => .outOfFuel
  | .failed _ p => .raised (.error "out of memory") none p
  | .done counted p0 =>
    if counted ≠ 0 then
      let (vptr, p2) := malloc oom p0
      let (lptr, p3) := malloc oom p2
      let (fptr, p4) := malloc oom p3
      let p5 : Params :=
        { p4 with paramValues := vptr.map (fun _ => List.replicate counted none),
                  paramLengths := lptr.map (fun _ => List.replicate counted 0),
                  paramFormats := fptr.map (fun _ => List.replicate counted 0) }
      if vptr.isNone ∨ lptr.isNone ∨ fptr.isNone then
        .raised (.error "out of memory") (some counted)
          { p5 with log := errout_sendQueryPrepared p5 vptr lptr fptr nParams }
      else
        match fill_loop oom fuel 3 nParams L 0 0 p5 with
        | .raised e p6 => .raised e (some counted) p6
        | .outOfFuel => .outOfFuel
        | .failed _ p6 =>
          .raised (.error "out of memory") (some counted)
            { p6 with log := errout_sendQueryPrepared p6 vptr lptr fptr nParams }
        | .done _ p6 =>
          match pgsql_conn L 1, luaL_checkstring L 2 with
          | .error e, _ => .raised e (some counted) p6
          | .ok _, .error e => .raised e (some counted) p6
          | .ok conn, .ok name =>
            let call : NativeCall := ⟨conn, name, nParams, none, p6.paramValues,
              p6.paramLengths, p6.paramFormats⟩
            let log1 := if nParams ≠ 0 then
              free (free (free
                (free_values p6.log (p6.paramValues.getD []) nParams) vptr) lptr) fptr
              else p6.log
            .returned call (.integer result) counted { p6 with log := log1 }
    else
      match pgsql_conn L 1, luaL_checkstring L 2 with
      | .error e, _ => .raised e (some counted) p0
      | .ok _, .error e => .raised e (some counted) p0
      | .ok conn, .ok name =>
        let log1 := if nParams ≠ 0 then free_values p0.log [] nParams else p0.log
        .returned ⟨conn, name, nParams, none, none, none, none⟩ (.integer result) counted
          { p0 with log := log1 }

/-! ## Observations for the statements on array bounds -/

/-- The type array handed to the native function (`none` when no call was
made or the array pointer is null). -/
def ExecOutcome.paramTypes? (o : ExecOutcome) : Option (List Nat) :=
  o.call?.bind NativeCall.paramTypes

/-- The value array handed to the native function (`none` when no call was
made or the array pointer is null). -/
def ExecOutcome.paramValues? (o : ExecOutcome) : Option (List (Option Buffer)) :=
  o.call?.bind NativeCall.paramValues

/-- The C state at the end of a call of `get_sql_params`. -/
def Outcome.params? : Outcome → Option Params
  | .ret0 _ _ p => some p
  | .retm1 _ p => some p
  | .raised _ p => some p
  | .outOfFuel => none

/-- The C state at the end of one of the loops over the extra arguments. -/
def LoopOutcome.params? : LoopOutcome → Option Params
  | .done _ p => some p
  | .failed _ p => some p
  | .raised _ p => some p
  | .outOfFuel => none

/-- The count-only pass of a call has run to its end with a total below
`INT_MAX`.  The counters `n`, `count` and `sqlParams` of the source are C
`int`s that only grow, up to that total, and the table index `k` stays at
most one above it: under this condition no `int` of a call of
`conn_execParams`, `conn_execPrepared` or `conn_prepare` overflows, and the
natural numbers of the model are the values of the source. -/
def ExecOutcome.inIntRange (o : ExecOutcome) : Prop :=
  ∃ N, o.counted? = some N ∧ N < INT_MAX

/-- The slot the scalar cases of `get_sql_params` leave when they meet the
value `v` at a slot holding `old`: the type and the value pointer are
assigned, length and format are assigned for booleans and numbers and keep
their content for strings. -/
def fillSlot (v : LuaValue) (old : Slot) : Slot :=
  ⟨(leafType v).getD old.type, leafBytes v, ((leafLenFmt v).map Prod.fst).getD old.length,
   ((leafLenFmt v).map Prod.snd).getD old.format⟩

/-- An outcome of `get_sql_params` without the Lua stack: the return code,
`*count`, the error and the C state. -/
def Outcome.withoutStack : Outcome → Outcome
  | .ret0 c _ p => .ret0 c [] p
  | .retm1 _ p => .retm1 [] p
  | .raised e p => .raised e p
  | .outOfFuel => .outOfFuel

/-! ## Handle lifecycle: a Lua state with a heap

The functions below assign through the pointer a userdata block holds and
share userdata objects through tables, so this part of the model has a heap:
a value refers to a userdata block or to a table by its address.

Conventions of this part

* A C function called from Lua runs on a stack of its own that holds the
  arguments of the call (`frame`); indices are resolved as in the first part.
* The registry is a table of the state; the metatables `luaopen_pgsql`
  registers are identified with their names.  No table or userdata of the
  model has metamethods.
* Every call of a native function is recorded as an event, with its pointer,
  integer and string arguments; what the native function returns is a
  parameter of the C function that calls it.
* `lua_pcall` records the call of the callable; how the callable ends (it
  returns, or it raises an error with a message) is a parameter, and what it
  does to the Lua state is not modelled.
* A run ends normally, by a Lua error, or in undefined behaviour (`Result`);
  the state reached is kept in all three cases.
* Where C leaves the order of two checks in an argument list open, the
  connection is checked first.
* `closef_untrace` and `conn_trace` are the variants for Lua 5.2 and later.
-/

namespace Handles

/-- A C function, as stored in a Lua value or in the `closef` field of a
stream: `closef_untrace` of `luapgsql.c`, or any other function, given by its
address. -/
inductive CFunction where
  | closef_untrace
  | other (addr : Nat)
deriving DecidableEq, Repr

/-- A Lua value.  Userdata and tables are references into the heap;
`metatable tname` is the metatable registered under the name `tname`
(`luaL_newmetatable`); `cfunction none` is a C function value made from a
null function pointer. -/
inductive TValue where
  | nil
  | boolean (b : Bool)
  | integer (i : Int)
  | string (s : String)
  | lightuserdata (p : Nat)
  | cfunction (f : Option CFunction)
  | closure (id : Nat)
  | userdata (a : Nat)
  | table (a : Nat)
  | metatable (tname : String)
deriving DecidableEq, Repr

/-- Modelled from the spec: the structure `largeObject`, declared in a
header that is not among the sources; the functions use its two fields, the
connection handle and the descriptor of the open large object. -/
structure largeObject where
  conn : Nat
  fd : Int
deriving DecidableEq, Repr

/-- The memory of a userdata block.  `handle p`: one pointer (`PGconn *`,
`PGresult *`, `PGnotify *`), `none` for `NULL`.  `largeObject o`: one
pointer to a `largeObject` structure, `none` for `NULL`.  `stream f closef`:
a `luaL_Stream`, with its `FILE *` and its close function.  `uninit`: what
`lua_newuserdata` hands out. -/
inductive Block where
  | handle (p : Option Nat)
  | largeObject (o : Option largeObject)
  | stream (f : Option Nat) (closef : Option CFunction)
  | uninit
deriving DecidableEq, Repr

/-- A userdata object: the name of its metatable (`none`: no metatable),
its block and its user value. -/
structure Udata where
  metatable : Option String
  block : Block
  uservalue : TValue
deriving DecidableEq, Repr

/-- An argument handed to a native function. -/
inductive CArg where
  | ptr (p : Option Nat)
  | int (i : Int)
  | str (s : String)
deriving DecidableEq, Repr

/-- What is observed of a run: the calls of native functions and the calls
of Lua callables made through `lua_pcall`, in order. -/
inductive Event where
  | native (fn : String) (args : List CArg)
  | pcall (f : TValue) (args : List TValue)
deriving DecidableEq, Repr

/-- A table: its non-nil entries. -/
abbrev Table := List (TValue × TValue)

/-- The Lua state: the stack of the running C function (bottom first), the
registry table, the heap of userdata objects and of tables (the address is
the position in the list), and the events so far. -/
structure lua_State where
  stack : List TValue
  registry : Table
  udata : List Udata
  tables : List Table
  events : List Event
deriving DecidableEq, Repr

/-- How a piece of C code ends: normally, by a Lua error (`lua_error`, a
`longjmp`: nothing after the raising call is executed), or in undefined
behaviour (a null or uninitialised pointer is dereferenced, or the Lua API
is used outside its contract).  The state is the one reached. -/
inductive Result (α : Type) where
  | ok (a : α) (s : lua_State)
  | raised (e : LuaError) (s : lua_State)
  | undefined (s : lua_State)
deriving DecidableEq, Repr

/-- C code working on a Lua state. -/
def LuaM (α : Type) : Type := lua_State → Result α

instance : Monad LuaM where
  pure a := fun s => .ok a s
  bind m f := fun s =>
    match m s with
    | .ok a s1 => f a s1
    | .raised e s1 => .raised e s1
    | .undefined s1 => .undefined s1

/-- Leaves the C function by a Lua error. -/
def raise {α : Type} (e : LuaError) : LuaM α := fun s => .raised e s

/-- Undefined behaviour. -/
def undefinedBehaviour {α : Type} : LuaM α := fun s => .undefined s

/-- Records the call of a native function. -/
def native (fn : String) (args : List CArg) : LuaM Unit :=
  fun s => .ok () { s with events := s.events ++ [.native fn args] }

/-- The pseudo-index of the registry (Lua 5.3). -/
def LUA_REGISTRYINDEX : Int := -1001000

/-- The name of the metatable of file handles (`lauxlib.h`). -/
def LUA_FILEHANDLE : String := "FILE*"

/-- Modelled from the spec: the name under which the metatable of
notification objects is registered; the macro is defined in a header that is
not among the sources, and only its identity matters. -/
def NOTIFY_METATABLE : String := "pgsql asynchronous notification"

/-- Modelled from the spec: the name under which the metatable of large
objects is registered; the macro is defined outside the sources. -/
def LO_METATABLE : String := "pgsql large object"

/-- The value at a stack index: positive indices count from the bottom,
negative ones from the top. -/
def index2value (L : List TValue) (idx : Int) : Option TValue :=
  if 0 < idx then L[idx.toNat - 1]?
  else if idx < 0 ∧ (-idx).toNat ≤ L.length then L[L.length - (-idx).toNat]?
  else none

/-- Pushes a value. -/
def push (v : TValue) : LuaM Unit :=
  fun s => .ok () { s with stack := s.stack ++ [v] }

def lua_pushnil : LuaM Unit := push .nil

def lua_pushboolean (b : Int) : LuaM Unit := push (.boolean (b != 0))

def lua_pushinteger (i : Int) : LuaM Unit := push (.integer i)

/-- The call `lua_pushstring(L, s)`: a null pointer pushes `nil`. -/
def lua_pushstring (str : Option String) : LuaM Unit :=
  match str with
  | some x => push (.string x)
  | none => push .nil

def lua_pushlightuserdata (p : Nat) : LuaM Unit := push (.lightuserdata p)

def lua_pushcfunction (f : Option CFunction) : LuaM Unit := push (.cfunction f)

/-- The call `lua_pushvalue(L, idx)`: an index above the top reads as `nil`. -/
def lua_pushvalue (idx : Int) : LuaM Unit := fun s =>
  match index2value s.stack idx with
  | some v => push v s
  | none => if 0 < idx then push .nil s else .undefined s

/-- Removes the `n` topmost values. -/
def lua_pop (n : Nat) : LuaM Unit :=
  fun s => .ok () { s with stack := s.stack.take (s.stack.length - n) }

/-- The test `lua_type(L, idx) == LUA_TNIL`. -/
def lua_isnil (idx : Int) : LuaM Bool :=
  fun s => .ok (index2value s.stack idx == some .nil) s

/-- The entry of a table at a key. -/
def Table.get (t : Table) (k : TValue) : TValue :=
  match t.find? (fun e => e.1 == k) with
  | some e => e.2
  | none => .nil

/-- The assignment `t[k] = v`; assigning `nil` removes the entry. -/
def Table.set (t : Table) (k v : TValue) : Table :=
  if v = .nil then t.filter (fun e => e.1 != k)
  else (k, v) :: t.filter (fun e => e.1 != k)

/-- The table at an index: the registry at `LUA_REGISTRYINDEX`, a table of
the heap at a stack index holding a reference to it. -/
def tableAt (s : lua_State) (idx : Int) : Option Table :=
  if idx = LUA_REGISTRYINDEX then some s.registry
  else match index2value s.stack idx with
    | some (.table a) => s.tables[a]?
    | _ => none

/-- Replaces the table at an index. -/
def setTableAt (s : lua_State) (idx : Int) (t : Table) : lua_State :=
  if idx = LUA_REGISTRYINDEX then { s with registry := t }
  else match index2value s.stack idx with
    | some (.table a) => { s with tables := s.tables.set a t }
    | _ => s

/-- The call `lua_gettable(L, idx)`: replaces the key on top of the stack by
`t[key]`.  A value that is not a table raises the index error.  (No table
of the model has a metatable.) -/
def lua_gettable (idx : Int) : LuaM Unit := fun s =>
  match tableAt s idx, s.stack.getLast? with
  | some t, some key => .ok () { s with stack := s.stack.dropLast ++ [t.get key] }
  | none, some _ => .raised .index_error s
  | _, none => .undefined s

/-- The call `lua_rawget(L, idx)`: as `lua_gettable`, for a table only. -/
def lua_rawget (idx : Int) : LuaM Unit := fun s =>
  match tableAt s idx, s.stack.getLast? with
  | some t, some key => .ok () { s with stack := s.stack.dropLast ++ [t.get key] }
  | _, _ => .undefined s

/-- The call `lua_rawset(L, idx)`: `t[k] = v` with `v` on top of the stack
and `k` just below; pops both. -/
def lua_rawset (idx : Int) : LuaM Unit := fun s =>
  match tableAt s idx, index2value s.stack (-2), index2value s.stack (-1) with
  | some t, some k, some v =>
    .ok () { setTableAt s idx (t.set k v) with stack := s.stack.take (s.stack.length - 2) }
  | _, _, _ => .undefined s

/-- The call `lua_getfield(L, idx, k)`: pushes `t[k]`. -/
def lua_getfield (idx : Int) (k : String) : LuaM Unit := fun s =>
  match tableAt s idx with
  | some t => push (t.get (.string k)) s
  | none => .raised .index_error s

/-- The call `lua_setfield(L, idx, k)`: `t[k] = v` with `v` on top of the
stack; pops the value. -/
def lua_setfield (idx : Int) (k : String) : LuaM Unit := fun s =>
  match tableAt s idx, s.stack.getLast? with
  | some t, some v =>
    .ok () { setTableAt s idx (t.set (.string k) v) with stack := s.stack.dropLast }
  | none, some _ => .raised .index_error s
  | _, none => .undefined s

/-- The call `lua_createtable(L, narr, nrec)`: pushes a new empty table. -/
def lua_createtable : LuaM Unit := fun s =>
  .ok () { s with stack := s.stack ++ [.table s.tables.length], tables := s.tables ++ [[]] }

/-- The call `lua_newuserdata(L, size)`: pushes a new userdata object and
returns the address of its block. -/
def lua_newuserdata : LuaM Nat := fun s =>
  .ok s.udata.length { s with stack := s.stack ++ [.userdata s.udata.length],
                              udata := s.udata ++ [⟨none, .uninit, .nil⟩] }

/-- The userdata object at a stack index. -/
def udataAt (s : lua_State) (idx : Int) : Option (Nat × Udata) :=
  match index2value s.stack idx with
  | some (.userdata a) => (s.udata[a]?).map (fun u => (a, u))
  | _ => none

/-- Changes the userdata object at an address. -/
def setUdata (s : lua_State) (a : Nat) (f : Udata → Udata) : lua_State :=
  match s.udata[a]? with
  | some u => { s with udata := s.udata.set a (f u) }
  | none => s

/-- The call `lua_getuservalue(L, idx)`: pushes the user value of the
userdata at `idx`. -/
def lua_getuservalue (idx : Int) : LuaM Unit := fun s =>
  match udataAt s idx with
  | some (_, u) => push u.uservalue s
  | none => .undefined s

/-- The call `lua_setuservalue(L, idx)`: pops a value and makes it the user
value of the userdata at `idx`. -/
def lua_setuservalue (idx : Int) : LuaM Unit := fun s =>
  match udataAt s idx, s.stack.getLast? with
  | some (a, _), some v =>
    .ok () { setUdata s a (fun u => { u with uservalue := v }) with stack := s.stack.dropLast }
  | _, _ => .undefined s

/-- The call `luaL_getmetatable(L, tname)`, for a name registered by
`luaopen_pgsql`. -/
def luaL_getmetatable (tname : String) : LuaM Unit := push (.metatable tname)

/-- The call `lua_setmetatable(L, idx)`: pops a metatable and sets it for
the userdata at `idx`. -/
def lua_setmetatable (idx : Int) : LuaM Unit := fun s =>
  match udataAt s idx, s.stack.getLast? with
  | some (a, _), some (.metatable tname) =>
    .ok () { setUdata s a (fun u => { u with metatable := some tname }) with
             stack := s.stack.dropLast }
  | _, _ => .undefined s

/-- The call `luaL_argerror(L, arg, extramsg)`. -/
def luaL_argerror {α : Type} (arg : Int) (extramsg : String) : LuaM α :=
  raise (.argerror arg extramsg)

/-- The call `luaL_error(L, "%s", msg)`. -/
def luaL_error {α : Type} (msg : String) : LuaM α := raise (.error msg)

/-- The call `luaL_checkudata(L, ud, tname)`: the address of the block of
the userdata at `ud`, which must have the metatable registered under
`tname`. -/
def luaL_checkudata (ud : Int) (tname : String) : LuaM Nat := fun s =>
  match udataAt s ud with
  | some (a, u) =>
    if u.metatable = some tname then .ok a s
    else .raised (.argerror ud (tname ++ " expected")) s
  | none => .raised (.argerror ud (tname ++ " expected")) s

/-- The call `luaL_checkstring(L, n)`: strings and numbers are accepted. -/
def luaL_checkstring (n : Int) : LuaM String := fun s =>
  match index2value s.stack n with
  | some (.string x) => .ok x s
  | some (.integer i) => .ok (toString i) s
  | _ => .raised (.argerror n "string expected") s

/-- The call `lua_tostring(L, idx)`: `none` is the null pointer returned for
a value that is neither a string nor a number. -/
def lua_tostring (idx : Int) : LuaM (Option String) := fun s =>
  match index2value s.stack idx with
  | some (.string x) => .ok (some x) s
  | some (.integer i) => .ok (some (toString i)) s
  | _ => .ok none s

/-- The call `lua_tocfunction(L, idx)`: a null pointer for a value that is
not a C function. -/
def lua_tocfunction (idx : Int) : LuaM (Option CFunction) := fun s =>
  match index2value s.stack idx with
  | some (.cfunction f) => .ok f s
  | _ => .ok none s

/-- Reads the pointer stored in a block (`*data`). -/
def readHandle (a : Nat) : LuaM (Option Nat) := fun s =>
  match s.udata[a]? with
  | some ⟨_, .handle p, _⟩ => .ok p s
  | _ => .undefined s

/-- Stores a pointer in a block (`*data = p`). -/
def writeHandle (a : Nat) (p : Option Nat) : LuaM Unit := fun s =>
  match s.udata[a]? with
  | some _ => .ok () (setUdata s a (fun u => { u with block := .handle p }))
  | none => .undefined s

/-- The status codes of `lua_pcall`. -/
def LUA_OK : Int := 0

def LUA_ERRRUN : Int := 2

/-- Whether `lua_pcall` can call a value.  (No table or userdata of the
model has a `__call` metamethod.) -/
def callable : TValue → Bool
  | .closure _ => true
  | .cfunction (some _) => true
  | _ => false

/-- The call `lua_pcall(L, nargs, 0, 0)`: calls the value below the `nargs`
topmost values with these as arguments, in protected mode, and pops them
all.  `callee` says how the called function ends: `none`, it returns;
`some msg`, it raises an error with this message, which is left on the
stack.  What the called function does to the Lua state otherwise is not
modelled.  A value that cannot be called is an error too. -/
def lua_pcall (nargs : Nat) (callee : Option String) : LuaM Int := fun s =>
  if s.stack.length < nargs + 1 then .undefined s
  else
    let base := s.stack.length - (nargs + 1)
    let rest := s.stack.take base
    match s.stack[base]? with
    | some f =>
      if callable f then
        let s1 := { s with stack := rest,
                           events := s.events ++ [.pcall f (s.stack.drop (base + 1))] }
        match callee with
        | none => .ok LUA_OK s1
        | some msg => .ok LUA_ERRRUN { s1 with stack := rest ++ [.string msg] }
      else
        .ok LUA_ERRRUN { s with stack := rest ++ [.string "attempt to call a value"] }
    | none => .undefined s

/-! ### The functions of `luapgsql.c` -/

/-! ### Connections -/

/-- The function `pgsql_conn_new`: pushes a new connection object with a
null handle, an empty table as user value and the connection metatable. -/
def pgsql_conn_new : LuaM Nat := do
  let data ← lua_newuserdata
  writeHandle data none
  lua_createtable
  lua_setuservalue (-2)
  luaL_getmetatable CONN_METATABLE
  lua_setmetatable (-2)
  return data

/-- The function `pgsql_connectdb`; `conn` is what `PQconnectdb` returns. -/
def pgsql_connectdb (conn : Option Nat) : LuaM Nat := do
  let data ← pgsql_conn_new
  let conninfo ← luaL_checkstring 1
  native "PQconnectdb" [.str conninfo]
  writeHandle data conn
  if conn.isNone then
    lua_pushnil
  return 1

/-- The function `pgsql_conn(L, n)`: the handle of the connection object at
index `n`; a null handle is the usage error "database connection is
finished". -/
def pgsql_conn (n : Int) : LuaM Nat := do
  let data ← luaL_checkudata n CONN_METATABLE
  match ← readHandle data with
  | some h => return h
  | none => luaL_argerror n "database connection is finished"

/-- The function `conn_finish`, the method `finish` and the finalizer
(`__gc`) of connection objects. -/
def conn_finish : LuaM Nat := do
  let conn ← luaL_checkudata 1 CONN_METATABLE
  match ← readHandle conn with
  | some h =>
    lua_pushlightuserdata h
    lua_gettable LUA_REGISTRYINDEX
    if ← lua_isnil (-1) then
      native "PQfinish" [.ptr (some h)]
      writeHandle conn none
      lua_getuservalue 1
      lua_pushnil
      lua_setfield (-2) "trace_file"
    else
      lua_pop 1
    return 0
  | none => return 0

/-- The function `conn_status`; `ret` is what `PQstatus` returns.  The
methods `connectPoll`, `resetStart`, `resetPoll`, `transactionStatus`,
`protocolVersion`, `serverVersion`, `socket`, `backendPID`, `flush` have
this body with another native function. -/
def conn_status (ret : Int) : LuaM Nat := do
  let conn ← pgsql_conn 1
  native "PQstatus" [.ptr (some conn)]
  lua_pushinteger ret
  return 1

/-- The function `conn_exec`; `result` is what `PQexec` returns.  The result
object is created first; the two checks in the argument list of `PQexec`
come before the native call (the connection first in the model). -/
def conn_exec (result : Option Nat) : LuaM Nat := do
  let res ← lua_newuserdata
  let conn ← pgsql_conn 1
  let command ← luaL_checkstring 2
  native "PQexec" [.ptr (some conn), .str command]
  writeHandle res result
  luaL_getmetatable RES_METATABLE
  lua_setmetatable (-2)
  return 1

/-- The function `conn_describePrepared`; `result` is what
`PQdescribePrepared` returns. -/
def conn_describePrepared (result : Option Nat) : LuaM Nat := do
  let res ← lua_newuserdata
  let conn ← pgsql_conn 1
  let name ← luaL_checkstring 2
  native "PQdescribePrepared" [.ptr (some conn), .str name]
  writeHandle res result
  luaL_getmetatable RES_METATABLE
  lua_setmetatable (-2)
  return 1

/-- The function `conn_describePortal`; `result` is what `PQdescribePortal`
returns. -/
def conn_describePortal (result : Option Nat) : LuaM Nat := do
  let res ← lua_newuserdata
  let conn ← pgsql_conn 1
  let name ← luaL_checkstring 2
  native "PQdescribePortal" [.ptr (some conn), .str name]
  writeHandle res result
  luaL_getmetatable RES_METATABLE
  lua_setmetatable (-2)
  return 1

/-- The function `conn_getResult`; `r` is what `PQgetResult` returns. -/
def conn_getResult (r : Option Nat) : LuaM Nat := do
  let conn ← pgsql_conn 1
  native "PQgetResult" [.ptr (some conn)]
  match r with
  | none => lua_pushnil
  | some h =>
    let res ← lua_newuserdata
    writeHandle res (some h)
    luaL_getmetatable RES_METATABLE
    lua_setmetatable (-2)
  return 1

/-- The function `conn_cancel`.  `cancel` is what `PQgetCancel` returns,
`res` what `PQcancel` returns and `errbuf` the message it leaves in the
buffer. -/
def conn_cancel (cancel : Option Nat) (res : Int) (errbuf : String) : LuaM Nat := do
  let d ← pgsql_conn 1
  native "PQgetCancel" [.ptr (some d)]
  match cancel with
  | some c =>
    native "PQcancel" [.ptr (some c)]
    if res = 0 then
      lua_pushboolean 0
      lua_pushstring (some errbuf)
    else
      lua_pushboolean 1
    native "PQfreeCancel" [.ptr (some c)]
    return (if res = 1 then 1 else 2)
  | none =>
    lua_pushboolean 0
    return 1

/-- Reads a `luaL_Stream`. -/
def readStream (a : Nat) : LuaM (Option Nat × Option CFunction) := fun s =>
  match s.udata[a]? with
  | some ⟨_, .stream f closef, _⟩ => .ok (f, closef) s
  | _ => .undefined s

/-- The assignment `stream->closef = cf`. -/
def writeClosef (a : Nat) (cf : Option CFunction) : LuaM Unit := fun s =>
  match s.udata[a]? with
  | some ⟨_, .stream f _, _⟩ => .ok () (setUdata s a (fun u => { u with block := .stream f cf }))
  | _ => .undefined s

/-- The function `closef_untrace` (Lua 5.2 and later), the close function
`conn_trace` installs in a stream.  The value returned is `cf`, the
function whose call ends `closef_untrace` (`return (*cf)(L);`). -/
def closef_untrace : LuaM (Option CFunction) := do
  let _ ← luaL_checkudata 1 LUA_FILEHANDLE
  lua_getuservalue 1
  lua_getfield (-1) "PGconn"
  let conn ← pgsql_conn (-1)
  lua_getfield (-2) "old_uservalue"
  lua_getfield (-3) "old_closef"
  let cf ← lua_tocfunction (-1)
  lua_pop 1
  lua_setuservalue 1
  native "PQuntrace" [.ptr (some conn)]
  lua_getuservalue (-1)
  lua_pushnil
  lua_setfield (-2) "trace_file"
  lua_pop 3
  return cf

/-- The function `conn_trace` (Lua 5.2 and later). -/
def conn_trace : LuaM Nat := do
  let conn ← pgsql_conn 1
  let stream ← luaL_checkudata 2 LUA_FILEHANDLE
  let (f, closef) ← readStream stream
  if f.isNone then
    luaL_argerror 2 "invalid file handle"
  lua_getuservalue 1
  lua_pushvalue 2
  lua_setfield (-2) "trace_file"
  lua_createtable
  lua_getuservalue 2
  lua_setfield (-2) "old_uservalue"
  lua_pushcfunction closef
  lua_setfield (-2) "old_closef"
  lua_pushvalue 1
  lua_setfield (-2) "PGconn"
  lua_setuservalue 2
  writeClosef stream (some .closef_untrace)
  native "PQtrace" [.ptr (some conn), .ptr f]
  return 0

/-- The function `noticeReceiver(arg, r)`, called by the native library with
a notice result `r`; `callee` says how the registered callable ends (see
`lua_pcall`). -/
def noticeReceiver (callee : Option String) (r : Nat) : LuaM Unit := do
  lua_pushstring (some "__pgsqlNoticeReceiver")
  lua_rawget LUA_REGISTRYINDEX
  let res ← lua_newuserdata
  writeHandle res (some r)
  luaL_getmetatable RES_METATABLE
  lua_setmetatable (-2)
  if (← lua_pcall 1 callee) ≠ 0 then
    luaL_error ((← lua_tostring (-1)).getD "(null)")
  writeHandle res none

/-- The function `noticeProcessor(arg, message)`, called by the native
library with a notice message. -/
def noticeProcessor (callee : Option String) (message : String) : LuaM Unit := do
  lua_pushstring (some "__pgsqlNoticeProcessor")
  lua_rawget LUA_REGISTRYINDEX
  lua_pushstring (some message)
  if (← lua_pcall 1 callee) ≠ 0 then
    luaL_error ((← lua_tostring (-1)).getD "(null)")

/-- The function `conn_setNoticeProcessor`. -/
def conn_setNoticeProcessor : LuaM Nat := do
  lua_pushstring (some "__pgsqlNoticeProcessor")
  lua_pushvalue (-2)
  lua_rawset LUA_REGISTRYINDEX
  let conn ← pgsql_conn 1
  native "PQsetNoticeProcessor" [.ptr (some conn)]
  return 0

/-! ### Results, notifications and large objects -/

/-- The function `res_clear`, the finalizer of result objects. -/
def res_clear : LuaM Nat := do
  let r ← luaL_checkudata 1 RES_METATABLE
  match ← readHandle r with
  | some h =>
    native "PQclear" [.ptr (some h)]
    writeHandle r none
    return 0
  | none => return 0

/-- The dereference `*n` of the pointer in a notification block, for a
field access `(*n)->field`: undefined for a null pointer. -/
def derefHandle (a : Nat) : LuaM Nat := do
  match ← readHandle a with
  | some p => return p
  | none => undefinedBehaviour

/-- The function `notify_pid`; `be_pid` is the field read. -/
def notify_pid (be_pid : Int) : LuaM Nat := do
  let n ← luaL_checkudata 1 NOTIFY_METATABLE
  let _ ← derefHandle n
  lua_pushinteger be_pid
  return 1

/-- The function `notify_clear`, the finalizer of notification objects. -/
def notify_clear : LuaM Nat := do
  let n ← luaL_checkudata 1 NOTIFY_METATABLE
  match ← readHandle n with
  | some p =>
    native "PQfreemem" [.ptr (some p)]
    writeHandle n none
    return 0
  | none => return 0

/-- Reads the pointer of a large-object block (`*o`). -/
def readLargeObject (a : Nat) : LuaM (Option largeObject) := fun s =>
  match s.udata[a]? with
  | some ⟨_, .largeObject o, _⟩ => .ok o s
  | _ => .undefined s

/-- The field accesses `(*o)->conn` and `(*o)->fd`: undefined for a null
pointer. -/
def derefLargeObject (a : Nat) : LuaM largeObject := do
  match ← readLargeObject a with
  | some o => return o
  | none => undefinedBehaviour

/-- The assignment `*o = NULL`. -/
def clearLargeObject (a : Nat) : LuaM Unit := fun s =>
  match s.udata[a]? with
  | some _ => .ok () (setUdata s a (fun u => { u with block := .largeObject none }))
  | none => .undefined s

/-- The function `pgsql_lo_close`, the method `close` of large objects;
`ret` is what `lo_close` returns. -/
def pgsql_lo_close (ret : Int) : LuaM Nat := do
  let o ← luaL_checkudata 1 LO_METATABLE
  let lo ← derefLargeObject o
  native "lo_close" [.ptr (some lo.conn), .int lo.fd]
  lua_pushinteger ret
  clearLargeObject o
  return 1

/-- The function `pgsql_lo_clear`, the finalizer of large objects. -/
def pgsql_lo_clear : LuaM Nat := do
  let o ← luaL_checkudata 1 LO_METATABLE
  match ← readLargeObject o with
  | some lo =>
    native "lo_close" [.ptr (some lo.conn), .int lo.fd]
    clearLargeObject o
    return 0
  | none => return 0

/-! ### Observations -/

/-- The state in which a run ends. -/
def Result.state {α : Type} : Result α → lua_State
  | .ok _ s => s
  | .raised _ s => s
  | .undefined s => s

/-- The error by which a run ends, if it ends by a Lua error. -/
def Result.error? {α : Type} : Result α → Option LuaError
  | .raised e _ => some e
  | _ => none

/-- Whether a run ends in undefined behaviour. -/
def Result.isUndefined {α : Type} : Result α → Bool
  | .undefined _ => true
  | _ => false

/-- The values a C function returns to Lua: with `return n`, the `n`
topmost values of its stack. -/
def Result.values : Result Nat → Option (List TValue)
  | .ok n s => some (s.stack.drop (s.stack.length - n))
  | _ => none

/-- A call of a C function from Lua: the function runs on a stack of its
own that holds the arguments of the call. -/
def frame (args : List TValue) (s : lua_State) : lua_State := { s with stack := args }

/-- The handle slot of the object at address `a`, when that object has the
metatable registered under `tname` and a one-pointer block. -/
def slotOf (s : lua_State) (tname : String) (a : Nat) : Option (Option Nat) :=
  match s.udata[a]? with
  | some ⟨some t, .handle p, _⟩ => if t = tname then some p else none
  | _ => none

/-- The events of a run that started in state `s0`. -/
def Result.newEvents {α : Type} (r : Result α) (s0 : lua_State) : List Event :=
  r.state.events.drop s0.events.length

/-- Whether a run returned one value that is a result object whose slot
holds `p`. -/
def returnsResult (r : Result Nat) (p : Option Nat) : Bool :=
  match r.values with
  | some [.userdata a] => slotOf r.state RES_METATABLE a == some p
  | _ => false

/-- A state with one object of each kind: an open connection (address 0,
handle 7, user value the empty table 0), a result (address 1, handle 8), a
notification (address 2, pointer 9), a large object (address 3, descriptor
3 on connection 7) and an open stream (address 4, `FILE` 55, close function
at address 1). -/
def exampleState : lua_State :=
  { stack := [], registry := [],
    udata := [⟨some CONN_METATABLE, .handle (some 7), .table 0⟩,
              ⟨some RES_METATABLE, .handle (some 8), .nil⟩,
              ⟨some NOTIFY_METATABLE, .handle (some 9), .nil⟩,
              ⟨some LO_METATABLE, .largeObject (some ⟨7, 3⟩), .nil⟩,
              ⟨some LUA_FILEHANDLE, .stream (some 55) (some (.other 1)), .nil⟩],
    tables := [[]], events := [] }

/-- The example state with the handle of its connection entered in the
registry by an external owner (`registry[lightuserdata 7] = true`). -/
def retainedState : lua_State :=
  { exampleState with registry := [(.lightuserdata 7, .boolean true)] }

/-- The example state with the Lua function 1 registered as notice
receiver. -/
def receiverState : lua_State :=
  { exampleState with registry := [(.string "__pgsqlNoticeReceiver", .closure 1)] }

end Handles

/-! ## Lemmas and theorems -/

theorem index2value_pos (L : LuaStack) (t : Int) (ht : 0 < t) :
    index2value L t = L.get? (t.toNat - 1) := by
  simp [index2value, ht]

theorem index2value_append_pos (L : LuaStack) (x v : LuaValue) (t : Int) (ht : 0 < t)
    (h : index2value L t = some v) : index2value (L ++ [x]) t = some v := by
  rw [index2value_pos _ _ ht] at h ⊢
  rw [List.get?_eq_some] at h
  obtain ⟨hlt, hv⟩ := h
  rw [List.get?_eq_getElem?, List.getElem?_append_left hlt, List.getElem?_eq_getElem hlt]
  simpa using hv

theorem index2value_top (L : LuaStack) (x : LuaValue) :
    index2value (L ++ [x]) (-1) = some x := by
  simp [index2value]

theorem lua_pop_push (L : LuaStack) (x : LuaValue) : lua_pop (L ++ [x]) 1 = L := by
  simp [lua_pop]

theorem lua_gettable_abs (L : LuaStack) (t : Int) (arr : List LuaValue) (k : Nat) (ht : 0 < t)
    (h : index2value L t = some (.table arr)) :
    lua_gettable (lua_pushinteger L ((k + 1 : Nat) : Int)) t = .ok (L ++ [arr.getD k .nil]) := by
  unfold lua_gettable lua_pushinteger
  rw [index2value_append_pos L _ _ t ht h]
  simp [rawget]

theorem lua_gettable_top (L : LuaStack) (k : Int) :
    lua_gettable (lua_pushinteger L k) (-1) = .error .index_error := by
  unfold lua_gettable lua_pushinteger
  rw [index2value_top]

theorem lua_isnil_top (L : LuaStack) (v : LuaValue) :
    lua_isnil (L ++ [v]) (-1) = (typeOfValue v == .LUA_TNIL) := by
  simp [lua_isnil, lua_type, index2value_top]

theorem store_none {α : Type} (n : Nat) (x : α) : store (none : Option (List α)) n x = none := rfl

theorem get_sql_params_leaf (oom : Nat → Bool) (fuel : Nat) (L : LuaStack) (t : Int) (v : LuaValue)
    (n : Nat) (p : Params) (h : index2value L t = some v) (hv : isLeaf v = true) :
    get_sql_params oom (fuel + 1) L t n p = leafCase oom L v n p := by
  rw [get_sql_params]
  obtain ⟨ts, vs, ls, fs, a, lg, w⟩ := p
  cases v <;> simp [isLeaf, isParamScalar, typeOfValue] at hv <;>
    cases ts <;> cases vs <;>
    simp [lua_type, h, typeOfValue, leafCase, leafBytes, leafType, leafLenFmt, storeOpt, malloc,
      lua_toboolean, lua_isinteger, lua_tointeger, lua_tonumber, lua_tolstring, store]
  all_goals (cases hoom : oom a <;> simp)

theorem drop_nil_getD {α : Type} (l : List α) (j : Nat) (d : α) (h : l.drop j = []) :
    l.getD j d = d := by
  have : l.length ≤ j := by simpa using h
  simp [List.getD, List.getElem?_eq_none this]

theorem drop_cons_getD {α : Type} (l : List α) (j : Nat) (d x : α) (xs : List α)
    (h : l.drop j = x :: xs) : l.getD j d = x ∧ l.drop (j + 1) = xs := by
  have hlt : j < l.length := by
    by_contra hc
    have : l.drop j = [] := by simpa using (Nat.le_of_not_lt hc)
    rw [this] at h
    cases h
  rw [List.drop_eq_getElem_cons hlt] at h
  injection h with h1 h2
  exact ⟨by simp [List.getD, List.getElem?_eq_getElem hlt, h1], h2⟩

theorem leafCase_shape (oom : Nat → Bool) (L : LuaStack) (v : LuaValue) (n : Nat) (p : Params) :
    (∃ p1, leafCase oom L v n p = .ret0 1 L p1) ∨ (∃ p1, leafCase oom L v n p = .retm1 L p1) := by
  unfold leafCase
  split
  · split
    · exact Or.inl ⟨_, rfl⟩
    · split
      · exact Or.inr ⟨_, rfl⟩
      · exact Or.inl ⟨_, rfl⟩
  · exact Or.inl ⟨_, rfl⟩

theorem get_sql_params_loop_abs (oom : Nat → Bool) (L : LuaStack) (t : Int) (arr : List LuaValue)
    (ht : 0 < t) (h : index2value L t = some (.table arr)) :
    ∀ (rest : List LuaValue) (j fuel n : Nat) (p : Params), arr.drop j = rest →
      rest.length + 2 ≤ fuel →
      get_sql_params_loop oom fuel L t n (j + 1) p = tableCase oom L rest n p := by
  intro rest
  induction rest with
  | nil =>
    intro j fuel n p hd hf
    obtain ⟨f, rfl⟩ : ∃ f, fuel = f + 1 := ⟨fuel - 1, by omega⟩
    rw [get_sql_params_loop, lua_gettable_abs L t arr j ht h, drop_nil_getD arr j _ hd]
    simp [lua_isnil_top, typeOfValue, lua_pop_push, tableCase]
  | cons v vs ih =>
    intro j fuel n p hd hf
    obtain ⟨hv, hd2⟩ := drop_cons_getD arr j .nil v vs hd
    obtain ⟨f, rfl⟩ : ∃ f, fuel = f + 3 := ⟨fuel - 3, by simp at hf; omega⟩
    rw [get_sql_params_loop, lua_gettable_abs L t arr j ht h, hv]
    simp only [lua_isnil_top, tableCase]
    by_cases hnil : typeOfValue v = .LUA_TNIL
    · simp [hnil, lua_pop_push]
    · by_cases hs : isParamScalar v = true
      · have hleaf : isLeaf v = true := by simp [isLeaf, hs]
        rw [get_sql_params_leaf oom (f + 1) (L ++ [v]) (-1) v n p (index2value_top L v) hleaf]
        simp only [hnil, hs, beq_iff_eq, if_false, if_true]
        rcases leafCase_shape oom (L ++ [v]) v n p with ⟨p1, h1⟩ | ⟨p1, h1⟩
        · rw [h1]
          simp only [lua_pop_push]
          exact ih (j + 1) (f + 2) (n + 1) p1 hd2 (by simp at hf ⊢; omega)
        · rw [h1]
      · simp only [hnil, hs, beq_iff_eq, if_false]
        by_cases htab : typeOfValue v = .LUA_TTABLE
        · rw [get_sql_params]
          simp only [lua_type, index2value_top, htab, if_true]
          rw [get_sql_params_loop, lua_gettable_top]
          simp
        · rw [get_sql_params]
          simp only [lua_type, index2value_top, htab, if_false]
          cases v <;> simp_all [typeOfValue, isParamScalar]

theorem tableLen_le_needFuel (L : LuaStack) (v : LuaValue) (hv : v ∈ L) :
    tableLen v + 3 ≤ needFuel L := by
  unfold needFuel
  induction L with
  | nil => cases hv
  | cons x xs ih =>
    simp only [List.map_cons, List.foldr_cons]
    rcases List.mem_cons.mp hv with rfl | h
    · omega
    · have := ih h
      omega

theorem get_sql_params_abs (oom : Nat → Bool) (fuel : Nat) (L : LuaStack) (t : Int)
    (v : LuaValue) (n : Nat) (p : Params) (ht : 0 < t) (h : index2value L t = some v)
    (hf : tableLen v + 3 ≤ fuel) :
    get_sql_params oom fuel L t n p = argCase oom L t v n p := by
  obtain ⟨f, rfl⟩ : ∃ f, fuel = f + 1 := ⟨fuel - 1, by omega⟩
  by_cases hl : isLeaf v = true
  · rw [get_sql_params_leaf oom f L t v n p h hl]
    cases v <;> simp_all [argCase, isLeaf, isParamScalar, typeOfValue]
  · cases v with
    | table arr =>
      rw [get_sql_params]
      simp only [lua_type, h, typeOfValue, argCase]
      exact get_sql_params_loop_abs oom L t arr ht h arr 0 f n p rfl (by simp [tableLen] at hf; omega)
    | _ =>
      first
        | (exfalso; revert hl; simp [isLeaf, isParamScalar, typeOfValue]; done)
        | (rw [get_sql_params]; simp [lua_type, h, typeOfValue, argCase, isLeaf, isParamScalar])

theorem leafCase_null (oom : Nat → Bool) (L : LuaStack) (v : LuaValue) (n a : Nat)
    (lg : List MemEvent) :
    leafCase oom L v n (Params.null a lg) = .ret0 1 L (Params.null a lg) := by
  simp [leafCase, Params.null, storeOpt]
  cases leafType v <;> simp [store]

theorem tableCase_null (oom : Nat → Bool) (L : LuaStack) (a : Nat) (lg : List MemEvent) :
    ∀ (vs : List LuaValue) (n : Nat),
      tableCase oom L vs n (Params.null a lg) =
        match countElems vs n with
        | .ok c => .ret0 c L (Params.null a lg)
        | .error e => .raised e (Params.null a lg) := by
  intro vs
  induction vs with
  | nil => intro n; simp [tableCase, countElems]
  | cons v vs ih =>
    intro n
    simp only [tableCase, countElems]
    by_cases hnil : typeOfValue v = .LUA_TNIL
    · simp [hnil]
    · by_cases hs : isParamScalar v = true
      · simp only [hnil, hs, beq_iff_eq, if_false, if_true, leafCase_null]
        exact ih (n + 1)
      · by_cases htab : typeOfValue v = .LUA_TTABLE <;> simp [hnil, hs, htab]

theorem argCase_null (oom : Nat → Bool) (L : LuaStack) (t : Int) (v : LuaValue) (s a : Nat)
    (lg : List MemEvent) :
    argCase oom L t v s (Params.null a lg) =
      match countArg t s v with
      | .ok c => .ret0 c L (Params.null a lg)
      | .error e => .raised e (Params.null a lg) := by
  cases v <;> simp only [argCase, countArg, tableCase_null] <;>
    simp [isLeaf, isParamScalar, typeOfValue, leafCase_null]

theorem index2value_of_drop (L : LuaStack) (first n : Nat) (v : LuaValue) (vs : List LuaValue)
    (hfirst : 1 ≤ first) (h : L.drop (first - 1 + n) = v :: vs) :
    index2value L ((first + n : Nat) : Int) = some v ∧ v ∈ L ∧ L.drop (first - 1 + (n + 1)) = vs := by
  obtain ⟨h1, h2⟩ := drop_cons_getD L (first - 1 + n) .nil v vs h
  have hmem : v ∈ L := List.mem_of_mem_drop (h ▸ List.mem_cons_self v vs)
  refine ⟨?_, hmem, by rw [← h2]; rfl⟩
  rw [index2value_pos _ _ (by omega)]
  have hlt : first - 1 + n < L.length := by
    by_contra hc
    have : L.drop (first - 1 + n) = [] := by simpa using (Nat.le_of_not_lt hc)
    rw [this] at h
    cases h
  have e : ((first + n : Nat) : Int).toNat - 1 = first - 1 + n := by
    simp; omega
  rw [e, List.get?_eq_getElem?, List.getElem?_eq_getElem hlt]
  rw [List.drop_eq_getElem_cons hlt] at h
  injection h with h3 _
  rw [h3]

theorem count_loop_null (oom : Nat → Bool) (fuel first : Nat) (L : LuaStack) (a : Nat)
    (lg : List MemEvent) (hfirst : 1 ≤ first) (hfuel : needFuel L ≤ fuel) :
    ∀ (rest : List LuaValue) (n s c : Nat), L.drop (first - 1 + n) = rest →
      count_loop oom fuel first rest.length L n s c (Params.null a lg) =
        match countArgs first rest n s with
        | .ok T => .done T (Params.null a lg)
        | .error e => .raised e (Params.null a lg) := by
  intro rest
  induction rest with
  | nil => intro n s c _; simp [count_loop, countArgs]
  | cons v vs ih =>
    intro n s c hd
    obtain ⟨hv, hmem, hd2⟩ := index2value_of_drop L first n v vs hfirst hd
    simp only [List.length_cons, count_loop, countArgs]
    rw [get_sql_params_abs oom fuel L _ v s _ (by omega) hv
      (le_trans (tableLen_le_needFuel L v hmem) hfuel), argCase_null]
    cases hc : countArg ((first + n : Nat) : Int) s v with
    | error e => simp
    | ok c1 => simpa using ih (n + 1) (s + c1) c1 hd2

theorem visited_cons_nil (v : LuaValue) (vs : List LuaValue) (h : typeOfValue v = .LUA_TNIL) :
    visited (v :: vs) = [] := by
  simp [visited, List.takeWhile_cons, h]

theorem visited_cons (v : LuaValue) (vs : List LuaValue) (h : ¬ typeOfValue v = .LUA_TNIL) :
    visited (v :: vs) = v :: visited vs := by
  simp [visited, List.takeWhile_cons, h]

theorem countElems_ok : ∀ (vs : List LuaValue) (n c : Nat), countElems vs n = .ok c →
    c = n + (visited vs).length ∧ ∀ v ∈ visited vs, isParamScalar v = true := by
  intro vs
  induction vs with
  | nil =>
    intro n c h
    simp only [countElems] at h
    injection h with h
    subst h
    simp [visited]
  | cons v vs ih =>
    intro n c h
    simp only [countElems] at h
    by_cases hnil : typeOfValue v = .LUA_TNIL
    · simp only [hnil, beq_self_eq_true, if_true] at h
      injection h with h
      subst h
      simp [visited_cons_nil v vs hnil]
    · rw [visited_cons v vs hnil]
      by_cases hs : isParamScalar v = true
      · simp only [hnil, hs, beq_iff_eq, if_false, if_true] at h
        obtain ⟨h1, h2⟩ := ih (n + 1) c h
        refine ⟨by simp; omega, ?_⟩
        intro w hw
        rcases List.mem_cons.mp hw with rfl | hw
        · exact hs
        · exact h2 w hw
      · by_cases htab : typeOfValue v = .LUA_TTABLE <;>
          simp [hnil, hs, htab] at h

theorem countElems_of_scalars : ∀ (vs : List LuaValue) (n : Nat),
    (∀ v ∈ visited vs, isParamScalar v = true) →
    countElems vs n = .ok (n + (visited vs).length) := by
  intro vs
  induction vs with
  | nil => intro n _; simp [countElems, visited]
  | cons v vs ih =>
    intro n h
    simp only [countElems]
    by_cases hnil : typeOfValue v = .LUA_TNIL
    · simp [hnil, visited_cons_nil v vs hnil]
    · rw [visited_cons v vs hnil] at h ⊢
      have hs : isParamScalar v = true := h v (List.mem_cons_self _ _)
      simp only [hnil, hs, beq_iff_eq, if_false, if_true]
      rw [ih (n + 1) (fun w hw => h w (List.mem_cons_of_mem _ hw))]
      simp; omega

theorem count_pass_eq (oom : Nat → Bool) (fuel : Nat) (L : LuaStack) (hfuel : needFuel L ≤ fuel) :
    count_loop oom fuel 3 (lua_gettop L - 2) L 0 0 0 (Params.null 0 []) =
      match countArgs 3 (L.drop 2) 0 0 with
      | .ok T => .done T (Params.null 0 [])
      | .error e => .raised e (Params.null 0 []) := by
  have h := count_loop_null oom fuel 3 L 0 [] (by omega) hfuel (L.drop 2) 0 0 0 rfl
  rw [List.length_drop] at h
  exact h

theorem be64_unsigned_htobe64 (x : Nat) (hx : x < 2 ^ 64) : be64_unsigned (htobe64 x) = x := by
  simp only [be64_unsigned, htobe64, List.foldl_cons, List.foldl_nil]
  omega

theorem be64_signed_htobe64 (i : Int) (h1 : -2 ^ 63 ≤ i) (h2 : i < 2 ^ 63) :
    be64_signed (htobe64 (toUInt64 i)) = i := by
  have hx : toUInt64 i < 2 ^ 64 := by
    unfold toUInt64
    omega
  unfold be64_signed
  rw [be64_unsigned_htobe64 _ hx]
  unfold toUInt64
  split <;> omega

theorem leafCase_ret0 (oom : Nat → Bool) (L : LuaStack) (v : LuaValue) (n : Nat) (p : Params)
    (c : Nat) (L' : LuaStack) (p' : Params) (h : leafCase oom L v n p = .ret0 c L' p') :
    c = 1 ∧ L' = L ∧ p'.paramValues.isSome = p.paramValues.isSome ∧
      (p.paramValues.isSome = true → p'.writes = p.writes ++ [n]) := by
  unfold leafCase at h
  split at h
  · rename_i hv
    split at h
    · injection h with h1 h2 h3
      subst h1 h2 h3
      refine ⟨rfl, rfl, ?_, fun _ => rfl⟩
      cases hpv : p.paramValues <;> simp_all [store]
    · split at h
      · cases h
      · injection h with h1 h2 h3
        subst h1 h2 h3
        refine ⟨rfl, rfl, ?_, fun _ => rfl⟩
        cases hpv : p.paramValues <;> simp_all [store]
  · rename_i hv
    injection h with h1 h2 h3
    subst h1 h2 h3
    exact ⟨rfl, rfl, rfl, fun h' => absurd h' hv⟩

theorem leafCase_total (oom : Nat → Bool) (L : LuaStack) (v : LuaValue) (n : Nat) (p : Params)
    (hm : oom p.allocs = false) : ∃ p', leafCase oom L v n p = .ret0 1 L p' := by
  rcases leafCase_shape oom L v n p with h | ⟨p1, h1⟩
  · exact h
  · exfalso
    unfold leafCase at h1
    split at h1
    · split at h1
      · cases h1
      · rw [hm] at h1
        simp at h1
    · cases h1

theorem tableCase_ret0 (oom : Nat → Bool) (L : LuaStack) :
    ∀ (vs : List LuaValue) (n : Nat) (p : Params) (c : Nat) (L' : LuaStack) (p' : Params),
      tableCase oom L vs n p = .ret0 c L' p' →
      c = n + (visited vs).length ∧ L' = L ∧ (∀ v ∈ visited vs, isParamScalar v = true) ∧
        p'.paramValues.isSome = p.paramValues.isSome ∧
        (p.paramValues.isSome = true →
          p'.writes = p.writes ++ List.range' n (visited vs).length) := by
  intro vs
  induction vs with
  | nil =>
    intro n p c L' p' h
    simp only [tableCase] at h
    injection h with h1 h2 h3
    subst h1 h2 h3
    simp [visited]
  | cons v vs ih =>
    intro n p c L' p' h
    simp only [tableCase] at h
    by_cases hnil : typeOfValue v = .LUA_TNIL
    · simp only [hnil, beq_self_eq_true, if_true] at h
      injection h with h1 h2 h3
      subst h1 h2 h3
      simp [visited_cons_nil v vs hnil]
    · rw [visited_cons v vs hnil]
      by_cases hs : isParamScalar v = true
      · simp only [hnil, hs, beq_iff_eq, if_false, if_true] at h
        rcases leafCase_shape oom (L ++ [v]) v n p with ⟨p1, h1⟩ | ⟨p1, h1⟩
        · rw [h1] at h
          obtain ⟨_, _, hsome1, hw1⟩ := leafCase_ret0 oom (L ++ [v]) v n p 1 _ p1 h1
          obtain ⟨hc, hL, hsc, hsome2, hw2⟩ := ih (n + 1) p1 c L' p' h
          refine ⟨by simp; omega, hL, ?_, by rw [hsome2, hsome1], ?_⟩
          · intro w hw
            rcases List.mem_cons.mp hw with rfl | hw
            · exact hs
            · exact hsc w hw
          · intro hp
            rw [hw2 (by rw [hsome1]; exact hp), hw1 hp, List.length_cons, List.range'_succ,
              List.append_assoc]
            rfl
        · rw [h1] at h
          cases h
      · by_cases htab : typeOfValue v = .LUA_TTABLE <;>
          simp [hnil, hs, htab] at h

theorem tableCase_total (oom : Nat → Bool) (L : LuaStack) (hm : ∀ j, oom j = false) :
    ∀ (vs : List LuaValue) (n : Nat) (p : Params),
      (∀ v ∈ visited vs, isParamScalar v = true) →
      ∃ p', tableCase oom L vs n p = .ret0 (n + (visited vs).length) L p' := by
  intro vs
  induction vs with
  | nil => intro n p _; exact ⟨p, by simp [tableCase, visited]⟩
  | cons v vs ih =>
    intro n p h
    simp only [tableCase]
    by_cases hnil : typeOfValue v = .LUA_TNIL
    · exact ⟨p, by simp [hnil, visited_cons_nil v vs hnil]⟩
    · rw [visited_cons v vs hnil] at h ⊢
      have hs : isParamScalar v = true := h v (List.mem_cons_self _ _)
      obtain ⟨p1, h1⟩ := leafCase_total oom (L ++ [v]) v n p (hm _)
      obtain ⟨p2, h2⟩ := ih (n + 1) p1 (fun w hw => h w (List.mem_cons_of_mem _ hw))
      refine ⟨p2, ?_⟩
      simp only [hnil, hs, beq_iff_eq, if_false, if_true, h1, h2, List.length_cons]
      congr 1
      omega

theorem countArg_accepted (t : Int) (s : Nat) (v : LuaValue) (h : accepted v = true) :
    ∃ c, countArg t s v = .ok c := by
  cases v with
  | table arr =>
    simp only [accepted, List.all_eq_true] at h
    exact ⟨_, countElems_of_scalars arr s h⟩
  | _ =>
    simp only [accepted] at h
    exact ⟨1, by simp [countArg, h]⟩

theorem countArg_not_accepted (t : Int) (s : Nat) (v : LuaValue) (h : accepted v = false) :
    ∃ e, countArg t s v = .error e := by
  cases v with
  | table arr =>
    simp only [countArg]
    cases hc : countElems arr s with
    | error e => exact ⟨e, rfl⟩
    | ok c =>
      exfalso
      have := (countElems_ok arr s c hc).2
      simp only [accepted, List.all_eq_false] at h
      obtain ⟨x, hx, hxs⟩ := h
      exact hxs (this x hx)
  | _ =>
    simp only [accepted] at h
    exact ⟨.argerror t "unsupported type", by simp [countArg, h]⟩

theorem countArg_unsupported (t : Int) (s : Nat) (v : LuaValue) (h : isLeaf v = false)
    (ht : typeOfValue v ≠ .LUA_TTABLE) :
    countArg t s v = .error (.argerror t "unsupported type") := by
  cases v <;> simp_all [countArg, typeOfValue]

theorem countArgs_prefix (first : Nat) (rest : List LuaValue) :
    ∀ (pre : List LuaValue) (n s : Nat), (∀ x ∈ pre, accepted x = true) →
      ∃ s', countArgs first (pre ++ rest) n s = countArgs first rest (n + pre.length) s' := by
  intro pre
  induction pre with
  | nil => intro n s _; exact ⟨s, by simp⟩
  | cons x xs ih =>
    intro n s h
    obtain ⟨c, hc⟩ := countArg_accepted ((first + n : Nat) : Int) s x (h x (List.mem_cons_self _ _))
    obtain ⟨s', hs'⟩ := ih (n + 1) (s + c) (fun y hy => h y (List.mem_cons_of_mem _ hy))
    refine ⟨s', ?_⟩
    rw [List.cons_append, countArgs, hc, List.length_cons,
      show n + (xs.length + 1) = n + 1 + xs.length by omega]
    exact hs'

theorem countArgs_not_accepted (first : Nat) :
    ∀ (args : List LuaValue) (n s : Nat), (∃ x ∈ args, accepted x = false) →
      ∃ e, countArgs first args n s = .error e := by
  intro args
  induction args with
  | nil => intro n s h; obtain ⟨x, hx, _⟩ := h; cases hx
  | cons a as ih =>
    intro n s h
    simp only [countArgs]
    cases hc : countArg ((first + n : Nat) : Int) s a with
    | error e => exact ⟨e, rfl⟩
    | ok c =>
      obtain ⟨x, hx, hxa⟩ := h
      rcases List.mem_cons.mp hx with rfl | hx
      · obtain ⟨e, he⟩ := countArg_not_accepted ((first + n : Nat) : Int) s x hxa
        rw [he] at hc
        cases hc
      · exact ih (n + 1) (s + c) ⟨x, hx, hxa⟩

theorem conn_execParams_count_error (oom : Nat → Bool) (result : Option Nat) (fuel : Nat)
    (L : LuaStack) (e : LuaError) (hfuel : needFuel L ≤ fuel)
    (h : countArgs 3 (L.drop 2) 0 0 = .error e) :
    conn_execParams oom result fuel L = .raised e none (Params.null 0 []) := by
  unfold conn_execParams
  dsimp only
  rw [count_pass_eq oom fuel L hfuel, h]

theorem countElems_unsupported : ∀ (es : List LuaValue) (x : LuaValue) (tail : List LuaValue)
    (n : Nat), (∀ y ∈ es, isParamScalar y = true) → isLeaf x = false →
    typeOfValue x ≠ .LUA_TTABLE →
    countElems (es ++ x :: tail) n = .error (.argerror (-1) "unsupported type") := by
  intro es
  induction es with
  | nil =>
    intro x tail n _ hx ht
    have hnil : typeOfValue x ≠ .LUA_TNIL := by
      intro h; simp [isLeaf, h] at hx
    have hs : isParamScalar x = false := by
      simp only [isLeaf, Bool.or_eq_false_iff] at hx; exact hx.1
    simp [countElems, hnil, hs, ht]
  | cons y ys ih =>
    intro x tail n hes hx ht
    have hy : isParamScalar y = true := hes y (List.mem_cons_self _ _)
    have hnil : typeOfValue y ≠ .LUA_TNIL := by
      intro h; simp [isParamScalar, h] at hy
    simp only [List.cons_append, countElems, hy, if_true, beq_iff_eq, hnil, if_false]
    exact ih x tail (n + 1) (fun z hz => hes z (List.mem_cons_of_mem _ hz)) hx ht

theorem argCase_total (oom : Nat → Bool) (L : LuaStack) (t : Int) (v : LuaValue) (n : Nat)
    (p : Params) (hm : ∀ j, oom j = false) (hv : accepted v = true) :
    ∃ c p', argCase oom L t v n p = .ret0 c L p' := by
  cases v with
  | table arr =>
    simp only [accepted, List.all_eq_true] at hv
    obtain ⟨p', h⟩ := tableCase_total oom L hm arr n p hv
    exact ⟨_, p', h⟩
  | _ =>
    simp only [accepted] at hv
    simp only [argCase, hv, if_true]
    obtain ⟨p', h⟩ := leafCase_total oom L _ n p (hm _)
    exact ⟨1, p', h⟩

theorem fill_loop_total (oom : Nat → Bool) (fuel first : Nat) (L : LuaStack)
    (hfirst : 1 ≤ first) (hfuel : needFuel L ≤ fuel) (hm : ∀ j, oom j = false) :
    ∀ (rest : List LuaValue) (n s : Nat) (p : Params), L.drop (first - 1 + n) = rest →
      (∀ x ∈ rest, accepted x = true) →
      ∃ s' p', fill_loop oom fuel first rest.length L n s p = .done s' p' := by
  intro rest
  induction rest with
  | nil => intro n s p _ _; exact ⟨s, p, by simp [fill_loop]⟩
  | cons v vs ih =>
    intro n s p hd hacc
    obtain ⟨hv, hmem, hd2⟩ := index2value_of_drop L first n v vs hfirst hd
    simp only [List.length_cons, fill_loop]
    rw [get_sql_params_abs oom fuel L _ v s _ (by omega) hv
      (le_trans (tableLen_le_needFuel L v hmem) hfuel)]
    obtain ⟨c, p1, h1⟩ := argCase_total oom L ((first + n : Nat) : Int) v s p hm
      (hacc v (List.mem_cons_self _ _))
    rw [h1]
    exact ih (n + 1) (s + c) p1 hd2 (fun x hx => hacc x (List.mem_cons_of_mem _ hx))

theorem countArgs_accepted (first : Nat) (args : List LuaValue) (n s : Nat)
    (h : ∀ x ∈ args, accepted x = true) : ∃ T, countArgs first args n s = .ok T := by
  obtain ⟨s', hs'⟩ := countArgs_prefix first [] args n s h
  rw [List.append_nil] at hs'
  exact ⟨s', by rw [hs']; rfl⟩

/-- With accepted extra arguments, an open connection, a command string and
an allocator that never fails, `conn_execParams` reaches the native call and
returns. -/
theorem conn_execParams_returns (oom : Nat → Bool) (result : Option Nat) (fuel : Nat)
    (L : LuaStack) (h : Nat) (cmd : LuaValue) (hfuel : needFuel L ≤ fuel)
    (hm : ∀ j, oom j = false) (hacc : ∀ x ∈ L.drop 2, accepted x = true)
    (hconn : pgsql_conn L 1 = .ok h) (hcmd : luaL_checkstring L 2 = .ok cmd) :
    (conn_execParams oom result fuel L).call?.isSome = true := by
  obtain ⟨T, hT⟩ := countArgs_accepted 3 (L.drop 2) 0 0 hacc
  unfold conn_execParams
  dsimp only
  rw [count_pass_eq oom fuel L hfuel, hT]
  have hlen : lua_gettop L - 2 = (L.drop 2).length := by simp [lua_gettop]
  rw [hlen]
  simp only [hconn, hcmd]
  split
  · simp only [malloc, hm, Params.null, Bool.false_eq_true, if_false, Option.isNone_some,
      or_self, Option.map_some']
    obtain ⟨s', p', hf⟩ := fill_loop_total oom fuel 3 L (by omega) hfuel hm (L.drop 2) 0 0
      { paramTypes := some (List.replicate T 0), paramValues := some (List.replicate T none),
        paramLengths := some (List.replicate T 0), paramFormats := some (List.replicate T 0),
        allocs := 0 + 1 + 1 + 1 + 1,
        log := [] ++ [.alloc 0] ++ [.alloc (0 + 1)] ++ [.alloc (0 + 1 + 1)]
          ++ [.alloc (0 + 1 + 1 + 1)],
        writes := [] } rfl hacc
    rw [hf]
    rfl
  · rfl

theorem leafCase_slot (oom : Nat → Bool) (L : LuaStack) (v : LuaValue) (n N : Nat)
    (done : List LuaValue) (p : Params) (hinv : SlotInv N done p) (hn : n = done.length)
    (hN : n < N) (hm : oom p.allocs = false) (hv : isLeaf v = true) :
    ∃ p', leafCase oom L v n p = .ret0 1 L p' ∧ SlotInv N (done ++ [v]) p' := by
  obtain ⟨⟨ts, vs, ls, fs, h1, h2, h3, h4, l1, l2, l3, l4⟩, hs⟩ := hinv
  obtain ⟨pt, pv, pl, pf, a, lg, w⟩ := p
  simp only at h1 h2 h3 h4 hm
  subst h1 h2 h3 h4
  have hz : slotAt ⟨some ts, some vs, some ls, some fs, a, lg, w⟩ n = Slot.zero := by
    rw [hs n, hn]; simp [List.getD]
  have key : ∀ (p' : Params),
      (∃ ts' vs' ls' fs', p'.paramTypes = some ts' ∧ p'.paramValues = some vs' ∧
        p'.paramLengths = some ls' ∧ p'.paramFormats = some fs' ∧ ts'.length = N ∧
        vs'.length = N ∧ ls'.length = N ∧ fs'.length = N) →
      slotAt p' n = encodeSlot v →
      (∀ i, i ≠ n → slotAt p' i = slotAt ⟨some ts, some vs, some ls, some fs, a, lg, w⟩ i) →
      SlotInv N (done ++ [v]) p' := by
    intro p' hlen hnew hold
    refine ⟨hlen, fun i => ?_⟩
    by_cases hi : i = n
    · subst hi
      rw [hnew, hn]
      simp [List.getD]
    · rw [hold i hi, hs i]
      simp only [List.map_append, List.map_cons, List.map_nil, List.getD_eq_getElem?_getD]
      by_cases hlt : i < done.length
      · rw [List.getElem?_append_left (by simpa using hlt)]
      · have : done.length < i := by omega
        rw [List.getElem?_eq_none (by simp; omega), List.getElem?_eq_none (by simp; omega)]
  simp only [slotAt, Slot.zero, Option.getD_some, Slot.mk.injEq,
    List.getD_eq_getElem?_getD] at hz
  obtain ⟨z1, z2, z3, z4⟩ := hz
  have hlen : ∀ (ts' : List Nat) (vs' : List (Option Buffer)) (ls' fs' : List Nat) (a' : Nat)
      (lg' : List MemEvent) (w' : List Nat), ts'.length = N → vs'.length = N → ls'.length = N →
      fs'.length = N →
      ∃ ts'' vs'' ls'' fs'', (Params.mk (some ts') (some vs') (some ls') (some fs') a' lg' w').paramTypes
          = some ts'' ∧
        (Params.mk (some ts') (some vs') (some ls') (some fs') a' lg' w').paramValues = some vs'' ∧
        (Params.mk (some ts') (some vs') (some ls') (some fs') a' lg' w').paramLengths = some ls'' ∧
        (Params.mk (some ts') (some vs') (some ls') (some fs') a' lg' w').paramFormats = some fs'' ∧
        ts''.length = N ∧ vs''.length = N ∧ ls''.length = N ∧ fs''.length = N :=
    fun ts' vs' ls' fs' _ _ _ e1 e2 e3 e4 => ⟨ts', vs', ls', fs', rfl, rfl, rfl, rfl, e1, e2, e3, e4⟩
  cases v <;> simp [isLeaf, isParamScalar, typeOfValue] at hv <;>
    simp only [leafCase, leafBytes, hm, Option.isSome_some, if_true, Bool.false_eq_true,
      if_false, store, storeOpt, leafType, leafLenFmt, Option.map_some', Option.map_none'] <;>
    refine ⟨_, rfl, key _ (hlen _ _ _ _ _ _ _ (by simp [l1]) (by simp [l2]) (by simp [l3])
      (by simp [l4])) ?_ ?_⟩
  all_goals
    first
      | (intro i hi
         simp [slotAt, List.getD_eq_getElem?_getD, List.getElem?_set_ne (Ne.symm hi)])
      | (have e1 : n < ts.length := by omega
         have e3 : n < ls.length := by omega
         have e4 : n < fs.length := by omega
         rw [List.getElem?_eq_getElem e1] at z1
         rw [List.getElem?_eq_getElem e3] at z3
         rw [List.getElem?_eq_getElem e4] at z4
         simp only [Option.getD_some] at z1 z3 z4
         simp [slotAt, encodeSlot, leafType, leafLenFmt, leafBytes, List.getD_eq_getElem?_getD,
          l1, l2, l3, l4, hN, z1, z2, z3, z4])

theorem countArg_leaf (t : Int) (s : Nat) (v : LuaValue) (hv : isLeaf v = true) :
    countArg t s v = .ok 1 := by
  cases v <;> simp_all [countArg, isLeaf, isParamScalar, typeOfValue]

theorem argCase_leaf (oom : Nat → Bool) (L : LuaStack) (t : Int) (v : LuaValue) (n : Nat)
    (p : Params) (hv : isLeaf v = true) : argCase oom L t v n p = leafCase oom L v n p := by
  cases v <;> simp_all [argCase, isLeaf, isParamScalar, typeOfValue]

theorem countArgs_leaves (first : Nat) : ∀ (args : List LuaValue) (n s : Nat),
    (∀ x ∈ args, isLeaf x = true) → countArgs first args n s = .ok (s + args.length) := by
  intro args
  induction args with
  | nil => intro n s _; simp [countArgs]
  | cons a as ih =>
    intro n s h
    rw [countArgs, countArg_leaf _ s a (h a (List.mem_cons_self _ _))]
    simp only
    rw [ih (n + 1) (s + 1) (fun x hx => h x (List.mem_cons_of_mem _ hx)), List.length_cons]
    congr 1
    omega

theorem fill_loop_leaves (oom : Nat → Bool) (fuel first : Nat) (L : LuaStack) (N : Nat)
    (hfirst : 1 ≤ first) (hfuel : needFuel L ≤ fuel) (hm : ∀ j, oom j = false) :
    ∀ (rest done : List LuaValue) (n : Nat) (p : Params), L.drop (first - 1 + n) = rest →
      (∀ x ∈ rest, isLeaf x = true) → SlotInv N done p → done.length + rest.length ≤ N →
      ∃ p', fill_loop oom fuel first rest.length L n done.length p
          = .done (done.length + rest.length) p' ∧ SlotInv N (done ++ rest) p' := by
  intro rest
  induction rest with
  | nil => intro done n p _ _ hinv _; exact ⟨p, by simp [fill_loop], by simpa using hinv⟩
  | cons v vs ih =>
    intro done n p hd hl hinv hN
    obtain ⟨hv, hmem, hd2⟩ := index2value_of_drop L first n v vs hfirst hd
    simp only [List.length_cons] at hN
    simp only [List.length_cons, fill_loop]
    rw [get_sql_params_abs oom fuel L _ v _ _ (by omega) hv
      (le_trans (tableLen_le_needFuel L v hmem) hfuel),
      argCase_leaf oom L _ v _ p (hl v (List.mem_cons_self _ _))]
    obtain ⟨p1, h1, hinv1⟩ := leafCase_slot oom L v done.length N done p hinv rfl (by omega)
      (hm _) (hl v (List.mem_cons_self _ _))
    rw [h1]
    obtain ⟨p2, h2, hinv2⟩ := ih (done ++ [v]) (n + 1) p1 hd2
      (fun x hx => hl x (List.mem_cons_of_mem _ hx)) hinv1 (by simp; omega)
    refine ⟨p2, ?_, by simpa using hinv2⟩
    simp only [List.length_append, List.length_singleton] at h2
    show fill_loop oom fuel first vs.length L (n + 1) (done.length + 1) p1 = _
    rw [h2, show done.length + 1 + vs.length = done.length + (vs.length + 1) by omega]

theorem map_getD_range {α : Type} (l : List α) (d : α) :
    (List.range l.length).map (fun i => l.getD i d) = l := by
  apply List.ext_getElem
  · simp
  · intro i h1 h2
    simp [List.getD_eq_getElem?_getD, List.getElem?_eq_getElem h2]

/-- When every extra argument is a boolean, a number, a string or `nil`, the
connection is open, the command is a string and no allocation fails,
`conn_execParams` hands the native function one parameter per argument, the
`i`-th slot being the encoding of the `i`-th argument in a zeroed slot. -/
theorem scalars_end_to_end (oom : Nat → Bool) (result : Option Nat) (fuel : Nat)
    (L : LuaStack) (h : Nat) (cmd : LuaValue) (hfuel : needFuel L ≤ fuel)
    (hm : ∀ j, oom j = false) (hl : ∀ x ∈ L.drop 2, isLeaf x = true)
    (hconn : pgsql_conn L 1 = .ok h) (hcmd : luaL_checkstring L 2 = .ok cmd) :
    (conn_execParams oom result fuel L).nParams? = some (L.drop 2).length ∧
    (conn_execParams oom result fuel L).slots = (L.drop 2).map encodeSlot := by
  have hT := countArgs_leaves 3 (L.drop 2) 0 0 hl
  rw [Nat.zero_add] at hT
  unfold conn_execParams
  dsimp only
  rw [count_pass_eq oom fuel L hfuel, hT]
  have hlen : lua_gettop L - 2 = (L.drop 2).length := by simp [lua_gettop]
  rw [hlen]
  simp only [hconn, hcmd]
  split
  · simp only [malloc, hm, Params.null, Bool.false_eq_true, if_false, Option.isNone_some,
      or_self, Option.map_some']
    have hinit : SlotInv (L.drop 2).length []
        { paramTypes := some (List.replicate (L.drop 2).length 0),
          paramValues := some (List.replicate (L.drop 2).length none),
          paramLengths := some (List.replicate (L.drop 2).length 0),
          paramFormats := some (List.replicate (L.drop 2).length 0),
          allocs := 0 + 1 + 1 + 1 + 1,
          log := [] ++ [.alloc 0] ++ [.alloc (0 + 1)] ++ [.alloc (0 + 1 + 1)]
            ++ [.alloc (0 + 1 + 1 + 1)],
          writes := [] } := by
      refine ⟨⟨_, _, _, _, rfl, rfl, rfl, rfl, by simp, by simp, by simp, by simp⟩, fun i => ?_⟩
      simp only [slotAt, Option.getD_some, List.map_nil, List.getD_eq_getElem?_getD,
        List.getElem?_replicate, Slot.zero]
      split <;> simp
    obtain ⟨p', hf, hinv⟩ := fill_loop_leaves oom fuel 3 L (L.drop 2).length (by omega) hfuel hm
      (L.drop 2) [] 0 _ rfl hl hinit (by simp)
    simp only [List.length_nil, Nat.zero_add, List.nil_append] at hf hinv ⊢
    rw [hf]
    simp only [ExecOutcome.nParams?, ExecOutcome.call?, ExecOutcome.slots, Option.map_some',
      true_and]
    refine Eq.trans (List.map_congr_left
      (g := fun i => ((L.drop 2).map encodeSlot).getD i Slot.zero) (fun i _ => hinv.2 i)) ?_
    have := map_getD_range ((L.drop 2).map encodeSlot) Slot.zero
    simpa using this
  · rename_i h0
    simp only [ne_eq, Decidable.not_not] at h0
    have : L.drop 2 = [] := List.length_eq_zero.mp h0
    simp [ExecOutcome.nParams?, ExecOutcome.call?, ExecOutcome.slots, this]

theorem number_case (oom : Nat → Bool) (fuel : Nat) (L : LuaStack) (t : Int) (n : Nat)
    (p : Params) (hfuel : 1 ≤ fuel) (hb : inBounds p n = true) (hm : oom p.allocs = false) :
    (∀ i : Int, index2value L t = some (.integer i) →
      ∃ p', get_sql_params oom fuel L t n p = .ret0 1 L p' ∧
        slotAt p' n = ⟨INT8OID, some (htobe64 (toUInt64 i)), 8, 1⟩) ∧
    (∀ bits : Nat, index2value L t = some (.float bits) →
      ∃ p', get_sql_params oom fuel L t n p = .ret0 1 L p' ∧
        slotAt p' n = ⟨FLOAT8OID, some (htobe64 bits), 8, 1⟩) := by
  obtain ⟨f, rfl⟩ : ∃ f, fuel = f + 1 := ⟨fuel - 1, by omega⟩
  obtain ⟨ts, vs, ls, fs, a, lg, w⟩ := p
  cases ts <;> cases vs <;> cases ls <;> cases fs <;> simp [inBounds] at hb
  simp only at hm
  obtain ⟨⟨⟨h1, h2⟩, h3⟩, h4⟩ := hb
  constructor
  · intro i hi
    rw [get_sql_params_leaf oom f L t _ n _ hi (by rfl)]
    simp only [leafCase, leafBytes, hm, Option.isSome_some, if_true, Bool.false_eq_true, if_false]
    refine ⟨_, rfl, ?_⟩
    simp [slotAt, store, storeOpt, leafType, leafLenFmt, List.getD, h1, h2, h3, h4]
  · intro b hi
    rw [get_sql_params_leaf oom f L t _ n _ hi (by rfl)]
    simp only [leafCase, leafBytes, hm, Option.isSome_some, if_true, Bool.false_eq_true, if_false]
    refine ⟨_, rfl, ?_⟩
    simp [slotAt, store, storeOpt, leafType, leafLenFmt, List.getD, h1, h2, h3, h4]

theorem slots_get_of_scalars (oom : Nat → Bool) (result : Option Nat) (fuel : Nat)
    (L : LuaStack) (h : Nat) (cmd : LuaValue) (hfuel : needFuel L ≤ fuel)
    (hm : ∀ j, oom j = false) (hl : ∀ x ∈ L.drop 2, isLeaf x = true)
    (hconn : pgsql_conn L 1 = .ok h) (hcmd : luaL_checkstring L 2 = .ok cmd) (i : Nat)
    (v : LuaValue) (hv : (L.drop 2).get? i = some v) :
    (conn_execParams oom result fuel L).slots.get? i = some (encodeSlot v) := by
  rw [(scalars_end_to_end oom result fuel L h cmd hfuel hm hl hconn hcmd).2]
  simp only [List.get?_eq_getElem?, List.getElem?_map] at hv ⊢
  rw [hv]
  rfl

theorem scalar_case (oom : Nat → Bool) (fuel : Nat) (L : LuaStack) (t : Int) (n : Nat)
    (p : Params) (hfuel : 1 ≤ fuel) (hb : inBounds p n = true) :
    (∀ b : Bool, index2value L t = some (.boolean b) → oom p.allocs = false →
      ∃ p', get_sql_params oom fuel L t n p = .ret0 1 L p' ∧
        slotAt p' n = ⟨BOOLOID, some [if b then 1 else 0], 1, 1⟩ ∧
        p'.writes = p.writes ++ [n]) ∧
    (∀ s : List Nat, index2value L t = some (.string s) → oom p.allocs = false →
      slotAt p n = Slot.zero →
      ∃ p', get_sql_params oom fuel L t n p = .ret0 1 L p' ∧
        slotAt p' n = ⟨TEXTOID, some (s ++ [0]), 0, 0⟩ ∧
        p'.writes = p.writes ++ [n]) ∧
    (index2value L t = some .nil → slotAt p n = Slot.zero →
      ∃ p', get_sql_params oom fuel L t n p = .ret0 1 L p' ∧
        slotAt p' n = ⟨0, none, 0, 0⟩ ∧
        p'.allocs = p.allocs ∧ p'.log = p.log ∧
        p'.writes = p.writes ++ [n]) := by
  obtain ⟨f, rfl⟩ : ∃ f, fuel = f + 1 := ⟨fuel - 1, by omega⟩
  obtain ⟨ts, vs, ls, fs, a, lg, w⟩ := p
  cases ts <;> cases vs <;> cases ls <;> cases fs <;> simp [inBounds] at hb
  obtain ⟨⟨⟨h1, h2⟩, h3⟩, h4⟩ := hb
  refine ⟨?_, ?_, ?_⟩
  · intro b hi hm
    simp only at hm
    rw [get_sql_params_leaf oom f L t _ n _ hi (by rfl)]
    simp only [leafCase, leafBytes, hm, Option.isSome_some, if_true, Bool.false_eq_true, if_false]
    refine ⟨_, rfl, ?_, rfl⟩
    simp [slotAt, store, storeOpt, leafType, leafLenFmt, List.getD, h1, h2, h3, h4]
  · intro s hi hm hz
    simp only at hm
    rw [get_sql_params_leaf oom f L t _ n _ hi (by rfl)]
    simp only [leafCase, leafBytes, hm, Option.isSome_some, if_true, Bool.false_eq_true, if_false]
    refine ⟨_, rfl, ?_, rfl⟩
    simp [slotAt, Slot.zero, List.getD, h1, h2, h3, h4] at hz
    simp [slotAt, store, storeOpt, leafType, leafLenFmt, List.getD, h1, h2, h3, h4, hz]
  · intro hi hz
    rw [get_sql_params_leaf oom f L t _ n _ hi (by rfl)]
    simp only [leafCase, leafBytes, Option.isSome_some, if_true]
    refine ⟨_, rfl, ?_, rfl, rfl, rfl⟩
    simp [slotAt, Slot.zero, List.getD, h1, h2, h3, h4] at hz
    simp [slotAt, store, storeOpt, leafType, leafLenFmt, List.getD, h1, h2, h3, h4, hz]

theorem conn_execParams_retval (oom : Nat → Bool) (result : Option Nat) (fuel : Nat)
    (L : LuaStack) (v : LuaValue)
    (h : (conn_execParams oom result fuel L).retval? = some v) :
    v = .userdata RES_METATABLE result := by
  unfold conn_execParams at h
  dsimp only at h
  repeat' split at h
  all_goals first
    | (simp only [ExecOutcome.retval?, Option.some.injEq] at h; exact h.symm)
    | (simp [ExecOutcome.retval?] at h)

theorem conn_execPrepared_retval (oom : Nat → Bool) (result : Option Nat) (fuel : Nat)
    (L : LuaStack) (v : LuaValue)
    (h : (conn_execPrepared oom result fuel L).retval? = some v) :
    v = .userdata RES_METATABLE result := by
  unfold conn_execPrepared at h
  dsimp only at h
  repeat' split at h
  all_goals first
    | (simp only [ExecOutcome.retval?, Option.some.injEq] at h; exact h.symm)
    | (simp [ExecOutcome.retval?] at h)

theorem conn_prepare_retval (oom : Nat → Bool) (result : Option Nat) (fuel : Nat)
    (L : LuaStack) (v : LuaValue)
    (h : (conn_prepare oom result fuel L).retval? = some v) :
    v = .userdata RES_METATABLE result := by
  unfold conn_prepare at h
  dsimp only at h
  repeat' split at h
  all_goals first
    | (simp only [ExecOutcome.retval?, Option.some.injEq] at h; exact h.symm)
    | (simp [ExecOutcome.retval?] at h)


theorem retval_of_call {o : ExecOutcome} {v : LuaValue} (h : o.call?.isSome = true)
    (hv : ∀ w, o.retval? = some w → w = v) : o.retval? = some v := by
  cases o with
  | returned c w n p => rw [hv w rfl]; rfl
  | raised e c p => simp [ExecOutcome.call?] at h
  | outOfFuel => simp [ExecOutcome.call?] at h

theorem conn_execPrepared_returns (oom : Nat → Bool) (result : Option Nat) (fuel : Nat)
    (L : LuaStack) (h : Nat) (cmd : LuaValue) (hfuel : needFuel L ≤ fuel)
    (hm : ∀ j, oom j = false) (hacc : ∀ x ∈ L.drop 2, accepted x = true)
    (hconn : pgsql_conn L 1 = .ok h) (hcmd : luaL_checkstring L 2 = .ok cmd) :
    (conn_execPrepared oom result fuel L).call?.isSome = true := by
  obtain ⟨T, hT⟩ := countArgs_accepted 3 (L.drop 2) 0 0 hacc
  unfold conn_execPrepared
  dsimp only
  rw [count_pass_eq oom fuel L hfuel, hT]
  have hlen : lua_gettop L - 2 = (L.drop 2).length := by simp [lua_gettop]
  rw [hlen]
  simp only [hconn, hcmd]
  split
  · simp only [malloc, hm, Params.null, Bool.false_eq_true, if_false, Option.isNone_some,
      or_self, Option.map_some']
    obtain ⟨s', p', hf⟩ := fill_loop_total oom fuel 3 L (by omega) hfuel hm (L.drop 2) 0 0
      { paramTypes := none, paramValues := some (List.replicate T none),
        paramLengths := some (List.replicate T 0), paramFormats := some (List.replicate T 0),
        allocs := 0 + 1 + 1 + 1,
        log := [] ++ [.alloc 0] ++ [.alloc (0 + 1)] ++ [.alloc (0 + 1 + 1)],
        writes := [] } rfl hacc
    rw [hf]
    rfl
  · rfl

theorem conn_prepare_returns (oom : Nat → Bool) (result : Option Nat) (fuel : Nat)
    (L : LuaStack) (h : Nat) (name cmd : LuaValue) (hfuel : needFuel L ≤ fuel)
    (hm : ∀ j, oom j = false) (hacc : ∀ x ∈ L.drop 3, accepted x = true)
    (hconn : pgsql_conn L 1 = .ok h) (hname : luaL_checkstring L 2 = .ok name)
    (hcmd : luaL_checkstring L 3 = .ok cmd) :
    (conn_prepare oom result fuel L).call?.isSome = true := by
  obtain ⟨T, hT⟩ := countArgs_accepted 4 (L.drop 3) 0 0 hacc
  have hcount := count_loop_null oom fuel 4 L 0 [] (by omega) hfuel (L.drop 3) 0 0 0 rfl
  rw [List.length_drop] at hcount
  unfold conn_prepare
  dsimp only
  have hlen : lua_gettop L - 3 = L.length - 3 := rfl
  rw [hlen, hcount, hT]
  have hlen2 : L.length - 3 = (L.drop 3).length := by simp
  rw [hlen2]
  simp only [hconn, hname, hcmd]
  split
  · simp only [malloc, hm, Params.null, Bool.false_eq_true, if_false, Option.isNone_some]
    obtain ⟨s', p', hf⟩ := fill_loop_total oom fuel 4 L (by omega) hfuel hm (L.drop 3) 0 0
      { paramTypes := some (List.replicate T 0), paramValues := none,
        paramLengths := none, paramFormats := none,
        allocs := 0 + 1,
        log := [] ++ [.alloc 0],
        writes := [] } rfl hacc
    rw [hf]
    rfl
  · rfl

theorem leafCase_fill (oom : Nat → Bool) (L : LuaStack) (v : LuaValue) (n : Nat) (p : Params)
    (c : Nat) (L' : LuaStack) (p' : Params) (hb : inBounds p n = true)
    (hv : isParamScalar v = true) (h : leafCase oom L v n p = .ret0 c L' p') :
    slotAt p' n = fillSlot v (slotAt p n) ∧ (∀ i, i ≠ n → slotAt p' i = slotAt p i) ∧
      (∀ i, inBounds p' i = inBounds p i) := by
  obtain ⟨ts, vs, ls, fs, a, lg, w⟩ := p
  cases ts <;> cases vs <;> cases ls <;> cases fs <;> simp [inBounds] at hb
  obtain ⟨⟨⟨h1, h2⟩, h3⟩, h4⟩ := hb
  rename_i ts vs ls fs
  cases hoom : oom a
  · cases v <;> simp [isParamScalar, typeOfValue] at hv <;>
      simp only [leafCase, leafBytes, hoom, Option.isSome_some, if_true, Bool.false_eq_true,
        if_false, Outcome.ret0.injEq] at h <;>
      obtain ⟨_, _, rfl⟩ := h <;>
      refine ⟨?_, ?_, ?_⟩ <;>
      first
        | (intro i hi
           simp [slotAt, store, storeOpt, leafType, leafLenFmt, List.getD_eq_getElem?_getD,
             List.getElem?_set_ne (Ne.symm hi)])
        | (intro i
           simp [inBounds, store, storeOpt, leafType, leafLenFmt])
        | simp [slotAt, fillSlot, store, storeOpt, leafType, leafLenFmt, leafBytes,
            List.getD_eq_getElem?_getD, h1, h2, h3, h4]
  · cases v <;> simp [isParamScalar, typeOfValue] at hv <;>
      simp [leafCase, leafBytes, hoom] at h

theorem tableCase_fill (oom : Nat → Bool) (L : LuaStack) :
    ∀ (vs : List LuaValue) (n : Nat) (p : Params) (c : Nat) (L' : LuaStack) (p' : Params),
      (∀ i, n ≤ i → i < n + (visited vs).length → inBounds p i = true) →
      tableCase oom L vs n p = .ret0 c L' p' →
      (∀ j v, (visited vs)[j]? = some v → slotAt p' (n + j) = fillSlot v (slotAt p (n + j))) ∧
      (∀ i, i < n ∨ n + (visited vs).length ≤ i → slotAt p' i = slotAt p i) ∧
      (∀ i, inBounds p' i = inBounds p i) := by
  intro vs
  induction vs with
  | nil =>
    intro n p c L' p' _ h
    simp only [tableCase, Outcome.ret0.injEq] at h
    obtain ⟨_, _, rfl⟩ := h
    exact ⟨fun j v hj => by simp [visited] at hj, fun _ _ => rfl, fun _ => rfl⟩
  | cons v vs ih =>
    intro n p c L' p' hb h
    simp only [tableCase] at h
    by_cases hnil : typeOfValue v = .LUA_TNIL
    · simp only [hnil, beq_self_eq_true, if_true, Outcome.ret0.injEq] at h
      obtain ⟨_, _, rfl⟩ := h
      rw [visited_cons_nil v vs hnil]
      exact ⟨fun j v hj => by simp at hj, fun _ _ => rfl, fun _ => rfl⟩
    · rw [visited_cons v vs hnil] at hb ⊢
      simp only [List.length_cons] at hb ⊢
      by_cases hs : isParamScalar v = true
      · simp only [hnil, hs, beq_iff_eq, if_false, if_true] at h
        rcases leafCase_shape oom (L ++ [v]) v n p with ⟨p1, h1⟩ | ⟨p1, h1⟩
        · rw [h1] at h
          obtain ⟨f1, f2, f3⟩ := leafCase_fill oom (L ++ [v]) v n p 1 _ p1
            (hb n (le_refl _) (by omega)) hs h1
          obtain ⟨g1, g2, g3⟩ := ih (n + 1) p1 c L' p'
            (fun i hi1 hi2 => by rw [f3 i]; exact hb i (by omega) (by omega)) h
          refine ⟨?_, ?_, fun i => by rw [g3 i, f3 i]⟩
          · intro j x hj
            cases j with
            | zero =>
              simp only [List.getElem?_cons_zero, Option.some.injEq] at hj
              subst hj
              rw [Nat.add_zero, g2 n (Or.inl (by omega)), f1]
            | succ j =>
              simp only [List.getElem?_cons_succ] at hj
              have := g1 j x hj
              rw [show n + (j + 1) = n + 1 + j by omega, this, f2 (n + 1 + j) (by omega)]
          · intro i hi
            rw [g2 i (by omega), f2 i (by omega)]
        · rw [h1] at h
          cases h
      · by_cases htab : typeOfValue v = .LUA_TTABLE <;>
          simp [hnil, hs, htab] at h

theorem leafCase_count_only (oom : Nat → Bool) (L : LuaStack) (v : LuaValue) (n : Nat)
    (p : Params) (c : Nat) (L' : LuaStack) (p' : Params) (h1 : p.paramTypes = none)
    (h2 : p.paramValues = none) (h : leafCase oom L v n p = .ret0 c L' p') : p' = p := by
  obtain ⟨ts, vs, ls, fs, a, lg, w⟩ := p
  simp only at h1 h2
  subst h1 h2
  simp only [leafCase, Option.isSome_none, Bool.false_eq_true, if_false, Outcome.ret0.injEq] at h
  obtain ⟨_, _, rfl⟩ := h
  cases leafType v <;> simp [storeOpt, store]

theorem tableCase_count_only (oom : Nat → Bool) (L : LuaStack) :
    ∀ (vs : List LuaValue) (n : Nat) (p : Params) (c : Nat) (L' : LuaStack) (p' : Params),
      p.paramTypes = none → p.paramValues = none →
      tableCase oom L vs n p = .ret0 c L' p' → p' = p := by
  intro vs
  induction vs with
  | nil =>
    intro n p c L' p' _ _ h
    simp only [tableCase, Outcome.ret0.injEq] at h
    exact h.2.2.symm
  | cons v vs ih =>
    intro n p c L' p' e1 e2 h
    simp only [tableCase] at h
    by_cases hnil : typeOfValue v = .LUA_TNIL
    · simp only [hnil, beq_self_eq_true, if_true, Outcome.ret0.injEq] at h
      exact h.2.2.symm
    · by_cases hs : isParamScalar v = true
      · simp only [hnil, hs, beq_iff_eq, if_false, if_true] at h
        rcases leafCase_shape oom (L ++ [v]) v n p with ⟨p1, h1⟩ | ⟨p1, h1⟩
        · rw [h1] at h
          have hp1 := leafCase_count_only oom (L ++ [v]) v n p 1 _ p1 e1 e2 h1
          subst hp1
          exact ih (n + 1) p1 c L' p' e1 e2 h
        · rw [h1] at h
          cases h
      · by_cases htab : typeOfValue v = .LUA_TTABLE <;>
          simp [hnil, hs, htab] at h

theorem leafCase_withoutStack (oom : Nat → Bool) (L L2 : LuaStack) (v : LuaValue) (n : Nat)
    (p : Params) :
    (leafCase oom L2 v n p).withoutStack = (leafCase oom L v n p).withoutStack := by
  unfold leafCase
  split
  · split
    · rfl
    · split <;> rfl
  · rfl

theorem tableCase_withoutStack (oom : Nat → Bool) (L L2 : LuaStack) :
    ∀ (vs : List LuaValue) (n : Nat) (p : Params),
      (tableCase oom L2 vs n p).withoutStack = (tableCase oom L vs n p).withoutStack := by
  intro vs
  induction vs with
  | nil => intro n p; rfl
  | cons v vs ih =>
    intro n p
    simp only [tableCase]
    split
    · rfl
    · split
      · have hw := leafCase_withoutStack oom (L ++ [v]) (L2 ++ [v]) v n p
        rcases leafCase_shape oom (L ++ [v]) v n p with ⟨p1, h1⟩ | ⟨p1, h1⟩ <;>
          rcases leafCase_shape oom (L2 ++ [v]) v n p with ⟨p2, h2⟩ | ⟨p2, h2⟩ <;>
          rw [h1, h2] at hw <;> simp only [Outcome.withoutStack, Outcome.ret0.injEq,
            Outcome.retm1.injEq, reduceCtorEq, true_and] at hw
        · subst hw
          rw [h1, h2]
          exact ih (n + 1) p2
        · subst hw
          rw [h1, h2]
          rfl
      · split <;> rfl

theorem tableCase_visited (oom : Nat → Bool) (L : LuaStack) :
    ∀ (vs : List LuaValue) (n : Nat) (p : Params),
      tableCase oom L (visited vs) n p = tableCase oom L vs n p := by
  intro vs
  induction vs with
  | nil => intro n p; rfl
  | cons v vs ih =>
    intro n p
    by_cases hnil : typeOfValue v = .LUA_TNIL
    · rw [visited_cons_nil v vs hnil]
      simp [tableCase, hnil]
    · rw [visited_cons v vs hnil]
      simp only [tableCase, hnil, beq_iff_eq, if_false]
      split
      · rcases leafCase_shape oom (L ++ [v]) v n p with ⟨p1, h1⟩ | ⟨p1, h1⟩
        · rw [h1]
          exact ih (n + 1) p1
        · rw [h1]
      · rfl

theorem sizeBound_mono : ∀ (args : List LuaValue) (s s' : Nat), s ≤ s' →
    args.foldl (fun s v => 2 * s + tableLen v + 1) s
      ≤ args.foldl (fun s v => 2 * s + tableLen v + 1) s' := by
  intro args
  induction args with
  | nil => intro s s' h; simpa using h
  | cons v vs ih =>
    intro s s' h
    simp only [List.foldl_cons]
    exact ih _ _ (by omega)

theorem visited_length_le (arr : List LuaValue) : (visited arr).length ≤ arr.length := by
  unfold visited
  exact (List.takeWhile_sublist _).length_le

/-- The total of the count-only pass is at most `sizeBound`. -/
theorem countArgs_le_sizeBound (first : Nat) : ∀ (args : List LuaValue) (n s N : Nat),
    countArgs first args n s = .ok N →
    N ≤ args.foldl (fun s v => 2 * s + tableLen v + 1) s := by
  intro args
  induction args with
  | nil =>
    intro n s N h
    simp only [countArgs] at h
    injection h with h
    simp [h]
  | cons v vs ih =>
    intro n s N h
    simp only [countArgs] at h
    cases hc : countArg ((first + n : Nat) : Int) s v with
    | error e => rw [hc] at h; cases h
    | ok c =>
      rw [hc] at h
      have h1 := ih (n + 1) (s + c) N h
      have hb : s + c ≤ 2 * s + tableLen v + 1 := by
        cases v with
        | table arr =>
          simp only [countArg] at hc
          obtain ⟨e, _⟩ := countElems_ok arr s c hc
          have := visited_length_le arr
          simp only [tableLen]
          omega
        | _ =>
          simp only [countArg] at hc
          split at hc
          · injection hc with hc
            omega
          · cases hc
      simp only [List.foldl_cons]
      exact le_trans h1 (sizeBound_mono vs _ _ hb)

namespace Handles

theorem bind_apply {α β : Type} (m : LuaM α) (f : α → LuaM β) (s : lua_State) :
    (m >>= f) s = match m s with
      | .ok a s1 => f a s1
      | .raised e s1 => .raised e s1
      | .undefined s1 => .undefined s1 := rfl

theorem pure_apply {α : Type} (a : α) (s : lua_State) : (pure a : LuaM α) s = .ok a s := rfl

theorem lt_of_getElem? {α : Type} (l : List α) (a : Nat) (x : α) (h : l[a]? = some x) :
    a < l.length := by
  by_contra hc
  rw [List.getElem?_eq_none (by omega)] at h
  exact absurd h (by simp)

theorem getElem?_set_append {α : Type} (l : List α) (t : Nat) (x : α) (ys : List α)
    (h : t < l.length) : (l.set t x ++ ys)[t]? = some x := by
  rw [List.getElem?_append_left (by simpa using h)]
  simp [h]

theorem set_set_append {α : Type} (l : List α) (t : Nat) (x z : α) (ys : List α)
    (h : t < l.length) : (l.set t x ++ ys).set t z = l.set t z ++ ys := by
  rw [List.set_append_left _ _ (by simpa using h), List.set_set]

theorem Table.get_set_self (T : Table) (k v : TValue) : (T.set k v).get k = v := by
  unfold Table.set Table.get
  by_cases hv : v = .nil
  · subst hv
    simp only [if_true]
    have : (List.filter (fun e => e.1 != k) T).find? (fun e => e.1 == k) = none := by
      rw [List.find?_eq_none]
      intro x hx
      rw [List.mem_filter] at hx
      simpa using hx.2
    rw [this]
  · simp [hv]

theorem Table.get_set_ne (T : Table) (k j v : TValue) (h : k ≠ j) :
    (T.set k v).get j = T.get j := by
  have hf : (List.filter (fun e => e.1 != k) T).find? (fun e => e.1 == j)
      = T.find? (fun e => e.1 == j) := by
    rw [List.find?_filter]
    congr 1
    funext e
    by_cases he : e.1 = j
    · have : ¬ e.1 = k := fun e2 => h (e2.symm.trans he)
      simp [he, this]
      intro e3
      exact h e3.symm
    · simp [he]
  unfold Table.set Table.get
  by_cases hv : v = .nil
  · simp only [hv, if_true]
    rw [hf]
  · simp only [hv, if_false, List.find?_cons]
    have : ((k, v).1 == j) = false := by simpa using h
    rw [this, hf]

theorem slotOf_eq (s : lua_State) (tname : String) (a : Nat) (p : Option Nat)
    (h : slotOf s tname a = some p) :
    ∃ uv, s.udata[a]? = some ⟨some tname, .handle p, uv⟩ := by
  unfold slotOf at h
  split at h
  · rename_i t q uv hg
    split at h
    · rename_i ht
      simp at h
      subst h; subst ht
      exact ⟨uv, hg⟩
    · simp at h
  · simp at h

theorem conn_finish_unregistered (s : lua_State) (a h : Nat)
    (hopen : slotOf s CONN_METATABLE a = some (some h))
    (hreg : Table.get s.registry (.lightuserdata h) = .nil) :
    (conn_finish (frame [.userdata a] s)).state.events
      = s.events ++ [.native "PQfinish" [.ptr (some h)]] ∧
    slotOf (conn_finish (frame [.userdata a] s)).state CONN_METATABLE a = some none := by
  obtain ⟨uv, hg⟩ := slotOf_eq _ _ _ _ hopen
  have ha := lt_of_getElem? _ _ _ hg
  simp [conn_finish, bind_apply, pure_apply, luaL_checkudata, udataAt, frame, index2value, hg,
    readHandle, lua_pushlightuserdata, push, lua_gettable, tableAt, LUA_REGISTRYINDEX,
    lua_isnil, hreg, native, writeHandle, setUdata, lua_getuservalue, lua_pushnil, lua_setfield,
    ha, setTableAt]
  cases uv <;> simp [Result.state, slotOf, ha]
  rename_i b
  cases hT : s.tables[b]? <;> simp [slotOf, ha]

theorem conn_finish_registered (s : lua_State) (a h : Nat)
    (hopen : slotOf s CONN_METATABLE a = some (some h))
    (hreg : Table.get s.registry (.lightuserdata h) ≠ .nil) :
    conn_finish (frame [.userdata a] s) = .ok 0 (frame [.userdata a] s) := by
  obtain ⟨uv, hg⟩ := slotOf_eq _ _ _ _ hopen
  simp [conn_finish, bind_apply, pure_apply, luaL_checkudata, udataAt, frame, index2value, hg,
    readHandle, lua_pushlightuserdata, push, lua_gettable, tableAt, LUA_REGISTRYINDEX,
    lua_isnil, hreg, lua_pop]

theorem conn_cancel_spec (s : lua_State) (a h c : Nat) (errbuf : String)
    (hopen : slotOf s CONN_METATABLE a = some (some h)) :
    conn_cancel (some c) 1 errbuf (frame [.userdata a] s)
      = .ok 1 { s with stack := [.userdata a, .boolean true],
                       events := s.events ++ [.native "PQgetCancel" [.ptr (some h)],
                         .native "PQcancel" [.ptr (some c)],
                         .native "PQfreeCancel" [.ptr (some c)]] } ∧
    conn_cancel (some c) 0 errbuf (frame [.userdata a] s)
      = .ok 2 { s with stack := [.userdata a, .boolean false, .string errbuf],
                       events := s.events ++ [.native "PQgetCancel" [.ptr (some h)],
                         .native "PQcancel" [.ptr (some c)],
                         .native "PQfreeCancel" [.ptr (some c)]] } := by
  obtain ⟨uv, hg⟩ := slotOf_eq _ _ _ _ hopen
  constructor <;>
  simp [conn_cancel, pgsql_conn, bind_apply, pure_apply, luaL_checkudata, udataAt, frame,
    index2value, hg, readHandle, native, lua_pushboolean, lua_pushstring, push]

theorem conn_trace_spec (s : lua_State) (a b h f t : Nat) (cf : Option CFunction)
    (T : Table) (suv : TValue)
    (hconn : s.udata[a]? = some ⟨some CONN_METATABLE, .handle (some h), .table t⟩)
    (hstream : s.udata[b]? = some ⟨some LUA_FILEHANDLE, .stream (some f) cf, suv⟩)
    (ht : s.tables[t]? = some T) :
    conn_trace (frame [.userdata a, .userdata b] s) = .ok 0
      { stack := [.userdata a, .userdata b, .table t],
        registry := s.registry,
        udata := (s.udata.set b ⟨some LUA_FILEHANDLE, .stream (some f) (some .closef_untrace),
          .table s.tables.length⟩),
        tables := (s.tables.set t (T.set (.string "trace_file") (.userdata b))) ++
          [(Table.set (Table.set (Table.set [] (.string "old_uservalue") suv)
              (.string "old_closef") (.cfunction cf)) (.string "PGconn") (.userdata a))],
        events := s.events ++ [.native "PQtrace" [.ptr (some h), .ptr (some f)]] } := by
  have ha := lt_of_getElem? _ _ _ hconn
  have hb := lt_of_getElem? _ _ _ hstream
  have htl := lt_of_getElem? _ _ _ ht
  have hab : a ≠ b := by
    intro e
    rw [e, hstream] at hconn
    simp [CONN_METATABLE, LUA_FILEHANDLE] at hconn
  simp [conn_trace, pgsql_conn, bind_apply, pure_apply, luaL_checkudata, udataAt, frame,
    index2value, hconn, hstream, readHandle, readStream, lua_getuservalue, push, lua_pushvalue,
    lua_setfield, tableAt, LUA_REGISTRYINDEX, setTableAt, ht, lua_createtable,
    lua_pushcfunction, lua_setuservalue, writeClosef, native, setUdata, hab, hab.symm, ha, hb, htl]

theorem closef_untrace_spec (s : lua_State) (a b h f t : Nat) (cf : Option CFunction)
    (T : Table) (suv : TValue)
    (hconn : s.udata[a]? = some ⟨some CONN_METATABLE, .handle (some h), .table t⟩)
    (hstream : s.udata[b]? = some ⟨some LUA_FILEHANDLE, .stream (some f) cf, suv⟩)
    (ht : s.tables[t]? = some T) :
    closef_untrace (frame [.userdata b] (conn_trace (frame [.userdata a, .userdata b] s)).state)
      = .ok cf
      { stack := [.userdata b],
        registry := s.registry,
        udata := (s.udata.set b ⟨some LUA_FILEHANDLE, .stream (some f) (some .closef_untrace),
          suv⟩),
        tables := (s.tables.set t
            ((T.set (.string "trace_file") (.userdata b)).set (.string "trace_file") .nil)) ++
          [(Table.set (Table.set (Table.set [] (.string "old_uservalue") suv)
              (.string "old_closef") (.cfunction cf)) (.string "PGconn") (.userdata a))],
        events := s.events ++ [.native "PQtrace" [.ptr (some h), .ptr (some f)],
          .native "PQuntrace" [.ptr (some h)]] } := by
  have ha := lt_of_getElem? _ _ _ hconn
  have hb := lt_of_getElem? _ _ _ hstream
  have htl := lt_of_getElem? _ _ _ ht
  have hab : a ≠ b := by
    intro e
    rw [e, hstream] at hconn
    simp [CONN_METATABLE, LUA_FILEHANDLE] at hconn
  have hca : s.udata[a] = ⟨some CONN_METATABLE, .handle (some h), .table t⟩ :=
    Option.some.inj (by rw [← List.getElem?_eq_getElem ha]; exact hconn)
  have hcb : s.udata[b] = ⟨some LUA_FILEHANDLE, .stream (some f) cf, suv⟩ :=
    Option.some.inj (by rw [← List.getElem?_eq_getElem hb]; exact hstream)
  have hct : s.tables[t] = T :=
    Option.some.inj (by rw [← List.getElem?_eq_getElem htl]; exact ht)
  rw [conn_trace_spec s a b h f t cf T suv hconn hstream ht]
  simp [closef_untrace, pgsql_conn, bind_apply, pure_apply, luaL_checkudata, udataAt, frame,
    index2value, hconn, hstream, readHandle, readStream, lua_getuservalue, push, lua_pushvalue,
    lua_setfield, tableAt, LUA_REGISTRYINDEX, setTableAt, ht, lua_createtable,
    lua_pushcfunction, lua_setuservalue, writeClosef, native, setUdata, hab, hab.symm, ha, hb, htl,
    Result.state, lua_getfield, lua_tocfunction, lua_pop, lua_pushnil, Table.get_set_self,
    Table.get_set_ne, hca, hcb, hct, getElem?_set_append, set_set_append]

theorem getElem?_append_new {α : Type} (l : List α) (x : α) :
    (l ++ [x])[l.length]? = some x := by
  simp

theorem set_append_new {α : Type} (l : List α) (x y : α) :
    (l ++ [x]).set l.length y = l ++ [y] := by
  rw [List.set_append_right _ _ (Nat.le_refl _)]
  simp

theorem conn_exec_spec (s : lua_State) (a h : Nat) (cmd : String) (result : Option Nat)
    (hopen : slotOf s CONN_METATABLE a = some (some h)) :
    conn_exec result (frame [.userdata a, .string cmd] s) = .ok 1
      { s with stack := [.userdata a, .string cmd, .userdata s.udata.length],
               udata := s.udata ++ [⟨some RES_METATABLE, .handle result, .nil⟩],
               events := s.events ++ [.native "PQexec" [.ptr (some h), .str cmd]] } := by
  obtain ⟨uv, hg⟩ := slotOf_eq _ _ _ _ hopen
  have ha := lt_of_getElem? _ _ _ hg
  have hca : s.udata[a] = ⟨some CONN_METATABLE, .handle (some h), uv⟩ :=
    Option.some.inj (by rw [← List.getElem?_eq_getElem ha]; exact hg)
  simp [conn_exec, pgsql_conn, bind_apply, pure_apply, luaL_checkudata, udataAt, frame,
    index2value, hg, readHandle, native, push, lua_newuserdata, luaL_checkstring, writeHandle,
    setUdata, luaL_getmetatable, lua_setmetatable, ha, hca, List.getElem?_append_left,
    getElem?_append_new, set_append_new]

theorem conn_describePrepared_spec (s : lua_State) (a h : Nat) (name : String)
    (result : Option Nat) (hopen : slotOf s CONN_METATABLE a = some (some h)) :
    conn_describePrepared result (frame [.userdata a, .string name] s) = .ok 1
      { s with stack := [.userdata a, .string name, .userdata s.udata.length],
               udata := s.udata ++ [⟨some RES_METATABLE, .handle result, .nil⟩],
               events := s.events
                 ++ [.native "PQdescribePrepared" [.ptr (some h), .str name]] } := by
  obtain ⟨uv, hg⟩ := slotOf_eq _ _ _ _ hopen
  have ha := lt_of_getElem? _ _ _ hg
  have hca : s.udata[a] = ⟨some CONN_METATABLE, .handle (some h), uv⟩ :=
    Option.some.inj (by rw [← List.getElem?_eq_getElem ha]; exact hg)
  simp [conn_describePrepared, pgsql_conn, bind_apply, pure_apply, luaL_checkudata, udataAt,
    frame, index2value, hg, readHandle, native, push, lua_newuserdata, luaL_checkstring,
    writeHandle, setUdata, luaL_getmetatable, lua_setmetatable, ha, hca,
    List.getElem?_append_left, getElem?_append_new, set_append_new]

theorem conn_describePortal_spec (s : lua_State) (a h : Nat) (name : String)
    (result : Option Nat) (hopen : slotOf s CONN_METATABLE a = some (some h)) :
    conn_describePortal result (frame [.userdata a, .string name] s) = .ok 1
      { s with stack := [.userdata a, .string name, .userdata s.udata.length],
               udata := s.udata ++ [⟨some RES_METATABLE, .handle result, .nil⟩],
               events := s.events
                 ++ [.native "PQdescribePortal" [.ptr (some h), .str name]] } := by
  obtain ⟨uv, hg⟩ := slotOf_eq _ _ _ _ hopen
  have ha := lt_of_getElem? _ _ _ hg
  have hca : s.udata[a] = ⟨some CONN_METATABLE, .handle (some h), uv⟩ :=
    Option.some.inj (by rw [← List.getElem?_eq_getElem ha]; exact hg)
  simp [conn_describePortal, pgsql_conn, bind_apply, pure_apply, luaL_checkudata, udataAt,
    frame, index2value, hg, readHandle, native, push, lua_newuserdata, luaL_checkstring,
    writeHandle, setUdata, luaL_getmetatable, lua_setmetatable, ha, hca,
    List.getElem?_append_left, getElem?_append_new, set_append_new]

theorem conn_getResult_null (s : lua_State) (a h : Nat)
    (hopen : slotOf s CONN_METATABLE a = some (some h)) :
    conn_getResult none (frame [.userdata a] s) = .ok 1
      { s with stack := [.userdata a, .nil],
               events := s.events ++ [.native "PQgetResult" [.ptr (some h)]] } := by
  obtain ⟨uv, hg⟩ := slotOf_eq _ _ _ _ hopen
  simp [conn_getResult, pgsql_conn, bind_apply, pure_apply, luaL_checkudata, udataAt,
    frame, index2value, hg, readHandle, native, push, lua_pushnil]

theorem conn_getResult_some (s : lua_State) (a h p : Nat)
    (hopen : slotOf s CONN_METATABLE a = some (some h)) :
    conn_getResult (some p) (frame [.userdata a] s) = .ok 1
      { s with stack := [.userdata a, .userdata s.udata.length],
               udata := s.udata ++ [⟨some RES_METATABLE, .handle (some p), .nil⟩],
               events := s.events ++ [.native "PQgetResult" [.ptr (some h)]] } := by
  obtain ⟨uv, hg⟩ := slotOf_eq _ _ _ _ hopen
  have ha := lt_of_getElem? _ _ _ hg
  simp [conn_getResult, pgsql_conn, bind_apply, pure_apply, luaL_checkudata, udataAt,
    frame, index2value, hg, readHandle, native, push, lua_newuserdata,
    writeHandle, setUdata, luaL_getmetatable, lua_setmetatable, ha,
    List.getElem?_append_left, getElem?_append_new, set_append_new]

theorem returnsResult_new (s : lua_State) (L : List TValue) (p : Option Nat)
    (ev : List Event) :
    returnsResult (.ok 1
      { s with stack := L ++ [.userdata s.udata.length],
               udata := s.udata ++ [⟨some RES_METATABLE, .handle p, .nil⟩],
               events := ev }) p = true := by
  simp [returnsResult, Result.values, Result.state, slotOf, getElem?_append_new]

/-- The connection object of the example state is the one `pgsql_connectdb`
creates when `PQconnectdb` returns the handle 7. -/
theorem pgsql_connectdb_example :
    (pgsql_connectdb (some 7) (frame [.string "dbname=test"] ⟨[], [], [], [], []⟩)).values
      = some [.userdata 0] ∧
    (pgsql_connectdb (some 7) (frame [.string "dbname=test"] ⟨[], [], [], [], []⟩)).state.udata
      = exampleState.udata.take 1 ∧
    (pgsql_connectdb (some 7) (frame [.string "dbname=test"] ⟨[], [], [], [], []⟩)).state.tables
      = exampleState.tables := by
  decide!

theorem conn_cancel_no_handle (s : lua_State) (a h : Nat) (res : Int) (errbuf : String)
    (hopen : slotOf s CONN_METATABLE a = some (some h)) :
    conn_cancel none res errbuf (frame [.userdata a] s)
      = .ok 1 { s with stack := [.userdata a, .boolean false],
                       events := s.events ++ [.native "PQgetCancel" [.ptr (some h)]] } := by
  obtain ⟨uv, hg⟩ := slotOf_eq _ _ _ _ hopen
  simp [conn_cancel, pgsql_conn, bind_apply, pure_apply, luaL_checkudata, udataAt, frame,
    index2value, hg, readHandle, native, lua_pushboolean, lua_pushstring, push]

theorem getElem_append_length {α : Type} (L : List α) (x : α) (ys : List α)
    (h : L.length < (L ++ x :: ys).length) : (L ++ x :: ys)[L.length] = x := by
  rw [List.getElem_append_right (Nat.le_refl _)]
  simp

theorem conn_setNoticeProcessor_spec (s : lua_State) (a h : Nat) (g : TValue)
    (hopen : slotOf s CONN_METATABLE a = some (some h)) :
    conn_setNoticeProcessor (frame [.userdata a, g] s) = .ok 0
      { s with stack := [.userdata a, g],
               registry := Table.set s.registry (.string "__pgsqlNoticeProcessor") g,
               events := s.events ++ [.native "PQsetNoticeProcessor" [.ptr (some h)]] } := by
  obtain ⟨uv, hg⟩ := slotOf_eq _ _ _ _ hopen
  simp [conn_setNoticeProcessor, pgsql_conn, bind_apply, pure_apply, luaL_checkudata, udataAt,
    frame, index2value, hg, readHandle, native, lua_pushstring, push, lua_pushvalue, lua_rawset,
    tableAt, setTableAt, LUA_REGISTRYINDEX]

theorem noticeProcessor_spec (s : lua_State) (L : List TValue) (g : TValue) (message : String)
    (hreg : Table.get s.registry (.string "__pgsqlNoticeProcessor") = g)
    (hg : callable g = true) :
    noticeProcessor none message (frame L s)
      = .ok () { s with stack := L, events := s.events ++ [.pcall g [.string message]] } ∧
    ∀ msg, noticeProcessor (some msg) message (frame L s)
      = .raised (.error msg)
          { s with stack := L ++ [.string msg],
                   events := s.events ++ [.pcall g [.string message]] } := by
  constructor
  · simp [noticeProcessor, bind_apply, pure_apply, frame, lua_pushstring, push, lua_rawget,
      tableAt, LUA_REGISTRYINDEX, hreg, lua_pcall, hg, LUA_OK, LUA_ERRRUN, getElem_append_length]
  · intro msg
    simp [noticeProcessor, bind_apply, pure_apply, frame, lua_pushstring, push, lua_rawget,
      tableAt, LUA_REGISTRYINDEX, hreg, lua_pcall, hg, LUA_OK, LUA_ERRRUN, lua_tostring,
      index2value, luaL_error, raise, getElem_append_length]

end Handles

/-! ## The claims -/

/-- C1 (code bug). With the extra arguments `true, {1}` the count-only pass
of `conn_execParams` totals 3, while the fill pass assigns two slots only
(0 and 1): the `LUA_TTABLE` case ends with `*count = n`, and `n` still
contains the offset at which the table was met. -/
theorem count_pass_exceeds_slots_written :
    (conn_execParams noOom (some 1) 5
      [exampleConn, exampleCmd, .boolean true, .table [.integer 1]]).counted? = some 3 ∧
    (conn_execParams noOom (some 1) 5
      [exampleConn, exampleCmd, .boolean true, .table [.integer 1]]).writes = [0, 1] := by
  decide!

/-- C2 (code bug). With the extra arguments `true, 3.5, "abc", nil, {1,2}`
the native function is handed 10 parameters, not 6: slots 0 to 5 carry the
types boolean, float, text, none (null value), integer, integer, and slots 6
to 9 are zeroed null parameters that no argument stands for. -/
theorem scenario_hands_over_ten_parameters :
    (conn_execParams noOom (some 1) 5
      [exampleConn, exampleCmd, .boolean true, .float 0x400C000000000000,
        .string [97, 98, 99], .nil, .table [.integer 1, .integer 2]]).nParams? = some 10 ∧
    ((conn_execParams noOom (some 1) 5
      [exampleConn, exampleCmd, .boolean true, .float 0x400C000000000000,
        .string [97, 98, 99], .nil, .table [.integer 1, .integer 2]]).slots.map Slot.type
      = [BOOLOID, FLOAT8OID, TEXTOID, 0, INT8OID, INT8OID, 0, 0, 0, 0]) ∧
    ((conn_execParams noOom (some 1) 5
      [exampleConn, exampleCmd, .boolean true, .float 0x400C000000000000,
        .string [97, 98, 99], .nil, .table [.integer 1, .integer 2]]).slots.map
        (fun s => s.value.isSome)
      = [true, true, true, false, true, true, false, false, false, false]) := by
  decide!

/-- C3 (code bug). With the extra arguments `true, {1}, false` the fill pass
assigns the slots 0, 1 and 3 and reports 4 parameters for 3 leaves: slot 2
is a gap, handed over as a zeroed null parameter.  With the extra argument
`{{1}}` no slot is assigned at all: the inner call indexes the key it has
just pushed (`lua_gettable(L, -1)`) and the index error leaves the
function. -/
theorem fill_pass_leaves_gaps :
    (conn_execParams noOom (some 1) 5
      [exampleConn, exampleCmd, .boolean true, .table [.integer 1], .boolean false]).writes
      = [0, 1, 3] ∧
    (conn_execParams noOom (some 1) 5
      [exampleConn, exampleCmd, .boolean true, .table [.integer 1], .boolean false]).nParams?
      = some 4 ∧
    (conn_execParams noOom (some 1) 5
      [exampleConn, exampleCmd, .boolean true, .table [.integer 1], .boolean false]).slots.get? 2
      = some Slot.zero ∧
    (conn_execParams noOom (some 1) 5
      [exampleConn, exampleCmd, .table [.table [.integer 1]]]).error? = some .index_error := by
  decide!

/-- C4 (code bug). An empty table that follows the argument `true` adds one
parameter: the call with `true, {}` hands over 2 parameters, the call with
`true` alone hands over 1; only in first position (`{}, true`) does the
empty table add nothing. -/
theorem empty_table_adds_parameters :
    (conn_execParams noOom (some 1) 5
      [exampleConn, exampleCmd, .boolean true, .table []]).nParams? = some 2 ∧
    (conn_execParams noOom (some 1) 5
      [exampleConn, exampleCmd, .boolean true]).nParams? = some 1 ∧
    (conn_execParams noOom (some 1) 5
      [exampleConn, exampleCmd, .table [], .boolean true]).nParams? = some 1 := by
  decide!

/-- C5. For a table argument (a table at an absolute stack index `t`) met at
the offset `n`, with the counters in the range of `int`, `get_sql_params`
reads the indices 1, 2, 3, ... and stops at the first index `k` that holds
`nil`.  Whenever the call returns 0, the elements before the first `nil`
(`visited arr`, the indices `1 .. k-1`) are booleans, numbers or strings and
the count has grown by their number; in a fill pass exactly the slots
`n, n+1, ..., n+k-2` were assigned, in this order, and when the four arrays
have these slots, slot `n+j` holds the encoding of the element at index
`j+1` (`fillSlot`: type tag, value bytes, and for booleans and numbers length
and format) while every other slot is as it was; in a count-only pass
(null type and value arrays) the C state is unchanged.  The call does return
0 when the elements before the first `nil` are booleans, numbers or strings
and no allocation fails.  What the table holds from index `k` on has no
effect: on any table with the same elements before its first `nil` the call
ends in the same way, with the same count and the same C state. -/
theorem table_stops_at_first_nil (oom : Nat → Bool) (fuel : Nat) (L : LuaStack) (t : Int)
    (arr : List LuaValue) (n : Nat) (p : Params) (ht : 0 < t)
    (harr : index2value L t = some (.table arr)) (hfuel : arr.length + 3 ≤ fuel)
    (hint : n + (visited arr).length < INT_MAX) :
    (∀ (c : Nat) (L' : LuaStack) (p' : Params),
      get_sql_params oom fuel L t n p = .ret0 c L' p' →
        c = n + (visited arr).length ∧ L' = L ∧
        (∀ v ∈ visited arr, isParamScalar v = true) ∧
        (p.paramValues.isSome = true →
          p'.writes = p.writes ++ List.range' n (visited arr).length) ∧
        ((∀ i, n ≤ i → i < n + (visited arr).length → inBounds p i = true) →
          (∀ j v, (visited arr)[j]? = some v →
            slotAt p' (n + j) = fillSlot v (slotAt p (n + j))) ∧
          (∀ i, i < n ∨ n + (visited arr).length ≤ i → slotAt p' i = slotAt p i)) ∧
        (p.paramTypes = none → p.paramValues = none → p' = p)) ∧
    ((∀ v ∈ visited arr, isParamScalar v = true) → (∀ j, oom j = false) →
      ∃ p', get_sql_params oom fuel L t n p = .ret0 (n + (visited arr).length) L p') ∧
    (∀ (fuel2 : Nat) (L2 : LuaStack) (arr2 : List LuaValue),
      index2value L2 t = some (.table arr2) → arr2.length + 3 ≤ fuel2 →
      visited arr2 = visited arr →
      (get_sql_params oom fuel2 L2 t n p).withoutStack
        = (get_sql_params oom fuel L t n p).withoutStack) := by
  rw [get_sql_params_abs oom fuel L t _ n p ht harr (by simpa [tableLen] using hfuel)]
  simp only [argCase]
  refine ⟨?_, ?_, ?_⟩
  · intro c L' p' h
    obtain ⟨h1, h2, h3, _, h5⟩ := tableCase_ret0 oom L arr n p c L' p' h
    refine ⟨h1, h2, h3, h5, fun hb => ?_, fun e1 e2 => ?_⟩
    · obtain ⟨g1, g2, _⟩ := tableCase_fill oom L arr n p c L' p' hb h
      exact ⟨g1, g2⟩
    · exact tableCase_count_only oom L arr n p c L' p' e1 e2 h
  · intro hs hm
    exact tableCase_total oom L hm arr n p hs
  · intro fuel2 L2 arr2 harr2 hfuel2 hvis
    rw [get_sql_params_abs oom fuel2 L2 t _ n p ht harr2 (by simpa [tableLen] using hfuel2)]
    simp only [argCase]
    rw [← tableCase_visited oom L2 arr2, ← tableCase_visited oom L arr, hvis]
    exact tableCase_withoutStack oom L L2 (visited arr) n p

/-- Witness of C5: the table `{1, "a", nil, print}` as third argument, in a
fill pass over two slots: slot 0 holds the integer 1, slot 1 the string
`"a"`; the table `{1, "a"}` gives the same result. -/
theorem table_stops_at_first_nil_witness :
    ∃ p', get_sql_params noOom 7
        [exampleConn, exampleCmd, .table [.integer 1, .string [97], .nil, .func 0]] 3 0
        (freshParams 2)
      = .ret0 2 [exampleConn, exampleCmd, .table [.integer 1, .string [97], .nil, .func 0]] p'
      ∧ p'.writes = [0, 1]
      ∧ slotAt p' 0 = ⟨INT8OID, some (htobe64 1), 8, 1⟩
      ∧ slotAt p' 1 = ⟨TEXTOID, some [97, 0], 0, 0⟩
      ∧ (get_sql_params noOom 5 [exampleConn, exampleCmd, .table [.integer 1, .string [97]]] 3 0
          (freshParams 2)).withoutStack = .ret0 2 [] p' := by
  have h := table_stops_at_first_nil noOom 7
    [exampleConn, exampleCmd, .table [.integer 1, .string [97], .nil, .func 0]] 3
    [.integer 1, .string [97], .nil, .func 0] 0 (freshParams 2) (by decide) rfl (by decide)
    (by decide)
  obtain ⟨p', hp'⟩ := h.2.1 (by decide) (fun _ => rfl)
  obtain ⟨_, _, _, hw, hslot, _⟩ := h.1 _ _ _ hp'
  obtain ⟨hs, _⟩ := hslot (by decide)
  refine ⟨p', hp', hw rfl, ?_, ?_, ?_⟩
  · have := hs 0 (.integer 1) rfl
    simpa [fillSlot, leafType, leafBytes, leafLenFmt, toUInt64] using this
  · have := hs 1 (.string [97]) rfl
    rw [this]
    decide
  · rw [h.2.2 5 [exampleConn, exampleCmd, .table [.integer 1, .string [97]]]
      [.integer 1, .string [97]] rfl (by decide) rfl, hp']
    rfl

/-- C6. In a fill pass (four non-null arrays with a slot `n`) whose
allocation succeeds, `get_sql_params` turns a Lua number into one slot of
length 8 in binary format (format 1): an integer `i` gets the type `INT8OID`
and the bytes `htobe64 (toUInt64 i)`, a float the type `FLOAT8OID` and the
bytes `htobe64 bits` of its IEEE-754 bit pattern.  These are eight bytes,
most significant first: decoding them as a big-endian word gives the bit
pattern back, and for a 64-bit integer `i` decoding them as a signed
(two's complement) big-endian integer gives `i` back.  In a call of
`conn_execParams` whose extra arguments are all scalars, with an open
connection, a command string and no failing allocation, the slot the native
function receives for a number argument is this one. -/
theorem number_slot :
    (∀ (oom : Nat → Bool) (fuel : Nat) (L : LuaStack) (t : Int) (n : Nat) (p : Params),
      1 ≤ fuel → inBounds p n = true → oom p.allocs = false →
      (∀ i : Int, index2value L t = some (.integer i) →
        ∃ p', get_sql_params oom fuel L t n p = .ret0 1 L p' ∧
          slotAt p' n = ⟨INT8OID, some (htobe64 (toUInt64 i)), 8, 1⟩) ∧
      (∀ bits : Nat, index2value L t = some (.float bits) →
        ∃ p', get_sql_params oom fuel L t n p = .ret0 1 L p' ∧
          slotAt p' n = ⟨FLOAT8OID, some (htobe64 bits), 8, 1⟩)) ∧
    (∀ x : Nat, (htobe64 x).length = 8 ∧ (∀ b ∈ htobe64 x, b < 256) ∧
      (x < 2 ^ 64 → be64_unsigned (htobe64 x) = x)) ∧
    (∀ i : Int, -2 ^ 63 ≤ i → i < 2 ^ 63 → be64_signed (htobe64 (toUInt64 i)) = i) ∧
    (∀ (oom : Nat → Bool) (result : Option Nat) (fuel : Nat) (L : LuaStack) (h : Nat)
      (cmd : LuaValue), needFuel L ≤ fuel → (∀ j, oom j = false) →
      (∀ x ∈ L.drop 2, isLeaf x = true) → pgsql_conn L 1 = .ok h →
      luaL_checkstring L 2 = .ok cmd →
      ∀ k : Nat,
        (∀ i : Int, (L.drop 2).get? k = some (.integer i) →
          (conn_execParams oom result fuel L).slots.get? k
            = some ⟨INT8OID, some (htobe64 (toUInt64 i)), 8, 1⟩) ∧
        (∀ bits : Nat, (L.drop 2).get? k = some (.float bits) →
          (conn_execParams oom result fuel L).slots.get? k
            = some ⟨FLOAT8OID, some (htobe64 bits), 8, 1⟩)) := by
  refine ⟨?_, ?_, ?_, ?_⟩
  · intro oom fuel L t n p hfuel hb hm
    exact number_case oom fuel L t n p hfuel hb hm
  · intro x
    refine ⟨by simp [htobe64], ?_, be64_unsigned_htobe64 x⟩
    intro b hb
    simp only [htobe64, List.mem_cons, List.mem_singleton, List.not_mem_nil, or_false] at hb
    omega
  · exact be64_signed_htobe64
  · intro oom result fuel L h cmd hfuel hm hl hconn hcmd k
    exact ⟨fun i hi => slots_get_of_scalars oom result fuel L h cmd hfuel hm hl hconn hcmd k _ hi,
      fun b hb => slots_get_of_scalars oom result fuel L h cmd hfuel hm hl hconn hcmd k _ hb⟩

/-- Witness of C6: the integer -2 and the float 3.5, met by `get_sql_params`
at stack index 3 and passed to `conn_execParams` as arguments. -/
theorem number_slot_witness :
    (∃ p', get_sql_params noOom 1 [exampleConn, exampleCmd, .integer (-2)] 3 0 (freshParams 1)
        = .ret0 1 [exampleConn, exampleCmd, .integer (-2)] p' ∧
      slotAt p' 0 = ⟨INT8OID, some (htobe64 (toUInt64 (-2))), 8, 1⟩) ∧
    (∃ p', get_sql_params noOom 1 [exampleConn, exampleCmd, .float 0x400C000000000000] 3 0
          (freshParams 1)
        = .ret0 1 [exampleConn, exampleCmd, .float 0x400C000000000000] p' ∧
      slotAt p' 0 = ⟨FLOAT8OID, some (htobe64 0x400C000000000000), 8, 1⟩) ∧
    be64_unsigned (htobe64 0x400C000000000000) = 0x400C000000000000 ∧
    be64_signed (htobe64 (toUInt64 (-2))) = -2 ∧
    (conn_execParams noOom none 3
        [exampleConn, exampleCmd, .integer (-2), .float 0x400C000000000000]).slots.get? 0
      = some ⟨INT8OID, some (htobe64 (toUInt64 (-2))), 8, 1⟩ ∧
    (conn_execParams noOom none 3
        [exampleConn, exampleCmd, .integer (-2), .float 0x400C000000000000]).slots.get? 1
      = some ⟨FLOAT8OID, some (htobe64 0x400C000000000000), 8, 1⟩ :=
  ⟨(number_slot.1 noOom 1 [exampleConn, exampleCmd, .integer (-2)] 3 0 (freshParams 1)
      (by decide) (by decide) rfl).1 (-2) rfl,
   (number_slot.1 noOom 1 [exampleConn, exampleCmd, .float 0x400C000000000000] 3 0
      (freshParams 1) (by decide) (by decide) rfl).2 0x400C000000000000 rfl,
   (number_slot.2.1 0x400C000000000000).2.2 (by decide),
   number_slot.2.2.1 (-2) (by decide) (by decide),
   (number_slot.2.2.2 noOom none 3
      [exampleConn, exampleCmd, .integer (-2), .float 0x400C000000000000] 7 exampleCmd
      (by decide) (fun _ => rfl) (by decide) rfl rfl 0).1 (-2) rfl,
   (number_slot.2.2.2 noOom none 3
      [exampleConn, exampleCmd, .integer (-2), .float 0x400C000000000000] 7 exampleCmd
      (by decide) (fun _ => rfl) (by decide) rfl rfl 1).2 0x400C000000000000 rfl⟩

/-- C7. In a fill pass (four non-null arrays with a slot `n`),
`get_sql_params` turns each non-numeric scalar into exactly one slot (the
count is 1, slot `n` is the one assigned).  A boolean whose buffer
allocation succeeds gives type `BOOLOID`, a one-byte buffer holding 1 or 0,
length 1 and format 1.  A string of `len` bytes whose buffer allocation
succeeds gives type `TEXTOID` and a buffer of `len + 1` bytes, its bytes
followed by a zero byte; its length and format entries are not assigned, so
in a slot that is still as `calloc` left it the format is 0 (text).  `nil`
assigns a null value pointer and nothing else: in a slot that is still as
`calloc` left it the length is 0, and no allocation request is made.  In a
call of `conn_execParams` whose extra arguments are all scalars, with an
open connection, a command string and no failing allocation, the slots are
assigned while still zeroed: the native function receives these slots for
the boolean, string and `nil` arguments. -/
theorem scalar_slot :
    (∀ (oom : Nat → Bool) (fuel : Nat) (L : LuaStack) (t : Int) (n : Nat) (p : Params),
      1 ≤ fuel → inBounds p n = true →
      (∀ b : Bool, index2value L t = some (.boolean b) → oom p.allocs = false →
        ∃ p', get_sql_params oom fuel L t n p = .ret0 1 L p' ∧
          slotAt p' n = ⟨BOOLOID, some [if b then 1 else 0], 1, 1⟩ ∧
          p'.writes = p.writes ++ [n]) ∧
      (∀ s : List Nat, index2value L t = some (.string s) → oom p.allocs = false →
        slotAt p n = Slot.zero →
        ∃ p', get_sql_params oom fuel L t n p = .ret0 1 L p' ∧
          slotAt p' n = ⟨TEXTOID, some (s ++ [0]), 0, 0⟩ ∧
          p'.writes = p.writes ++ [n]) ∧
      (index2value L t = some .nil → slotAt p n = Slot.zero →
        ∃ p', get_sql_params oom fuel L t n p = .ret0 1 L p' ∧
          slotAt p' n = ⟨0, none, 0, 0⟩ ∧
          p'.allocs = p.allocs ∧ p'.log = p.log ∧
          p'.writes = p.writes ++ [n])) ∧
    (∀ s : List Nat, (s ++ [0]).length = s.length + 1) ∧
    (∀ (oom : Nat → Bool) (result : Option Nat) (fuel : Nat) (L : LuaStack) (h : Nat)
      (cmd : LuaValue), needFuel L ≤ fuel → (∀ j, oom j = false) →
      (∀ x ∈ L.drop 2, isLeaf x = true) → pgsql_conn L 1 = .ok h →
      luaL_checkstring L 2 = .ok cmd →
      (conn_execParams oom result fuel L).nParams? = some (L.drop 2).length ∧
      ∀ k : Nat,
        (∀ b : Bool, (L.drop 2).get? k = some (.boolean b) →
          (conn_execParams oom result fuel L).slots.get? k
            = some ⟨BOOLOID, some [if b then 1 else 0], 1, 1⟩) ∧
        (∀ s : List Nat, (L.drop 2).get? k = some (.string s) →
          (conn_execParams oom result fuel L).slots.get? k
            = some ⟨TEXTOID, some (s ++ [0]), 0, 0⟩) ∧
        ((L.drop 2).get? k = some .nil →
          (conn_execParams oom result fuel L).slots.get? k = some ⟨0, none, 0, 0⟩)) := by
  refine ⟨?_, fun s => by simp, ?_⟩
  · intro oom fuel L t n p hfuel hb
    exact scalar_case oom fuel L t n p hfuel hb
  · intro oom result fuel L h cmd hfuel hm hl hconn hcmd
    refine ⟨(scalars_end_to_end oom result fuel L h cmd hfuel hm hl hconn hcmd).1, fun k => ?_⟩
    exact ⟨fun b hb => slots_get_of_scalars oom result fuel L h cmd hfuel hm hl hconn hcmd k _ hb,
      fun s hs => slots_get_of_scalars oom result fuel L h cmd hfuel hm hl hconn hcmd k _ hs,
      fun hn => slots_get_of_scalars oom result fuel L h cmd hfuel hm hl hconn hcmd k _ hn⟩

/-- Witness of C7: `false`, `"abc"` and `nil`, met by `get_sql_params` at
stack index 3 and passed to `conn_execParams` as arguments. -/
theorem scalar_slot_witness :
    (∃ p', get_sql_params noOom 1 [exampleConn, exampleCmd, .boolean false] 3 0 (freshParams 1)
        = .ret0 1 [exampleConn, exampleCmd, .boolean false] p' ∧
      slotAt p' 0 = ⟨BOOLOID, some [0], 1, 1⟩ ∧
      p'.writes = (freshParams 1).writes ++ [0]) ∧
    (∃ p', get_sql_params noOom 1 [exampleConn, exampleCmd, .string [97, 98, 99]] 3 0
          (freshParams 1)
        = .ret0 1 [exampleConn, exampleCmd, .string [97, 98, 99]] p' ∧
      slotAt p' 0 = ⟨TEXTOID, some [97, 98, 99, 0], 0, 0⟩ ∧
      p'.writes = (freshParams 1).writes ++ [0]) ∧
    (∃ p', get_sql_params noOom 1 [exampleConn, exampleCmd, .nil] 3 0 (freshParams 1)
        = .ret0 1 [exampleConn, exampleCmd, .nil] p' ∧
      slotAt p' 0 = ⟨0, none, 0, 0⟩ ∧ p'.allocs = (freshParams 1).allocs ∧
      p'.log = (freshParams 1).log ∧ p'.writes = (freshParams 1).writes ++ [0]) ∧
    (conn_execParams noOom none 3
        [exampleConn, exampleCmd, .boolean false, .string [97, 98, 99], .nil]).nParams?
      = some 3 ∧
    (conn_execParams noOom none 3
        [exampleConn, exampleCmd, .boolean false, .string [97, 98, 99], .nil]).slots.get? 1
      = some ⟨TEXTOID, some [97, 98, 99, 0], 0, 0⟩ :=
  ⟨(scalar_slot.1 noOom 1 [exampleConn, exampleCmd, .boolean false] 3 0 (freshParams 1)
      (by decide) (by decide)).1 false rfl rfl,
   (scalar_slot.1 noOom 1 [exampleConn, exampleCmd, .string [97, 98, 99]] 3 0 (freshParams 1)
      (by decide) (by decide)).2.1 [97, 98, 99] rfl rfl (by decide),
   (scalar_slot.1 noOom 1 [exampleConn, exampleCmd, .nil] 3 0 (freshParams 1)
      (by decide) (by decide)).2.2 rfl (by decide),
   (scalar_slot.2.2 noOom none 3
      [exampleConn, exampleCmd, .boolean false, .string [97, 98, 99], .nil] 7 exampleCmd
      (by decide) (fun _ => rfl) (by decide) rfl rfl).1,
   ((scalar_slot.2.2 noOom none 3
      [exampleConn, exampleCmd, .boolean false, .string [97, 98, 99], .nil] 7 exampleCmd
      (by decide) (fun _ => rfl) (by decide) rfl rfl).2 1).2.1 [97, 98, 99] rfl⟩

/-- C8 (code bug). For an unsupported value inside a table argument the
error does not identify the position of the offending argument.  With the
extra argument `{1, print}` (argument 3 of the call) `conn_execParams`
raises the usage error "unsupported type" through `luaL_argerror(L, -1, ...)`:
the argument number is -1, the relative index of the element on the stack.
With the extra argument `{{print}}` the inner call indexes the key it has
just pushed (`lua_gettable(L, -1)`) and the function is left by the index
error, not by the usage error.  Both errors leave the function during the
count-only pass: nothing has been allocated and the native function is not
called.  An unsupported value that is an extra argument itself is reported
with its position (`true, print, nil`: argument 4). -/
theorem unsupported_element_reported_without_position :
    (conn_execParams noOom (some 1) 5
      [exampleConn, exampleCmd, .table [.integer 1, .func 0]]).error?
      = some (.argerror (-1) "unsupported type") ∧
    (conn_execParams noOom (some 1) 5
      [exampleConn, exampleCmd, .table [.integer 1, .func 0]]).log = [] ∧
    (conn_execParams noOom (some 1) 5
      [exampleConn, exampleCmd, .table [.integer 1, .func 0]]).call?.isNone = true ∧
    (conn_execParams noOom (some 1) 5
      [exampleConn, exampleCmd, .table [.table [.func 0]]]).error? = some .index_error ∧
    (conn_execParams noOom (some 1) 5
      [exampleConn, exampleCmd, .table [.table [.func 0]]]).log = [] ∧
    (conn_execParams noOom (some 1) 5
      [exampleConn, exampleCmd, .table [.table [.func 0]]]).call?.isNone = true ∧
    (conn_execParams noOom (some 1) 5
      [exampleConn, exampleCmd, .boolean true, .func 0, .nil]).error?
      = some (.argerror 4 "unsupported type") := by
  decide!

/-- C10 (code bug). With the extra argument `{true, false}` and an allocator
that fails on the buffer of `false` (request 5), `conn_execParams` raises
"out of memory" with the buffer of `true` (pointer 4) still allocated: at
`errout` the variable `sqlParams` is still 0, so the release loop frees
nothing.  When the same two values are passed as two arguments the buffer
is freed. -/
theorem errout_leaks_table_buffers :
    (conn_execParams (fun j => j == 5) (some 1) 5
      [exampleConn, exampleCmd, .table [.boolean true, .boolean false]]).error?
      = some (.error "out of memory") ∧
    replay (conn_execParams (fun j => j == 5) (some 1) 5
      [exampleConn, exampleCmd, .table [.boolean true, .boolean false]]).log [] = some [4] ∧
    replay (conn_execParams (fun j => j == 5) (some 1) 5
      [exampleConn, exampleCmd, .boolean true, .boolean false]).log [] = some [] := by
  decide!

/-- C11: the code does not keep the claim.  `conn:execParams(cmd, 1)` on a
finished connection, and on an open connection with a command that is not a
string (here the boolean `true`), raises the usage error and the native
function is not called; but the error is raised after the fill pass, and the
four arrays (pointers 0 to 3) and the value buffer (pointer 4) are still
allocated when the function is left. -/
theorem usage_error_after_fill_leaks_parameters :
    (conn_execParams noOom (some 9) 3 [finishedConn, exampleCmd, .integer 1]).error?
      = some (.argerror 1 "database connection is finished") ∧
    (conn_execParams noOom (some 9) 3 [finishedConn, exampleCmd, .integer 1]).call?.isNone
      = true ∧
    replay (conn_execParams noOom (some 9) 3 [finishedConn, exampleCmd, .integer 1]).log []
      = some [4, 3, 2, 1, 0] ∧
    (conn_execParams noOom (some 9) 3 [exampleConn, .boolean true, .integer 1]).error?
      = some (.argerror 2 "string expected") ∧
    (conn_execParams noOom (some 9) 3 [exampleConn, .boolean true, .integer 1]).call?.isNone
      = true ∧
    replay (conn_execParams noOom (some 9) 3 [exampleConn, .boolean true, .integer 1]).log []
      = some [4, 3, 2, 1, 0] := by
  decide!

namespace Handles

/-- C12: the code does not keep the claim for two explicit releases of a
large object.  On the example state: the first `lo:close()` calls `lo_close`
once and nulls the slot; a second `lo:close()` dereferences the null pointer
(undefined behaviour) instead of doing nothing.  The other sequences of the
claim behave as it says: `lo:close()` followed by the finalizer
`pgsql_lo_clear`, `conn_finish` twice on a connection that is not in the
registry, the finalizer `res_clear` twice and the finalizer `notify_clear`
twice all call the native release function once and leave a null slot. -/
theorem second_explicit_close_dereferences_null :
    (pgsql_lo_close 0 (frame [.userdata 3] exampleState)).state.events
        = [.native "lo_close" [.ptr (some 7), .int 3]] ∧
    (pgsql_lo_close 0 (frame [.userdata 3]
        (pgsql_lo_close 0 (frame [.userdata 3] exampleState)).state)).isUndefined = true ∧
    pgsql_lo_clear (frame [.userdata 3]
        (pgsql_lo_close 0 (frame [.userdata 3] exampleState)).state)
      = .ok 0 (frame [.userdata 3]
          (pgsql_lo_close 0 (frame [.userdata 3] exampleState)).state) ∧
    (conn_finish (frame [.userdata 0]
        (conn_finish (frame [.userdata 0] exampleState)).state)).state.events
        = [.native "PQfinish" [.ptr (some 7)]] ∧
    slotOf (conn_finish (frame [.userdata 0]
        (conn_finish (frame [.userdata 0] exampleState)).state)).state CONN_METATABLE 0
        = some none ∧
    (res_clear (frame [.userdata 1]
        (res_clear (frame [.userdata 1] exampleState)).state)).state.events
        = [.native "PQclear" [.ptr (some 8)]] ∧
    slotOf (res_clear (frame [.userdata 1]
        (res_clear (frame [.userdata 1] exampleState)).state)).state RES_METATABLE 1
        = some none ∧
    (notify_clear (frame [.userdata 2]
        (notify_clear (frame [.userdata 2] exampleState)).state)).state.events
        = [.native "PQfreemem" [.ptr (some 9)]] ∧
    slotOf (notify_clear (frame [.userdata 2]
        (notify_clear (frame [.userdata 2] exampleState)).state)).state NOTIFY_METATABLE 2
        = some none := by
  decide!

/-- C13.  For every state, and so for every content of the registry, and
every open connection object (address `a`, handle `h`), `conn_finish` calls
`PQfinish` on the handle when the registry holds no entry at the key
`lightuserdata h`, once, and makes no native call at all when it holds one. -/
theorem finish_closes_iff_unregistered (s : lua_State) (a h : Nat)
    (hopen : slotOf s CONN_METATABLE a = some (some h)) :
    (Table.get s.registry (.lightuserdata h) = .nil →
      (conn_finish (frame [.userdata a] s)).state.events
        = s.events ++ [.native "PQfinish" [.ptr (some h)]]) ∧
    (Table.get s.registry (.lightuserdata h) ≠ .nil →
      (conn_finish (frame [.userdata a] s)).state.events = s.events) := by
  refine ⟨fun hreg => (conn_finish_unregistered s a h hopen hreg).1, fun hreg => ?_⟩
  rw [conn_finish_registered s a h hopen hreg]
  rfl

theorem finish_closes_iff_unregistered_witness :
    (conn_finish (frame [.userdata 0] exampleState)).state.events
      = [.native "PQfinish" [.ptr (some 7)]] ∧
    (conn_finish (frame [.userdata 0] retainedState)).state.events = [] :=
  ⟨(finish_closes_iff_unregistered exampleState 0 7 (by decide!)).1 (by decide!),
   (finish_closes_iff_unregistered retainedState 0 7 (by decide!)).2 (by decide!)⟩

/-- C14, as the claim states it, fails: after `conn_finish` on a connection
whose handle is entered in the registry the slot still holds the handle, and
a later `conn:status()` on the same object reaches the native library. -/
theorem retained_connection_keeps_its_handle :
    slotOf (conn_finish (frame [.userdata 0] retainedState)).state CONN_METATABLE 0
      = some (some 7) ∧
    (conn_status 0 (frame [.userdata 0]
        (conn_finish (frame [.userdata 0] retainedState)).state)).state.events
      = [.native "PQstatus" [.ptr (some 7)]] := by
  decide!

/-- C14, amended.  When `conn_finish` is applied to an open connection
object whose handle has an entry in the registry, it returns without a
value and leaves the state as it was: `PQfinish` is not called (no event is
added) and the slot keeps the handle. -/
theorem finish_leaves_retained_connection (s : lua_State) (a h : Nat)
    (hopen : slotOf s CONN_METATABLE a = some (some h))
    (hreg : Table.get s.registry (.lightuserdata h) ≠ .nil) :
    conn_finish (frame [.userdata a] s) = .ok 0 (frame [.userdata a] s) ∧
    (conn_finish (frame [.userdata a] s)).state.events = s.events ∧
    slotOf (conn_finish (frame [.userdata a] s)).state CONN_METATABLE a = some (some h) := by
  rw [conn_finish_registered s a h hopen hreg]
  exact ⟨rfl, rfl, hopen⟩

theorem finish_leaves_retained_connection_witness :
    conn_finish (frame [.userdata 0] retainedState) = .ok 0 (frame [.userdata 0] retainedState) :=
  (finish_leaves_retained_connection retainedState 0 7 (by decide!) (by decide!)).1

/-- C16, as the claim states it, fails: when `PQexec` returns a null
pointer, `conn_exec` returns one value, a result object (here at address 5)
whose slot is null, not `nil`. -/
theorem exec_wraps_null_result :
    (conn_exec none (frame [.userdata 0, .string "select 1"] exampleState)).values
      = some [.userdata 5] ∧
    slotOf (conn_exec none (frame [.userdata 0, .string "select 1"] exampleState)).state
      RES_METATABLE 5 = some none := by
  decide!

/-- C16, amended.  On an open connection, `conn_exec`,
`conn_describePrepared` and `conn_describePortal` return a result object
whose slot holds what the native call returned, a null pointer included;
`conn_getResult` returns `nil` for a null pointer and a result object
holding the handle otherwise.  `conn_execParams`, `conn_execPrepared` and
`conn_prepare` return, whenever they return, a result object holding what
the native call returned, a null pointer included, and they do return for
accepted extra arguments whose count-only total is in the range of `int`, an
open connection, string arguments and an allocator that does not fail. -/
theorem result_object_wraps_native_handle (s : lua_State) (a h : Nat) (cmd : String)
    (result : Option Nat) (hopen : slotOf s CONN_METATABLE a = some (some h)) :
    returnsResult (conn_exec result (frame [.userdata a, .string cmd] s)) result = true ∧
    returnsResult (conn_describePrepared result (frame [.userdata a, .string cmd] s)) result
      = true ∧
    returnsResult (conn_describePortal result (frame [.userdata a, .string cmd] s)) result
      = true ∧
    (conn_getResult none (frame [.userdata a] s)).values = some [.nil] ∧
    (∀ p, returnsResult (conn_getResult (some p) (frame [.userdata a] s)) (some p) = true) ∧
    (∀ oom fuel L v,
      ((conn_execParams oom result fuel L).retval? = some v
        → v = .userdata RES_METATABLE result) ∧
      ((conn_execPrepared oom result fuel L).retval? = some v
        → v = .userdata RES_METATABLE result) ∧
      ((conn_prepare oom result fuel L).retval? = some v
        → v = .userdata RES_METATABLE result)) ∧
    (∀ oom fuel L c x y, needFuel L ≤ fuel → (∀ j, oom j = false) →
      LuaPgsql.pgsql_conn L 1 = .ok c → LuaPgsql.luaL_checkstring L 2 = .ok x →
      ((∀ v ∈ L.drop 2, accepted v = true) →
        ((conn_execParams oom result fuel L).inIntRange →
          (conn_execParams oom result fuel L).retval?
            = some (.userdata RES_METATABLE result)) ∧
        ((conn_execPrepared oom result fuel L).inIntRange →
          (conn_execPrepared oom result fuel L).retval?
            = some (.userdata RES_METATABLE result))) ∧
      ((∀ v ∈ L.drop 3, accepted v = true) → LuaPgsql.luaL_checkstring L 3 = .ok y →
        (conn_prepare oom result fuel L).inIntRange →
        (conn_prepare oom result fuel L).retval? = some (.userdata RES_METATABLE result))) := by
  refine ⟨?_, ?_, ?_, ?_, fun p => ?_, fun oom fuel L v => ⟨?_, ?_, ?_⟩,
    fun oom fuel L c x y hfuel hm hc hx =>
      ⟨fun hacc => ⟨fun _ => ?_, fun _ => ?_⟩, fun hacc hy _ => ?_⟩⟩
  · rw [conn_exec_spec s a h cmd result hopen]
    exact returnsResult_new s [.userdata a, .string cmd] result _
  · rw [conn_describePrepared_spec s a h cmd result hopen]
    exact returnsResult_new s [.userdata a, .string cmd] result _
  · rw [conn_describePortal_spec s a h cmd result hopen]
    exact returnsResult_new s [.userdata a, .string cmd] result _
  · rw [conn_getResult_null s a h hopen]
    rfl
  · rw [conn_getResult_some s a h p hopen]
    exact returnsResult_new s [.userdata a] (some p) _
  · exact conn_execParams_retval oom result fuel L v
  · exact conn_execPrepared_retval oom result fuel L v
  · exact conn_prepare_retval oom result fuel L v
  · exact retval_of_call (conn_execParams_returns oom result fuel L c x hfuel hm hacc hc hx)
      (conn_execParams_retval oom result fuel L)
  · exact retval_of_call (conn_execPrepared_returns oom result fuel L c x hfuel hm hacc hc hx)
      (conn_execPrepared_retval oom result fuel L)
  · exact retval_of_call (conn_prepare_returns oom result fuel L c x y hfuel hm hacc hc hx hy)
      (conn_prepare_retval oom result fuel L)

theorem result_object_wraps_native_handle_witness :
    returnsResult (conn_exec (some 12) (frame [.userdata 0, .string "select 1"] exampleState))
      (some 12) = true ∧
    (conn_getResult none (frame [.userdata 0] exampleState)).values = some [.nil] ∧
    returnsResult (conn_getResult (some 12) (frame [.userdata 0] exampleState)) (some 12)
      = true ∧
    (conn_execParams noOom (some 12) 3 [exampleConn, exampleCmd, .integer 1]).retval?
      = some (.userdata RES_METATABLE (some 12)) ∧
    (conn_prepare noOom none 3 [exampleConn, exampleCmd, exampleCmd, .integer 1]).retval?
      = some (.userdata RES_METATABLE none) :=
  ⟨(result_object_wraps_native_handle exampleState 0 7 "select 1" (some 12) (by decide!)).1,
   (result_object_wraps_native_handle exampleState 0 7 "select 1" (some 12)
      (by decide!)).2.2.2.1,
   (result_object_wraps_native_handle exampleState 0 7 "select 1" (some 12)
      (by decide!)).2.2.2.2.1 12,
   ((result_object_wraps_native_handle exampleState 0 7 "select 1" (some 12)
      (by decide!)).2.2.2.2.2.2 noOom 3 [exampleConn, exampleCmd, .integer 1] 7 exampleCmd
      exampleCmd (by decide) (fun _ => rfl) rfl rfl).1 (by decide) |>.1
      ⟨1, by decide!, by decide⟩,
   ((result_object_wraps_native_handle exampleState 0 7 "select 1" none
      (by decide!)).2.2.2.2.2.2 noOom 3 [exampleConn, exampleCmd, exampleCmd, .integer 1] 7
      exampleCmd exampleCmd (by decide) (fun _ => rfl) rfl rfl).2 (by decide) rfl
      ⟨1, by decide!, by decide⟩⟩

/-- C17: the code does not keep the claim when the callable raises an error.
With the Lua function 1 registered as notice receiver and a notice result
99: when the function returns, the wrapper (address 5) is left with a null
slot and its finalizer makes no native call; when the function raises the
error "boom", `noticeReceiver` is left by that error with the slot still
holding 99, and the finalizer `res_clear` then calls `PQclear` on the
notice result. -/
theorem notice_wrapper_keeps_handle_after_error :
    (noticeReceiver none 99 (frame [] receiverState)).state.events
      = [.pcall (.closure 1) [.userdata 5]] ∧
    slotOf (noticeReceiver none 99 (frame [] receiverState)).state RES_METATABLE 5
      = some none ∧
    (res_clear (frame [.userdata 5]
        (noticeReceiver none 99 (frame [] receiverState)).state)).state.events
      = [.pcall (.closure 1) [.userdata 5]] ∧
    (noticeReceiver (some "boom") 99 (frame [] receiverState)).error?
      = some (.error "boom") ∧
    (noticeReceiver (some "boom") 99 (frame [] receiverState)).state.events
      = [.pcall (.closure 1) [.userdata 5]] ∧
    slotOf (noticeReceiver (some "boom") 99 (frame [] receiverState)).state RES_METATABLE 5
      = some (some 99) ∧
    (res_clear (frame [.userdata 5]
        (noticeReceiver (some "boom") 99 (frame [] receiverState)).state)).state.events
      = [.pcall (.closure 1) [.userdata 5], .native "PQclear" [.ptr (some 99)]] := by
  decide!

/-- C18.  Let `conn_setNoticeProcessor` register `f` on an open connection
object and then register a callable `g` on an open connection object (the
same or another one).  The next call of `noticeProcessor` by the native
library, with any stack and any message, calls `g` once with the message
as its only argument, whether `g` returns or raises an error; these are all
the events of the three runs, so `f`, when it is another value, is not
called. -/
theorem newer_notice_processor_replaces_older (s : lua_State) (a1 a2 h1 h2 : Nat)
    (f g : TValue) (L : List TValue) (callee : Option String) (message : String)
    (hopen1 : slotOf s CONN_METATABLE a1 = some (some h1))
    (hopen2 : slotOf s CONN_METATABLE a2 = some (some h2))
    (hg : callable g = true) :
    (noticeProcessor callee message (frame L
        (conn_setNoticeProcessor (frame [.userdata a2, g]
          (conn_setNoticeProcessor (frame [.userdata a1, f] s)).state)).state)).state.events
      = s.events ++ [.native "PQsetNoticeProcessor" [.ptr (some h1)],
          .native "PQsetNoticeProcessor" [.ptr (some h2)], .pcall g [.string message]] ∧
    (f ≠ g → ∀ args, Event.pcall f args ∉
      (noticeProcessor callee message (frame L
        (conn_setNoticeProcessor (frame [.userdata a2, g]
          (conn_setNoticeProcessor (frame [.userdata a1, f] s)).state)).state)).newEvents s) := by
  have key : (noticeProcessor callee message (frame L
        (conn_setNoticeProcessor (frame [.userdata a2, g]
          (conn_setNoticeProcessor (frame [.userdata a1, f] s)).state)).state)).state.events
      = s.events ++ [.native "PQsetNoticeProcessor" [.ptr (some h1)],
          .native "PQsetNoticeProcessor" [.ptr (some h2)], .pcall g [.string message]] := by
    have e1 := conn_setNoticeProcessor_spec s a1 h1 f hopen1
    have hs1 : slotOf (conn_setNoticeProcessor (frame [.userdata a1, f] s)).state
        CONN_METATABLE a2 = some (some h2) := by
      rw [e1]; exact hopen2
    rw [conn_setNoticeProcessor_spec _ a2 h2 g hs1]
    simp only [Result.state]
    have hreg := Table.get_set_self
      (conn_setNoticeProcessor (frame [.userdata a1, f] s)).state.registry
      (.string "__pgsqlNoticeProcessor") g
    cases callee with
    | none =>
      rw [(noticeProcessor_spec _ L g message hreg hg).1]
      rw [e1]
      simp
    | some msg =>
      rw [(noticeProcessor_spec _ L g message hreg hg).2 msg]
      rw [e1]
      simp
  refine ⟨key, fun hne args hmem => ?_⟩
  rw [Result.newEvents, key, List.drop_left] at hmem
  simp at hmem
  exact hne hmem.1

theorem newer_notice_processor_replaces_older_witness :
    (noticeProcessor none "notice" (frame []
        (conn_setNoticeProcessor (frame [.userdata 0, .closure 2]
          (conn_setNoticeProcessor (frame [.userdata 0, .closure 1]
            exampleState)).state)).state)).state.events
      = [.native "PQsetNoticeProcessor" [.ptr (some 7)],
          .native "PQsetNoticeProcessor" [.ptr (some 7)],
          .pcall (.closure 2) [.string "notice"]] :=
  (newer_notice_processor_replaces_older exampleState 0 0 7 7 (.closure 1) (.closure 2) []
    none "notice" (by decide!) (by decide!) (by decide!)).1

/-- C20.  On an open connection object (address `a`, handle `h`): when
`PQgetCancel` returns a cancel handle `c`, `conn_cancel` calls `PQcancel`
and then `PQfreeCancel` on `c`, once each, and returns `true` when
`PQcancel` returned 1 and `false` followed by the message when it returned
0; when `PQgetCancel` returns a null pointer, it returns the single value
`false`, and neither `PQcancel` nor `PQfreeCancel` is called. -/
theorem cancel_frees_cancel_handle_once (s : lua_State) (a h : Nat) (errbuf : String)
    (hopen : slotOf s CONN_METATABLE a = some (some h)) :
    (∀ c : Nat,
      (conn_cancel (some c) 1 errbuf (frame [.userdata a] s)).values = some [.boolean true] ∧
      (conn_cancel (some c) 1 errbuf (frame [.userdata a] s)).state.events
        = s.events ++ [.native "PQgetCancel" [.ptr (some h)],
            .native "PQcancel" [.ptr (some c)], .native "PQfreeCancel" [.ptr (some c)]] ∧
      (conn_cancel (some c) 0 errbuf (frame [.userdata a] s)).values
        = some [.boolean false, .string errbuf] ∧
      (conn_cancel (some c) 0 errbuf (frame [.userdata a] s)).state.events
        = s.events ++ [.native "PQgetCancel" [.ptr (some h)],
            .native "PQcancel" [.ptr (some c)], .native "PQfreeCancel" [.ptr (some c)]]) ∧
    (∀ res : Int,
      (conn_cancel none res errbuf (frame [.userdata a] s)).values = some [.boolean false] ∧
      (conn_cancel none res errbuf (frame [.userdata a] s)).state.events
        = s.events ++ [.native "PQgetCancel" [.ptr (some h)]]) := by
  refine ⟨fun c => ?_, fun res => ?_⟩
  · rw [(conn_cancel_spec s a h c errbuf hopen).1, (conn_cancel_spec s a h c errbuf hopen).2]
    exact ⟨rfl, rfl, rfl, rfl⟩
  · rw [conn_cancel_no_handle s a h res errbuf hopen]
    exact ⟨rfl, rfl⟩

theorem cancel_frees_cancel_handle_once_witness :
    (conn_cancel (some 4) 1 "" (frame [.userdata 0] exampleState)).values
      = some [.boolean true] ∧
    (conn_cancel (some 4) 0 "timeout" (frame [.userdata 0] exampleState)).state.events
      = [.native "PQgetCancel" [.ptr (some 7)], .native "PQcancel" [.ptr (some 4)],
          .native "PQfreeCancel" [.ptr (some 4)]] ∧
    (conn_cancel none 1 "" (frame [.userdata 0] exampleState)).values
      = some [.boolean false] :=
  ⟨((cancel_frees_cancel_handle_once exampleState 0 7 "" (by decide!)).1 4).1,
   ((cancel_frees_cancel_handle_once exampleState 0 7 "timeout" (by decide!)).1 4).2.2.2,
   ((cancel_frees_cancel_handle_once exampleState 0 7 "" (by decide!)).2 1).1⟩

end Handles

/-- C21 (code bug). In `conn_sendQueryParams` and `conn_sendPrepare` the
total of the count-only pass and the total of the fill pass differ as soon as
a table follows another argument.  With the extra arguments `true, {1}` the
count-only pass totals 2 and the arrays get 2 slots, while the fill pass
totals 3, the parameter count handed to the native send function (and, in
`conn_sendQueryParams`, the bound of the release loop).  With
`true, {1}, false` the count-only pass totals 3, and the fill pass of
`conn_sendQueryParams` assigns `paramValues[3]`, beyond the three slots, and
hands over 4 parameters. -/
theorem send_fill_total_exceeds_count_total :
    (conn_sendQueryParams noOom 1 5
      [exampleConn, exampleCmd, .boolean true, .table [.integer 1]]).counted? = some 2 ∧
    ((conn_sendQueryParams noOom 1 5
      [exampleConn, exampleCmd, .boolean true, .table [.integer 1]]).paramValues?.map
        List.length) = some 2 ∧
    (conn_sendQueryParams noOom 1 5
      [exampleConn, exampleCmd, .boolean true, .table [.integer 1]]).nParams? = some 3 ∧
    (conn_sendQueryParams noOom 1 5
      [exampleConn, exampleCmd, .boolean true, .table [.integer 1], .boolean false]).counted?
      = some 3 ∧
    (conn_sendQueryParams noOom 1 5
      [exampleConn, exampleCmd, .boolean true, .table [.integer 1], .boolean false]).writes
      = [0, 1, 3] ∧
    (conn_sendQueryParams noOom 1 5
      [exampleConn, exampleCmd, .boolean true, .table [.integer 1], .boolean false]).nParams?
      = some 4 ∧
    (conn_sendPrepare noOom 1 5
      [exampleConn, exampleCmd, exampleCmd, .boolean true, .table [.integer 1]]).counted?
      = some 2 ∧
    ((conn_sendPrepare noOom 1 5
      [exampleConn, exampleCmd, exampleCmd, .boolean true, .table [.integer 1]]).paramTypes?.map
        List.length) = some 2 ∧
    (conn_sendPrepare noOom 1 5
      [exampleConn, exampleCmd, exampleCmd, .boolean true, .table [.integer 1]]).nParams?
      = some 3 := by
  decide!

/-- C22 (code bug). `conn_sendQueryPrepared` hands the native send function
the number of extra arguments, not the number of parameters, and its release
loop has the same bound.  With the extra argument `{1, 2}` it hands over the
same two-slot value array as `conn_execPrepared` but the count 1 where
`conn_execPrepared` hands over 2, and the buffer of the second element
(pointer 4) is still allocated at the end, where `conn_execPrepared` has
freed every buffer.  With the extra argument `{}` it hands over the count 1
and a null value array, where `conn_execPrepared` hands over the count 0; the
release loop then reads `paramValues[0]` through the null pointer. -/
theorem sendQueryPrepared_hands_over_argument_count :
    (conn_execPrepared noOom (some 1) 5
      [exampleConn, exampleCmd, .table [.integer 1, .integer 2]]).nParams? = some 2 ∧
    (conn_sendQueryPrepared noOom 1 5
      [exampleConn, exampleCmd, .table [.integer 1, .integer 2]]).nParams? = some 1 ∧
    (conn_sendQueryPrepared noOom 1 5
      [exampleConn, exampleCmd, .table [.integer 1, .integer 2]]).paramValues?
      = (conn_execPrepared noOom (some 1) 5
        [exampleConn, exampleCmd, .table [.integer 1, .integer 2]]).paramValues? ∧
    ((conn_sendQueryPrepared noOom 1 5
      [exampleConn, exampleCmd, .table [.integer 1, .integer 2]]).paramValues?.map
        List.length) = some 2 ∧
    replay (conn_execPrepared noOom (some 1) 5
      [exampleConn, exampleCmd, .table [.integer 1, .integer 2]]).log [] = some [] ∧
    replay (conn_sendQueryPrepared noOom 1 5
      [exampleConn, exampleCmd, .table [.integer 1, .integer 2]]).log [] = some [4] ∧
    (conn_execPrepared noOom (some 1) 5
      [exampleConn, exampleCmd, .table []]).nParams? = some 0 ∧
    (conn_sendQueryPrepared noOom 1 5
      [exampleConn, exampleCmd, .table []]).nParams? = some 1 ∧
    (conn_sendQueryPrepared noOom 1 5
      [exampleConn, exampleCmd, .table []]).call?.isSome = true ∧
    (conn_sendQueryPrepared noOom 1 5
      [exampleConn, exampleCmd, .table []]).paramValues? = none := by
  decide!

end LuaPgsql
